import Mathlib

/-!
# Student dashboard API: a shallow embedding and its verified properties

The development embeds the server side of the dashboard (`src/server`): the Mongoose models
`Task`, `Note`, `ChatMessage`, their controllers, and the authentication and rate-limit
middleware.  Documents are records, a collection is a list of documents in natural order, and a
handler is a function from the collection (plus the request and the clock) to a reply and the
new collection.

Conventions.
* A `Date` is its millisecond timestamp (`Time`), `null` is `none`.
* An `ObjectId` is a natural number; `_id` values are unique inside a collection when the
  theorem says so (`Nodup`).
* `validationResult(req)` of express-validator is the list of recorded errors; a handler that does
  not read it is modelled without it.
* Fields that no handler branch reads (`reminderDate`, durations, attachments, colour, reminders,
  collaborators, the metadata and the edit history of chat messages) are left out of the records.
* A JavaScript number that goes through a division is a double: the quotient and the product
  are rounded to 53 significant bits, ties to even (`Double.div`, `Double.mul`).
* A rejected database query is modelled only where a handler has a branch of its own for it
  (`lookupFails` in the authentication middleware); elsewhere the collection is always readable.
-/

namespace Dashboard

abbrev ObjectId := Nat
abbrev Time := Int

/-! ## Document-store primitives -/

/-- The `Model.findOne(filter)` query: the first document that satisfies the filter. -/
def findOne {α : Type} (p : α → Bool) (docs : List α) : Option α :=
  docs.find? p

/-- Rewrite the first document that satisfies `p` with `f`, as the single-document writes of
MongoDB do (`findOneAndUpdate`, and `save` of a loaded document). -/
def replaceFirst {α : Type} (p : α → Bool) (f : α → α) : List α → List α
  | [] => []
  | d :: ds => if p d then f d :: ds else d :: replaceFirst p f ds

/-- Remove the first document that satisfies `p` (`findOneAndDelete`). -/
def deleteFirst {α : Type} (p : α → Bool) : List α → List α
  | [] => []
  | d :: ds => if p d then ds else d :: deleteFirst p ds

/-- Stable insertion of `x` into a list ordered by `le`. -/
def insertSorted {α : Type} (le : α → α → Bool) (x : α) : List α → List α
  | [] => [x]
  | y :: ys => if le x y then x :: y :: ys else y :: insertSorted le x ys

/-- The `.sort(...)` stage of a query, as a stable sort over the natural order. -/
def sortDocs {α : Type} (le : α → α → Bool) : List α → List α
  | [] => []
  | x :: xs => insertSorted le x (sortDocs le xs)

/-- Set a key of a JavaScript object kept as an ordered key list: an existing key keeps its
position and takes the new value, a new key goes last. -/
def setKey (k : String) (v : Int) : List (String × Int) → List (String × Int)
  | [] => [(k, v)]
  | (k1, v1) :: rest => if k1 = k then (k, v) :: rest else (k1, v1) :: setKey k v rest

/-- Comparison under a sort specification: the keys are compared in the order in which the sort
object lists them, direction `1` ascending and any other direction descending. -/
def compareKeys {α : Type} (cmp : String → α → α → Ordering) :
    List (String × Int) → α → α → Ordering
  | [], _, _ => .eq
  | (k, dir) :: ks, a, b =>
    match cmp k a b with
    | .eq => compareKeys cmp ks a b
    | o => if dir = 1 then o else o.swap

/-- Order of a nullable value: `null` sorts before every value. -/
def compareNullable {α : Type} [Ord α] : Option α → Option α → Ordering
  | none, none => .eq
  | none, some _ => .lt
  | some _, none => .gt
  | some a, some b => compare a b

/-- The `.skip(skip).limit(limit)` stages.  MongoDB refuses a negative skip (`none`: the query
rejects) and reads the limit `0` as no limit. -/
def skipLimit {α : Type} (skip : Int) (limit : Nat) (docs : List α) : Option (List α) :=
  if skip < 0 then none
  else
    let rest := docs.drop skip.toNat
    some (if limit = 0 then rest else rest.take limit)

/-- The `Array.prototype.slice(start, end)` call with integer arguments. -/
def jsSlice {α : Type} (start stop : Int) (xs : List α) : List α :=
  let n : Int := xs.length
  let from_ := if start < 0 then max (n + start) 0 else min start n
  let to_ := if stop < 0 then max (n + stop) 0 else min stop n
  (xs.drop from_.toNat).take (to_ - from_).toNat

/-- The value of `Math.ceil(total / limit)` for a count and a non-negative integer limit. -/
def ceilPages (total limit : Nat) : Option Nat :=
  if limit = 0 then none else some ((total + limit - 1) / limit)

/-- A JavaScript string used as a condition: the empty string is falsy. -/
def truthyStr (s : Option String) : Option String :=
  s.filter (fun x => x ≠ "")

/-- The error envelope `{ error, code?, details? }` of a failure reply. -/
structure ErrorBody where
  error : String
  code : Option String
  details : List String := []
deriving DecidableEq, Repr

/-- The `pagination` object of a list reply.  `pages` is `Math.ceil(total / limit)`; it is `none`
when the quotient is not a number JSON can carry (`limit = 0`). -/
structure Pagination where
  page : Nat
  limit : Nat
  total : Nat
  pages : Option Nat
deriving DecidableEq, Repr

/-! ## Task model (`models/Task.js`) -/

structure Subtask where
  id : ObjectId
  title : String
  completed : Bool := false
  completedAt : Option Time := none
deriving DecidableEq, Repr

structure Task where
  id : ObjectId
  title : String
  description : Option String := none
  status : String := "pending"
  priority : String := "medium"
  category : String := "personal"
  dueDate : Option Time := none
  completedAt : Option Time := none
  tags : List String := []
  subtasks : List Subtask := []
  user : ObjectId
  createdAt : Time
  updatedAt : Time
deriving DecidableEq, Repr

/-- The `taskSchema.pre('save')` hook.  `statusModified` is `this.isModified('status')`. -/
def Task.preSave (statusModified : Bool) (now : Time) (t : Task) : Task :=
  if statusModified then
    if t.status = "completed" ∧ t.completedAt.isNone then
      { t with completedAt := some now }
    else if t.status ≠ "completed" then
      { t with completedAt := none }
    else t
  else t

/-- A `doc.save()` of a task loaded as `orig` and now holding `cur`: Mongoose marks a path modified
when its value differs from the loaded one, runs the pre-save hook, stamps `updatedAt` when
something is written, and writes the document back under its `_id`. -/
def Task.save (db : List Task) (orig cur : Task) (now : Time) : Task × List Task :=
  let hooked := Task.preSave (decide (orig.status ≠ cur.status)) now cur
  let stored := if hooked = orig then hooked else { hooked with updatedAt := now }
  (stored, replaceFirst (fun d => d.id == stored.id) (fun _ => stored) db)

/-- The `markCompleted` method. -/
def Task.markCompleted (db : List Task) (t : Task) (now : Time) : Task × List Task :=
  Task.save db t { t with status := "completed", completedAt := some now } now

/-- The `addSubtask` method: `this.subtasks.push({ title })`, the subdocument takes the schema
defaults and a fresh `_id`. -/
def Task.addSubtask (db : List Task) (t : Task) (title : String) (newId : ObjectId)
    (now : Time) : Task × List Task :=
  Task.save db t { t with subtasks := t.subtasks ++ [{ id := newId, title := title }] } now

/-- The schema fields an update document can name.  `none` means the key is absent;
`dueDate` and `completedAt` can be present with the value `null`. -/
structure TaskPatch where
  title : Option String := none
  description : Option String := none
  status : Option String := none
  priority : Option String := none
  category : Option String := none
  dueDate : Option (Option Time) := none
  completedAt : Option (Option Time) := none
  tags : Option (List String) := none
  user : Option ObjectId := none
deriving DecidableEq, Repr

/-- A request body used as an update document: its top-level keys and its `$set` operator. -/
structure TaskUpdate where
  top : TaskPatch := {}
  dollarSet : Option TaskPatch := none
deriving DecidableEq, Repr

/-- Overlay of two patches, the keys of `a` winning. -/
def TaskPatch.over (a b : TaskPatch) : TaskPatch :=
  { title := a.title <|> b.title
    description := a.description <|> b.description
    status := a.status <|> b.status
    priority := a.priority <|> b.priority
    category := a.category <|> b.category
    dueDate := a.dueDate <|> b.dueDate
    completedAt := a.completedAt <|> b.completedAt
    tags := a.tags <|> b.tags
    user := a.user <|> b.user }

/-- Mongoose casts an update document to one `$set`: top-level keys are `$set` sugar and are
written over the keys of an explicit `$set`. -/
def TaskUpdate.effective (u : TaskUpdate) : TaskPatch :=
  match u.dollarSet with
  | none => u.top
  | some s => u.top.over s

/-- The `$set` of a patch on a stored task: the `trim` setters of the schema run on the string
paths, and `timestamps: true` stamps `updatedAt`. -/
def TaskPatch.apply (p : TaskPatch) (now : Time) (t : Task) : Task :=
  { t with
    title := (p.title.map String.trim).getD t.title
    description := p.description.map String.trim <|> t.description
    status := p.status.getD t.status
    priority := p.priority.getD t.priority
    category := p.category.getD t.category
    dueDate := p.dueDate.getD t.dueDate
    completedAt := p.completedAt.getD t.completedAt
    tags := (p.tags.map fun ts => ts.map String.trim).getD t.tags
    user := p.user.getD t.user
    updatedAt := now }

def taskStatuses : List String := ["pending", "in_progress", "completed", "cancelled"]
def taskPriorities : List String := ["low", "medium", "high", "urgent"]
def taskCategories : List String := ["personal", "work", "study", "health", "finance", "other"]

/-- The update validators (`runValidators: true`) of the task schema on the keys of a patch. -/
def TaskPatch.valid (p : TaskPatch) : Bool :=
  (p.title.all fun s => s.trim.length ≠ 0 && s.trim.length ≤ 200) &&
  (p.description.all fun s => s.trim.length ≤ 1000) &&
  (p.status.all fun s => taskStatuses.contains s) &&
  (p.priority.all fun s => taskPriorities.contains s) &&
  (p.category.all fun s => taskCategories.contains s) &&
  (p.tags.all fun ts => ts.all fun s => s.trim.length ≤ 30)

/-! ## Task controller (`controllers/taskController.js`) -/

inductive TaskReply where
  | fail (status : Nat) (body : ErrorBody)
  | one (status : Nat) (message : Option String) (task : Task)
  | many (tasks : List Task) (pagination : Pagination)
  | done (message : String)
deriving DecidableEq, Repr

def taskNotFound : TaskReply :=
  .fail 404 { error := "Task not found", code := some "TASK_NOT_FOUND" }

def getTaskById (db : List Task) (userId taskId : ObjectId) : TaskReply × List Task :=
  match findOne (fun d => d.id == taskId && d.user == userId) db with
  | none => (taskNotFound, db)
  | some task => (.one 200 none task, db)

/-- The `updateTask` handler.  `errors` is `validationResult(req)`.  `Task.findOneAndUpdate` runs
the update validators, then rewrites the first task matching `{ _id, user }`; no save hook runs
on this path (the schema registers only `pre('save')`). -/
def updateTask (db : List Task) (userId taskId : ObjectId) (errors : List String)
    (body : TaskUpdate) (now : Time) : TaskReply × List Task :=
  if !errors.isEmpty then
    (.fail 400 { error := "Validation failed", code := none, details := errors }, db)
  else
    let updateData : TaskUpdate := { body with top := { body.top with user := none } }
    let patch := updateData.effective
    if !patch.valid then
      (.fail 500 { error := "Failed to update task", code := some "UPDATE_ERROR" }, db)
    else
      match findOne (fun d => d.id == taskId && d.user == userId) db with
      | none => (taskNotFound, db)
      | some task =>
        (.one 200 (some "Task updated successfully") (patch.apply now task),
          replaceFirst (fun d => d.id == taskId && d.user == userId) (patch.apply now) db)

def deleteTask (db : List Task) (userId taskId : ObjectId) : TaskReply × List Task :=
  match findOne (fun d => d.id == taskId && d.user == userId) db with
  | none => (taskNotFound, db)
  | some _ =>
    (.done "Task deleted successfully",
      deleteFirst (fun d => d.id == taskId && d.user == userId) db)

def completeTask (db : List Task) (userId taskId : ObjectId) (now : Time) :
    TaskReply × List Task :=
  match findOne (fun d => d.id == taskId && d.user == userId) db with
  | none => (taskNotFound, db)
  | some task =>
    let r := task.markCompleted db now
    (.one 200 (some "Task marked as completed") r.1, r.2)

/-- A request value that has not been cast yet. -/
inductive JsVal where
  | bool (b : Bool)
  | num (n : Int)
  | str (s : String)
deriving DecidableEq, Repr

/-- JavaScript truthiness of a request value (`completed ? ... : ...`). -/
def JsVal.truthy : JsVal → Bool
  | .bool b => b
  | .num n => n ≠ 0
  | .str s => s ≠ ""

/-- The Mongoose cast to `Boolean`; `none` is a cast error. -/
def JsVal.castBoolean : JsVal → Option Bool
  | .bool b => some b
  | .num n => if n = 1 then some true else if n = 0 then some false else none
  | .str s =>
    if s = "true" ∨ s = "1" ∨ s = "yes" then some true
    else if s = "false" ∨ s = "0" ∨ s = "no" then some false
    else none

def subtaskError : TaskReply :=
  .fail 500 { error := "Failed to add subtask", code := some "SUBTASK_ERROR" }

/-- The schema of a subtask title: trimmed, required, at most 100 characters. -/
def subtaskTitleValid (title : String) : Bool :=
  title.trim.length ≠ 0 && title.trim.length ≤ 100

/-- The `addSubtask` handler; `title` is `req.body.title`, `newId` the `_id` given to the new
subdocument. -/
def addSubtask (db : List Task) (userId taskId : ObjectId) (title : Option String)
    (newId : ObjectId) (now : Time) : TaskReply × List Task :=
  match truthyStr title with
  | none =>
    (.fail 400 { error := "Subtask title is required", code := some "VALIDATION_ERROR" }, db)
  | some title =>
    if title.trim.length = 0 then
      (.fail 400 { error := "Subtask title is required", code := some "VALIDATION_ERROR" }, db)
    else
      match findOne (fun d => d.id == taskId && d.user == userId) db with
      | none => (taskNotFound, db)
      | some task =>
        if !subtaskTitleValid title.trim then (subtaskError, db)
        else
          let r := task.addSubtask db title.trim newId now
          (.one 200 (some "Subtask added successfully") r.1, r.2)

/-- The `updateSubtask` handler; `title` and `completed` are the body fields (`none` is
`undefined`). -/
def updateSubtask (db : List Task) (userId taskId subtaskId : ObjectId) (title : Option String)
    (completed : Option JsVal) (now : Time) : TaskReply × List Task :=
  match findOne (fun d => d.id == taskId && d.user == userId) db with
  | none => (taskNotFound, db)
  | some task =>
    match task.subtasks.find? (fun s => s.id == subtaskId) with
    | none => (.fail 404 { error := "Subtask not found", code := some "SUBTASK_NOT_FOUND" }, db)
    | some subtask =>
      let s1 : Subtask := match title with
        | some t => { subtask with title := t.trim }
        | none => subtask
      let s2 : Option Subtask := match completed with
        | none => some s1
        | some c => c.castBoolean.map fun b =>
            { s1 with completed := b, completedAt := if c.truthy then some now else none }
      match s2 with
      | none =>
        (.fail 500 { error := "Failed to update subtask", code := some "SUBTASK_ERROR" }, db)
      | some s =>
        if !subtaskTitleValid s.title && title.isSome then
          (.fail 500 { error := "Failed to update subtask", code := some "SUBTASK_ERROR" }, db)
        else
          let subtasks := replaceFirst (fun x => x.id == subtaskId) (fun _ => s) task.subtasks
          let r := Task.save db task { task with subtasks := subtasks } now
          (.one 200 (some "Subtask updated successfully") r.1, r.2)

/-- The `deleteSubtask` handler: `task.subtasks.id(subtaskId)` is `null` for an unknown id and the
call of `.remove()` on it throws into the catch block. -/
def deleteSubtask (db : List Task) (userId taskId subtaskId : ObjectId) (now : Time) :
    TaskReply × List Task :=
  match findOne (fun d => d.id == taskId && d.user == userId) db with
  | none => (taskNotFound, db)
  | some task =>
    match task.subtasks.find? (fun s => s.id == subtaskId) with
    | none =>
      (.fail 500 { error := "Failed to delete subtask", code := some "SUBTASK_ERROR" }, db)
    | some _ =>
      let subtasks := deleteFirst (fun x => x.id == subtaskId) task.subtasks
      let r := Task.save db task { task with subtasks := subtasks } now
      (.one 200 (some "Subtask deleted successfully") r.1, r.2)

/-- The query string of `GET /api/tasks`.  `page` and `limit` are the numbers their decimal
strings denote. -/
structure TaskQuery where
  status : Option String := none
  priority : Option String := none
  category : Option String := none
  page : Option Nat := none
  limit : Option Nat := none
  sortBy : Option String := none
  sortOrder : Option String := none
  search : Option String := none
deriving DecidableEq, Repr

/-- Comparison of two tasks on one schema path; an unknown path orders nothing. -/
def Task.compareOn (key : String) (a b : Task) : Ordering :=
  if key = "createdAt" then compare a.createdAt b.createdAt
  else if key = "updatedAt" then compare a.updatedAt b.updatedAt
  else if key = "dueDate" then compareNullable a.dueDate b.dueDate
  else if key = "completedAt" then compareNullable a.completedAt b.completedAt
  else if key = "priority" then compare a.priority b.priority
  else if key = "title" then compare a.title b.title
  else if key = "status" then compare a.status b.status
  else if key = "category" then compare a.category b.category
  else if key = "_id" then compare a.id b.id
  else .eq

/-- The filter object built by `getTasks`; `rx pattern text` is the case-insensitive `$regex`
match of MongoDB. -/
def taskFilter (rx : String → String → Bool) (userId : ObjectId) (q : TaskQuery) (d : Task) :
    Bool :=
  d.user == userId &&
  (match truthyStr q.status with | some s => d.status == s | none => true) &&
  (match truthyStr q.priority with | some s => d.priority == s | none => true) &&
  (match truthyStr q.category with | some s => d.category == s | none => true) &&
  (match truthyStr q.search with
    | some s => rx s d.title || (d.description.any fun x => rx s x) || d.tags.any (rx s)
    | none => true)

/-- The `getTasks` handler. -/
def getTasks (rx : String → String → Bool) (db : List Task) (userId : ObjectId)
    (q : TaskQuery) : TaskReply :=
  let page := q.page.getD 1
  let limit := q.limit.getD 20
  let sortBy := q.sortBy.getD "createdAt"
  let sortOrder := q.sortOrder.getD "desc"
  let skip : Int := ((page : Int) - 1) * limit
  let sort := setKey sortBy (if sortOrder = "asc" then 1 else -1) []
  let found := sortDocs (fun a b => compareKeys Task.compareOn sort a b != .gt)
    (db.filter (taskFilter rx userId q))
  match skipLimit skip limit found with
  | none => .fail 500 { error := "Failed to get tasks", code := some "GET_ERROR" }
  | some tasks =>
    let totalTasks := (db.filter (taskFilter rx userId q)).length
    .many tasks { page := page, limit := limit, total := totalTasks,
                  pages := ceilPages totalTasks limit }

/-! ## Note model (`models/Note.js`) -/

structure Note where
  id : ObjectId
  title : String
  content : String
  category : String := "personal"
  tags : List String := []
  isPinned : Bool := false
  isArchived : Bool := false
  version : Int := 1
  lastEditedBy : Option ObjectId := none
  user : ObjectId
  createdAt : Time
  updatedAt : Time
deriving DecidableEq, Repr

/-- The `noteSchema.pre('save')` hook.  `edited` is
`this.isModified('content') || this.isModified('title')`. -/
def Note.preSave (edited : Bool) (n : Note) : Note :=
  if edited then { n with version := n.version + 1 } else n

/-- A `doc.save()` of a note loaded as `orig` and now holding `cur`. -/
def Note.save (db : List Note) (orig cur : Note) (now : Time) : Note × List Note :=
  let hooked := Note.preSave (decide (orig.content ≠ cur.content) || decide (orig.title ≠ cur.title))
    cur
  let stored := if hooked = orig then hooked else { hooked with updatedAt := now }
  (stored, replaceFirst (fun d => d.id == stored.id) (fun _ => stored) db)

def Note.togglePin (db : List Note) (n : Note) (now : Time) : Note × List Note :=
  Note.save db n { n with isPinned := !n.isPinned } now

def Note.toggleArchive (db : List Note) (n : Note) (now : Time) : Note × List Note :=
  Note.save db n { n with isArchived := !n.isArchived } now

/-- The `addTag` method; a tag already in the list resolves to the note without a save. -/
def Note.addTag (db : List Note) (n : Note) (tag : String) (now : Time) : Note × List Note :=
  if !n.tags.contains tag then Note.save db n { n with tags := n.tags ++ [tag] } now
  else (n, db)

def Note.removeTag (db : List Note) (n : Note) (tag : String) (now : Time) : Note × List Note :=
  Note.save db n { n with tags := n.tags.filter (fun t => t ≠ tag) } now

/-- The parts of the database engine the note and task queries rely on: the case-insensitive
`$regex` match, whether a `$text` query can run, and the relevance a `$text` search gives a
note (`0`: the note does not match). -/
structure Engine where
  regex : String → String → Bool
  textAvailable : Bool
  textScore : String → Note → Nat

/-- The `searchNotes` static: `none` when the `$text` query rejects. -/
def Note.searchNotes (eng : Engine) (db : List Note) (userId : ObjectId) (query : String) :
    Option (List Note) :=
  if eng.textAvailable then
    some (sortDocs (fun a b => eng.textScore query b ≤ eng.textScore query a)
      (db.filter fun d => d.user == userId && !d.isArchived && eng.textScore query d != 0))
  else none

/-- Comparison of two notes on one schema path; an unknown path orders nothing. -/
def Note.compareOn (key : String) (a b : Note) : Ordering :=
  if key = "createdAt" then compare a.createdAt b.createdAt
  else if key = "updatedAt" then compare a.updatedAt b.updatedAt
  else if key = "title" then compare a.title b.title
  else if key = "category" then compare a.category b.category
  else if key = "content" then compare a.content b.content
  else if key = "isPinned" then compare a.isPinned.toNat b.isPinned.toNat
  else if key = "isArchived" then compare a.isArchived.toNat b.isArchived.toNat
  else if key = "version" then compare a.version b.version
  else if key = "_id" then compare a.id b.id
  else .eq

/-- The `.sort(sort)` stage on notes. -/
def Note.sortBy (sort : List (String × Int)) (docs : List Note) : List Note :=
  sortDocs (fun a b => compareKeys Note.compareOn sort a b != .gt) docs

/-- The `getByCategory` static. -/
def Note.getByCategory (db : List Note) (userId : ObjectId) (category : String) : List Note :=
  Note.sortBy [("isPinned", -1), ("updatedAt", -1)]
    (db.filter fun d => d.user == userId && d.category == category && !d.isArchived)

/-- The `getArchived` static. -/
def Note.getArchived (db : List Note) (userId : ObjectId) : List Note :=
  Note.sortBy [("updatedAt", -1)] (db.filter fun d => d.user == userId && d.isArchived)

structure NotePatch where
  title : Option String := none
  content : Option String := none
  category : Option String := none
  tags : Option (List String) := none
  isPinned : Option Bool := none
  isArchived : Option Bool := none
  version : Option Int := none
  lastEditedBy : Option ObjectId := none
  user : Option ObjectId := none
deriving DecidableEq, Repr

structure NoteUpdate where
  top : NotePatch := {}
  dollarSet : Option NotePatch := none
deriving DecidableEq, Repr

def NotePatch.over (a b : NotePatch) : NotePatch :=
  { title := a.title <|> b.title
    content := a.content <|> b.content
    category := a.category <|> b.category
    tags := a.tags <|> b.tags
    isPinned := a.isPinned <|> b.isPinned
    isArchived := a.isArchived <|> b.isArchived
    version := a.version <|> b.version
    lastEditedBy := a.lastEditedBy <|> b.lastEditedBy
    user := a.user <|> b.user }

def NoteUpdate.effective (u : NoteUpdate) : NotePatch :=
  match u.dollarSet with
  | none => u.top
  | some s => u.top.over s

/-- The `$set` of a patch on a stored note (`title` and the tags are trimmed by the schema). -/
def NotePatch.apply (p : NotePatch) (now : Time) (n : Note) : Note :=
  { n with
    title := (p.title.map String.trim).getD n.title
    content := p.content.getD n.content
    category := p.category.getD n.category
    tags := (p.tags.map fun ts => ts.map String.trim).getD n.tags
    isPinned := p.isPinned.getD n.isPinned
    isArchived := p.isArchived.getD n.isArchived
    version := p.version.getD n.version
    lastEditedBy := p.lastEditedBy <|> n.lastEditedBy
    user := p.user.getD n.user
    updatedAt := now }

def noteCategories : List String :=
  ["personal", "work", "study", "ideas", "meeting", "research", "other"]

/-- The update validators of the note schema on the keys of a patch. -/
def NotePatch.valid (p : NotePatch) : Bool :=
  (p.title.all fun s => s.trim.length ≠ 0 && s.trim.length ≤ 200) &&
  (p.content.all fun s => s.length ≠ 0 && s.length ≤ 50000) &&
  (p.category.all fun s => noteCategories.contains s) &&
  (p.tags.all fun ts => ts.all fun s => s.trim.length ≤ 30)

/-! ## Note controller (`controllers/noteController.js`) -/

inductive NoteReply where
  | fail (status : Nat) (body : ErrorBody)
  | one (status : Nat) (message : Option String) (note : Note)
  | many (notes : List Note) (pagination : Pagination) (searchQuery : Option String)
  | done (message : String)
deriving DecidableEq, Repr

def noteNotFound : NoteReply :=
  .fail 404 { error := "Note not found", code := some "NOTE_NOT_FOUND" }

/-- The query string of `GET /api/notes`. -/
structure NoteQuery where
  category : Option String := none
  page : Option Nat := none
  limit : Option Nat := none
  sortBy : Option String := none
  sortOrder : Option String := none
  search : Option String := none
  archived : Option String := none
  pinned : Option String := none
deriving DecidableEq, Repr

/-- The filter object of `getNotes` on the regular path; a search term that reaches this path
(the `$text` query rejected) adds the `$or` of the regex fallback. -/
def noteFilter (eng : Engine) (userId : ObjectId) (q : NoteQuery) (d : Note) : Bool :=
  d.user == userId &&
  (match truthyStr q.category with | some c => d.category == c | none => true) &&
  (d.isArchived == decide (q.archived.getD "false" = "true")) &&
  (match q.pinned with | some p => d.isPinned == decide (p = "true") | none => true) &&
  (match truthyStr q.search with
    | some s => eng.regex s d.title || eng.regex s d.content || d.tags.any (eng.regex s)
    | none => true)

/-- The `getNotes` handler. -/
def getNotes (eng : Engine) (db : List Note) (userId : ObjectId) (q : NoteQuery) : NoteReply :=
  let page := q.page.getD 1
  let limit := q.limit.getD 20
  let sortBy := q.sortBy.getD "updatedAt"
  let sortOrder := q.sortOrder.getD "desc"
  let skip : Int := ((page : Int) - 1) * limit
  let isArchived := decide (q.archived.getD "false" = "true")
  let searched : Option (List Note) :=
    match truthyStr q.search with
    | some s => Note.searchNotes eng db userId s
    | none => none
  match searched with
  | some searchResults =>
    .many (jsSlice skip (skip + limit) searchResults)
      { page := page, limit := limit, total := searchResults.length,
        pages := ceilPages searchResults.length limit }
      q.search
  | none =>
    let sort := setKey sortBy (if sortOrder = "asc" then 1 else -1) []
    let sort := if !isArchived then setKey "isPinned" (-1) sort else sort
    let found := Note.sortBy sort (db.filter (noteFilter eng userId q))
    match skipLimit skip limit found with
    | none => .fail 500 { error := "Failed to get notes", code := some "GET_ERROR" }
    | some notes =>
      let totalNotes := (db.filter (noteFilter eng userId q)).length
      .many notes
        { page := page, limit := limit, total := totalNotes, pages := ceilPages totalNotes limit }
        none

/-- The `getArchivedNotes` handler. -/
def getArchivedNotes (db : List Note) (userId : ObjectId) (page limit : Option Nat) :
    NoteReply :=
  let page := page.getD 1
  let limit := limit.getD 20
  let skip : Int := ((page : Int) - 1) * limit
  match skipLimit skip limit (Note.getArchived db userId) with
  | none => .fail 500 { error := "Failed to get archived notes", code := some "ARCHIVED_ERROR" }
  | some notes =>
    let totalArchived := (db.filter fun d => d.user == userId && d.isArchived).length
    .many notes
      { page := page, limit := limit, total := totalArchived,
        pages := ceilPages totalArchived limit }
      none

def getNoteById (db : List Note) (userId noteId : ObjectId) : NoteReply × List Note :=
  match findOne (fun d => d.id == noteId && d.user == userId) db with
  | none => (noteNotFound, db)
  | some note => (.one 200 none note, db)

/-- The `updateNote` handler.  As in `updateTask`, the write is a `findOneAndUpdate`, on which
no save hook runs. -/
def updateNote (db : List Note) (userId noteId : ObjectId) (errors : List String)
    (body : NoteUpdate) (now : Time) : NoteReply × List Note :=
  if !errors.isEmpty then
    (.fail 400 { error := "Validation failed", code := none, details := errors }, db)
  else
    let updateData : NoteUpdate :=
      { body with top := { body.top with user := none, lastEditedBy := some userId } }
    let patch := updateData.effective
    if !patch.valid then
      (.fail 500 { error := "Failed to update note", code := some "UPDATE_ERROR" }, db)
    else
      match findOne (fun d => d.id == noteId && d.user == userId) db with
      | none => (noteNotFound, db)
      | some note =>
        (.one 200 (some "Note updated successfully") (patch.apply now note),
          replaceFirst (fun d => d.id == noteId && d.user == userId) (patch.apply now) db)

def deleteNote (db : List Note) (userId noteId : ObjectId) : NoteReply × List Note :=
  match findOne (fun d => d.id == noteId && d.user == userId) db with
  | none => (noteNotFound, db)
  | some _ =>
    (.done "Note deleted successfully",
      deleteFirst (fun d => d.id == noteId && d.user == userId) db)

def togglePin (db : List Note) (userId noteId : ObjectId) (now : Time) : NoteReply × List Note :=
  match findOne (fun d => d.id == noteId && d.user == userId) db with
  | none => (noteNotFound, db)
  | some note =>
    let r := note.togglePin db now
    (.one 200 (some (if r.1.isPinned then "Note pinned successfully"
      else "Note unpinned successfully")) r.1, r.2)

def toggleArchive (db : List Note) (userId noteId : ObjectId) (now : Time) :
    NoteReply × List Note :=
  match findOne (fun d => d.id == noteId && d.user == userId) db with
  | none => (noteNotFound, db)
  | some note =>
    let r := note.toggleArchive db now
    (.one 200 (some (if r.1.isArchived then "Note archived successfully"
      else "Note unarchived successfully")) r.1, r.2)

/-- The `addTag` handler; `tag` is `req.body.tag`.  A tag longer than the schema allows makes the
save reject. -/
def addTag (db : List Note) (userId noteId : ObjectId) (tag : Option String) (now : Time) :
    NoteReply × List Note :=
  match truthyStr tag with
  | none => (.fail 400 { error := "Tag is required", code := some "VALIDATION_ERROR" }, db)
  | some tag =>
    if tag.trim.length = 0 then
      (.fail 400 { error := "Tag is required", code := some "VALIDATION_ERROR" }, db)
    else
      match findOne (fun d => d.id == noteId && d.user == userId) db with
      | none => (noteNotFound, db)
      | some note =>
        let t := tag.trim.toLower
        if !note.tags.contains t && 30 < t.length then
          (.fail 500 { error := "Failed to add tag", code := some "TAG_ERROR" }, db)
        else
          let r := note.addTag db t now
          (.one 200 (some "Tag added successfully") r.1, r.2)

/-- The `removeTag` handler; `tag` is the route parameter. -/
def removeTag (db : List Note) (userId noteId : ObjectId) (tag : String) (now : Time) :
    NoteReply × List Note :=
  match findOne (fun d => d.id == noteId && d.user == userId) db with
  | none => (noteNotFound, db)
  | some note =>
    let r := note.removeTag db tag now
    (.one 200 (some "Tag removed successfully") r.1, r.2)

/-! ## Chat messages (`models/ChatMessage.js`, `controllers/chatController.js`) -/

structure Reaction where
  type : String
  timestamp : Time
deriving DecidableEq, Repr

structure ChatMessage where
  id : ObjectId
  user : ObjectId
  sessionId : String
  role : String
  content : String
  context : String := "general"
  reactions : List Reaction := []
  isEdited : Bool := false
  isDeleted : Bool := false
  deletedAt : Option Time := none
  createdAt : Time
  updatedAt : Time
deriving DecidableEq, Repr

/-- One element of the `messages` array of a search reply. -/
structure SearchHit where
  id : ObjectId
  content : String
  role : String
  sessionId : String
  context : String
  createdAt : Time
deriving DecidableEq, Repr

inductive ChatReply where
  | fail (status : Nat) (body : ErrorBody)
  | history (messages : List ChatMessage) (pagination : Pagination) (sessionId : Option String)
  | found (messages : List SearchHit) (query : String) (total : Nat)
deriving DecidableEq, Repr

/-- The filter `{ user, sessionId, isDeleted: { $ne: true } }`.  An `undefined` session id is sent
as `null`, which no stored message has. -/
def historyFilter (userId : ObjectId) (sessionId : Option String) (d : ChatMessage) : Bool :=
  d.user == userId && sessionId == some d.sessionId && d.isDeleted != true

/-- The `getChatHistory` handler; `sessionId` is `req.params.sessionId`. -/
def getChatHistory (db : List ChatMessage) (userId : ObjectId) (sessionId : Option String)
    (page limit : Option Nat) : ChatReply :=
  let page := page.getD 1
  let limit := limit.getD 50
  let skip : Int := ((page : Int) - 1) * limit
  let found := sortDocs (fun a b : ChatMessage => a.createdAt ≤ b.createdAt)
    (db.filter (historyFilter userId sessionId))
  match skipLimit skip limit found with
  | none => .fail 500 { error := "Failed to get chat history", code := some "HISTORY_ERROR" }
  | some messages =>
    let totalMessages := (db.filter (historyFilter userId sessionId)).length
    .history messages
      { page := page, limit := limit, total := totalMessages,
        pages := ceilPages totalMessages limit }
      sessionId

/-- The `searchMessages` static. -/
def ChatMessage.searchMessages (rx : String → String → Bool) (db : List ChatMessage)
    (userId : ObjectId) (query : String) (limit : Nat) : List ChatMessage :=
  let found := sortDocs (fun a b : ChatMessage => b.createdAt ≤ a.createdAt)
    (db.filter fun d => d.user == userId && d.isDeleted != true && rx query d.content)
  if limit = 0 then found else found.take limit

/-- The `searchMessages` handler; `q` is `req.query.q`. -/
def searchMessages (rx : String → String → Bool) (db : List ChatMessage) (userId : ObjectId)
    (q : Option String) (limit : Option Nat) : ChatReply :=
  match truthyStr q with
  | none =>
    .fail 400 { error := "Search query must be at least 2 characters long",
                code := some "INVALID_QUERY" }
  | some query =>
    if query.trim.length < 2 then
      .fail 400 { error := "Search query must be at least 2 characters long",
                  code := some "INVALID_QUERY" }
    else
      let messages := ChatMessage.searchMessages rx db userId query.trim (limit.getD 50)
      .found (messages.map fun m => { id := m.id, content := m.content, role := m.role,
                                      sessionId := m.sessionId, context := m.context,
                                      createdAt := m.createdAt })
        query.trim messages.length

def chatRoles : List String := ["user", "assistant", "system"]

def chatContexts : List String :=
  ["general", "task_help", "note_help", "study_help", "planning", "other"]

def reactionTypes : List String := ["like", "dislike", "helpful", "not_helpful"]

/-- The validators of the chat-message schema that a new message must pass at its first save:
`sessionId` and `content` required, `content` of at most 10000 characters, `role` and `context`
in their enums. -/
def ChatMessage.valid (m : ChatMessage) : Bool :=
  m.sessionId ≠ "" && chatRoles.contains m.role && m.content ≠ "" && m.content.length ≤ 10000
    && chatContexts.contains m.context

/-- The `chatMessageSchema.pre('save')` hook.  `deletedModified` is
`this.isModified('isDeleted')`. -/
def ChatMessage.preSave (deletedModified : Bool) (now : Time) (m : ChatMessage) : ChatMessage :=
  if deletedModified && m.isDeleted then { m with deletedAt := some now }
  else if deletedModified && !m.isDeleted then { m with deletedAt := none }
  else m

/-- A `doc.save()` of a stored message loaded as `orig` and now holding `cur`. -/
def ChatMessage.save (db : List ChatMessage) (orig cur : ChatMessage) (now : Time) :
    ChatMessage × List ChatMessage :=
  let hooked := ChatMessage.preSave (decide (orig.isDeleted ≠ cur.isDeleted)) now cur
  let stored := if hooked = orig then hooked else { hooked with updatedAt := now }
  (stored, replaceFirst (fun d => d.id == stored.id) (fun _ => stored) db)

/-- The `addReaction` method: the reactions of the same type are filtered out, the new reaction
is pushed (its `timestamp` defaults to the clock) and the message is saved. -/
def ChatMessage.addReaction (db : List ChatMessage) (m : ChatMessage) (reactionType : String)
    (now : Time) : ChatMessage × List ChatMessage :=
  ChatMessage.save db m
    { m with reactions := m.reactions.filter (fun r => r.type ≠ reactionType)
                            ++ [{ type := reactionType, timestamp := now }] } now

/-- The `removeReaction` method. -/
def ChatMessage.removeReaction (db : List ChatMessage) (m : ChatMessage) (reactionType : String)
    (now : Time) : ChatMessage × List ChatMessage :=
  ChatMessage.save db m
    { m with reactions := m.reactions.filter (fun r => r.type ≠ reactionType) } now

/-- The reply of the reaction and session handlers. -/
inductive ReactionReply where
  | fail (status : Nat) (body : ErrorBody)
  | ok (message : String) (reactions : List Reaction)
  | done (message : String)
deriving DecidableEq, Repr

def messageNotFound : ReactionReply :=
  .fail 404 { error := "Message not found", code := some "MESSAGE_NOT_FOUND" }

/-- The `addReaction` handler; `reaction` is `req.body.reaction`.  A reaction outside the enum
of the schema (or none at all) makes the save reject. -/
def addReaction (db : List ChatMessage) (userId messageId : ObjectId) (reaction : Option String)
    (now : Time) : ReactionReply × List ChatMessage :=
  match findOne (fun d => d.id == messageId && d.user == userId && d.isDeleted != true) db with
  | none => (messageNotFound, db)
  | some message =>
    match reaction with
    | none => (.fail 500 { error := "Failed to add reaction", code := some "REACTION_ERROR" }, db)
    | some reaction =>
      if !reactionTypes.contains reaction then
        (.fail 500 { error := "Failed to add reaction", code := some "REACTION_ERROR" }, db)
      else
        let r := message.addReaction db reaction now
        (.ok "Reaction added successfully" r.1.reactions, r.2)

/-- The `deleteChatSession` handler: `updateMany({ user, sessionId }, { isDeleted: true,
deletedAt: new Date() })`; `timestamps: true` stamps `updatedAt` on the matched messages. -/
def deleteChatSession (db : List ChatMessage) (userId : ObjectId) (sessionId : String)
    (now : Time) : ReactionReply × List ChatMessage :=
  (.done "Chat session deleted successfully",
    db.map fun d =>
      if d.user == userId && d.sessionId == sessionId then
        { d with isDeleted := true, deletedAt := some now, updatedAt := now }
      else d)

/-- One element of the `messages` array sent to the completion API. -/
structure ChatTurn where
  role : String
  content : String
deriving DecidableEq, Repr

def SYSTEM_MESSAGE : String :=
  "You are a helpful virtual assistant for a student dashboard application. You can help with:\n- Task and assignment management\n- Note-taking and organization\n- Study planning and scheduling\n- General productivity advice\n- Academic support\n\nBe concise, helpful, and encouraging. If asked about features outside your scope, politely redirect to the appropriate section of the dashboard."

/-- The content of the assistant message saved when the completion call fails. -/
def apologyText : String :=
  "I apologize, but I\x27m experiencing technical difficulties right now. Please try again in a moment."

/-- What `openai.chat.completions.create` resolves to: the content of the first choice and the
token usage. -/
structure Completion where
  content : Option String
  promptTokens : Nat
  completionTokens : Nat
  totalTokens : Nat
deriving DecidableEq, Repr

/-- The body of `POST /api/chat/message`. -/
structure SendBody where
  message : String
  sessionId : Option String := none
  context : Option String := none
  model : Option String := none
deriving DecidableEq, Repr

inductive SendReply where
  | fail (status : Nat) (body : ErrorBody)
  | ok (message : String) (sessionId : String) (model : String)
  | aiError (status : Nat) (error : String) (message : String) (sessionId : String)
      (code : String)
deriving DecidableEq, Repr

/-- What one `sendMessage` call did: its reply, the collection afterwards, and the requests
(model and message list) it sent to the completion API, in order. -/
structure SendResult where
  reply : SendReply
  db : List ChatMessage
  calls : List (String × List ChatTurn)

/-- The `conversationHistory` of `sendMessage`: the ten newest non-deleted messages of the user
in the session, reversed and reduced to role and content. -/
def conversationHistory (db : List ChatMessage) (userId : ObjectId) (sessionId : String) :
    List ChatTurn :=
  (((sortDocs (fun a b : ChatMessage => b.createdAt ≤ a.createdAt)
      (db.filter fun d => d.user == userId && d.sessionId == sessionId && d.isDeleted != true)).take
        10).reverse).map fun msg => { role := msg.role, content := msg.content }

/-- The `sendMessage` handler.  `complete model messages` is the completion API (`none`: the call
throws); `freshSession` is the value of `uuidv4()`; `userMsgId` and `replyId` are the ids given
to the two saved messages; `now` is the clock at the save of the user message and `later` the
clock at the save of the assistant message.  An assistant message that fails its validators
throws inside the inner `try` and is handled like a failed completion call. -/
def sendMessage (complete : String → List ChatTurn → Option Completion) (db : List ChatMessage)
    (userId : ObjectId) (errors : List String) (body : SendBody) (freshSession : String)
    (userMsgId replyId : ObjectId) (now later : Time) : SendResult :=
  if !errors.isEmpty then
    { reply := .fail 400 { error := "Validation failed", code := none, details := errors },
      db := db, calls := [] }
  else
    let context := body.context.getD "general"
    let model := body.model.getD "gpt-3.5-turbo"
    let chatSessionId := (truthyStr body.sessionId).getD freshSession
    let userMessage : ChatMessage :=
      { id := userMsgId, user := userId, sessionId := chatSessionId, role := "user",
        content := body.message, context := context, createdAt := now, updatedAt := now }
    if !userMessage.valid then
      { reply := .fail 500 { error := "Failed to process message", code := some "CHAT_ERROR" },
        db := db, calls := [] }
    else
      let db1 := db ++ [userMessage]
      let messages : List ChatTurn :=
        { role := "system", content := SYSTEM_MESSAGE }
          :: conversationHistory db1 userId chatSessionId
      let assistantMessage : Option ChatMessage :=
        match complete model messages with
        | none => none
        | some completion =>
          match completion.content with
          | none => none
          | some assistantResponse =>
            let m : ChatMessage :=
              { id := replyId, user := userId, sessionId := chatSessionId, role := "assistant",
                content := assistantResponse, context := context, createdAt := later,
                updatedAt := later }
            if m.valid then some m else none
      match assistantMessage with
      | some m =>
        { reply := .ok m.content chatSessionId model, db := db1 ++ [m],
          calls := [(model, messages)] }
      | none =>
        let errorMessage : ChatMessage :=
          { id := replyId, user := userId, sessionId := chatSessionId, role := "assistant",
            content := apologyText, context := context, createdAt := later,
            updatedAt := later }
        { reply := .aiError 500 "AI service temporarily unavailable" apologyText chatSessionId
            "AI_SERVICE_ERROR",
          db := db1 ++ [errorMessage], calls := [(model, messages)] }

/-- The query string of `GET /api/chat/history`, with the parameters its validation chain
declares. -/
structure HistoryQuery where
  sessionId : Option String := none
  page : Option Nat := none
  limit : Option Nat := none
deriving DecidableEq, Repr

/-- The route `router.get('/history', getChatHistoryValidation, getChatHistory)`.  The path has
no `:sessionId` segment, so `req.params.sessionId` is `undefined` in the handler, whatever the
query string carries; the chain only records errors and the handler does not read them. -/
def chatHistoryRoute (db : List ChatMessage) (userId : ObjectId) (q : HistoryQuery) :
    ChatReply :=
  getChatHistory db userId none q.page q.limit

/-! ## Single-document requests -/

/-- The requests on one task, `/api/tasks/:taskId...`, with what each reads from the request. -/
inductive TaskOp where
  | getTaskById
  | updateTask (errors : List String) (body : TaskUpdate)
  | deleteTask
  | completeTask
  | addSubtask (title : Option String) (newId : ObjectId)
  | updateSubtask (subtaskId : ObjectId) (title : Option String) (completed : Option JsVal)
  | deleteSubtask (subtaskId : ObjectId)
deriving DecidableEq, Repr

/-- Dispatch of a task request to its handler. -/
def TaskOp.run (op : TaskOp) (db : List Task) (userId taskId : ObjectId) (now : Time) :
    TaskReply × List Task :=
  match op with
  | .getTaskById => Dashboard.getTaskById db userId taskId
  | .updateTask errors body => Dashboard.updateTask db userId taskId errors body now
  | .deleteTask => Dashboard.deleteTask db userId taskId
  | .completeTask => Dashboard.completeTask db userId taskId now
  | .addSubtask title newId => Dashboard.addSubtask db userId taskId title newId now
  | .updateSubtask subtaskId title completed =>
    Dashboard.updateSubtask db userId taskId subtaskId title completed now
  | .deleteSubtask subtaskId => Dashboard.deleteSubtask db userId taskId subtaskId now

/-- The checks a task handler makes on the request before it queries the collection: the
recorded validation errors and the update validators in `updateTask`, the title test in
`addSubtask`. -/
def TaskOp.passesChecks : TaskOp → Bool
  | .updateTask errors body =>
    errors.isEmpty &&
      (TaskUpdate.effective { body with top := { body.top with user := none } }).valid
  | .addSubtask title _ => (truthyStr title).any fun t => t.trim.length ≠ 0
  | _ => true

/-- The requests on one note, `/api/notes/:noteId...`. -/
inductive NoteOp where
  | getNoteById
  | updateNote (errors : List String) (body : NoteUpdate)
  | deleteNote
  | togglePin
  | toggleArchive
  | addTag (tag : Option String)
  | removeTag (tag : String)
deriving DecidableEq, Repr

/-- Dispatch of a note request to its handler. -/
def NoteOp.run (op : NoteOp) (db : List Note) (userId noteId : ObjectId) (now : Time) :
    NoteReply × List Note :=
  match op with
  | .getNoteById => Dashboard.getNoteById db userId noteId
  | .updateNote errors body => Dashboard.updateNote db userId noteId errors body now
  | .deleteNote => Dashboard.deleteNote db userId noteId
  | .togglePin => Dashboard.togglePin db userId noteId now
  | .toggleArchive => Dashboard.toggleArchive db userId noteId now
  | .addTag tag => Dashboard.addTag db userId noteId tag now
  | .removeTag tag => Dashboard.removeTag db userId noteId tag now

/-- The checks a note handler makes on the request before it queries the collection. -/
def NoteOp.passesChecks (userId : ObjectId) : NoteOp → Bool
  | .updateNote errors body =>
    errors.isEmpty &&
      (NoteUpdate.effective
        { body with top := { body.top with user := none, lastEditedBy := some userId } }).valid
  | .addTag tag => (truthyStr tag).any fun t => t.trim.length ≠ 0
  | _ => true

/-- A task and a note used to instantiate the general theorems. -/
def sampleTask : Task := { id := 1, title := "Essay", user := 7, createdAt := 0, updatedAt := 0 }

def sampleNote : Note :=
  { id := 1, title := "Reading list", content := "Chapter 3", user := 7, createdAt := 0,
    updatedAt := 0 }

/-- The documents of a list reply. -/
def TaskReply.tasks : TaskReply → List Task
  | .many tasks _ => tasks
  | _ => []

def TaskReply.pagination : TaskReply → Option Pagination
  | .many _ pagination => some pagination
  | _ => none

def NoteReply.notes : NoteReply → List Note
  | .many notes _ _ => notes
  | _ => []

def NoteReply.pagination : NoteReply → Option Pagination
  | .many _ pagination _ => some pagination
  | _ => none

def ChatReply.messages : ChatReply → List ChatMessage
  | .history messages _ _ => messages
  | _ => []

def ChatReply.pagination : ChatReply → Option Pagination
  | .history _ pagination _ => some pagination
  | _ => none

def ChatReply.hits : ChatReply → List SearchHit
  | .found messages _ _ => messages
  | _ => []

def ChatReply.total : ChatReply → Option Nat
  | .found _ _ total => some total
  | .history _ pagination _ => some pagination.total
  | _ => none

/-! ## Authentication middleware (`middlewares/auth.js`) -/

structure User where
  id : ObjectId
  username : String
  email : String
  isActive : Bool := true
deriving DecidableEq, Repr

structure JwtPayload where
  userId : ObjectId
  type : Option String := none
deriving DecidableEq, Repr

/-- One space-separated part of an Authorization header: plain text (a scheme word, or a token
string that is no well-formed JWT), or a JWT, given by its payload, the key that signed it and
its `iat` and `exp` claims in seconds. -/
inductive Token where
  | text (s : String)
  | jwt (payload : JwtPayload) (key : String) (iat exp : Int)
deriving DecidableEq, Repr

inductive JwtError where
  | JsonWebTokenError
  | TokenExpiredError
deriving DecidableEq, Repr

/-- The `jwt.sign(payload, key, { expiresIn })` call at clock `now` (milliseconds). -/
def jwtSign (payload : JwtPayload) (key : String) (expiresInSeconds : Int) (now : Time) : Token :=
  .jwt payload key (now / 1000) (now / 1000 + expiresInSeconds)

/-- The `jwt.verify(token, key)` call at clock `now`: the signature is checked first, then the
expiry. -/
def jwtVerify (token : Token) (key : String) (now : Time) : Except JwtError JwtPayload :=
  match token with
  | .text _ => .error .JsonWebTokenError
  | .jwt payload k _ exp =>
    if k ≠ key then .error .JsonWebTokenError
    else if exp ≤ now / 1000 then .error .TokenExpiredError
    else .ok payload

/-- The `generateToken` function with its default expiry of seven days. -/
def generateToken (secret : String) (userId : ObjectId) (now : Time)
    (expiresInSeconds : Int := 7 * 24 * 60 * 60) : Token :=
  jwtSign { userId := userId } secret expiresInSeconds now

/-- The `generateRefreshToken` function: payload `{ userId, type: 'refresh' }`, thirty days. -/
def generateRefreshToken (secret : String) (userId : ObjectId) (now : Time) : Token :=
  jwtSign { userId := userId, type := some "refresh" } secret (30 * 24 * 60 * 60) now

/-- The `verifyRefreshToken` function; `none` is its `Invalid token type` error. -/
def verifyRefreshToken (secret : String) (token : Token) (now : Time) :
    Except (Option JwtError) JwtPayload :=
  match jwtVerify token secret now with
  | .error e => .error (some e)
  | .ok decoded => if decoded.type ≠ some "refresh" then .error none else .ok decoded

/-- What a middleware did with a request: it called `next()` with `req.user` and `req.userId`
as given, or it answered. -/
inductive AuthOutcome where
  | next (user : Option User) (userId : Option ObjectId)
  | reply (status : Nat) (body : ErrorBody)
deriving DecidableEq, Repr

/-- The value of `authHeader && authHeader.split(' ')[1]` when it is truthy. -/
def bearerToken (authorization : Option (List Token)) : Option Token :=
  match authorization with
  | none => none
  | some parts =>
    match parts.get? 1 with
    | some (.text s) => if s = "" then none else some (.text s)
    | other => other

/-- The `authenticateToken` middleware.  `lookupFails` says that the `User.findById` query
rejects (the database cannot be reached); that error is neither of the two JWT errors, so the
catch block answers it with its last branch. -/
def authenticateToken (secret : String) (users : List User) (authorization : Option (List Token))
    (now : Time) (lookupFails : Bool := false) : AuthOutcome :=
  match bearerToken authorization with
  | none => .reply 401 { error := "Access token required", code := some "TOKEN_MISSING" }
  | some token =>
    match jwtVerify token secret now with
    | .error .JsonWebTokenError =>
      .reply 401 { error := "Invalid token", code := some "TOKEN_INVALID" }
    | .error .TokenExpiredError =>
      .reply 401 { error := "Token expired", code := some "TOKEN_EXPIRED" }
    | .ok decoded =>
      if lookupFails then
        .reply 500 { error := "Authentication failed", code := some "AUTH_ERROR" }
      else
        match findOne (fun u : User => u.id == decoded.userId) users with
        | none => .reply 401 { error := "User not found", code := some "USER_NOT_FOUND" }
        | some user =>
          if !user.isActive then
            .reply 401 { error := "Account is deactivated", code := some "ACCOUNT_DEACTIVATED" }
          else .next (some user) (some user.id)

/-- The `optionalAuth` middleware; every error of the try block (a JWT error, a rejected user
lookup) ends in the catch block, which clears the identity and calls `next()`. -/
def optionalAuth (secret : String) (users : List User) (authorization : Option (List Token))
    (now : Time) (lookupFails : Bool := false) : AuthOutcome :=
  match bearerToken authorization with
  | none => .next none none
  | some token =>
    match jwtVerify token secret now with
    | .error _ => .next none none
    | .ok decoded =>
      if lookupFails then .next none none
      else
        match findOne (fun u : User => u.id == decoded.userId) users with
        | some user =>
          if user.isActive then .next (some user) (some user.id) else .next none none
        | none => .next none none

/-! ## Rate limiter (`createRateLimiter`) -/

/-- The `attempts` map of one limiter: the recorded times of each key. -/
abbrev Attempts := String → Option (List Time)

/-- What the limiter middleware did: `next()`, or the 429 reply. -/
inductive GateOutcome where
  | next
  | reply (status : Nat) (error : String) (code : String) (retryAfter : Nat)
deriving DecidableEq, Repr

def Attempts.set (attempts : Attempts) (key : String) (times : List Time) : Attempts :=
  fun k => if k = key then some times else attempts k

/-- The middleware returned by `createRateLimiter(windowMs, max, message)`, with its private map
passed in and out. -/
def createRateLimiter (windowMs max : Nat) (message : Option String) (attempts : Attempts)
    (key : String) (now : Time) : GateOutcome × Attempts :=
  let windowStart := now - windowMs
  let attempts : Attempts :=
    match attempts key with
    | some times => attempts.set key (times.filter fun time => time > windowStart)
    | none => attempts
  let currentAttempts := (attempts key).getD []
  if currentAttempts.length ≥ max then
    (.reply 429 ((truthyStr message).getD "Too many requests") "RATE_LIMIT_EXCEEDED"
      ((windowMs + 999) / 1000), attempts)
  else
    (.next, attempts.set key (currentAttempts ++ [now]))

def loginRateLimit : Attempts → String → Time → GateOutcome × Attempts :=
  createRateLimiter (15 * 60 * 1000) 5 (some "Too many login attempts, please try again later")

def registerRateLimit : Attempts → String → Time → GateOutcome × Attempts :=
  createRateLimiter (60 * 60 * 1000) 3
    (some "Too many registration attempts, please try again later")

/-- A run of one limiter over a sequence of calls `(key, time)` from a given map: the outcomes
in call order and the final map. -/
def runLimiter (limiter : Attempts → String → Time → GateOutcome × Attempts) :
    Attempts → List (String × Time) → List GateOutcome × Attempts
  | a, [] => ([], a)
  | a, (k, t) :: rest =>
    ((limiter a k t).1 :: (runLimiter limiter (limiter a k t).2 rest).1,
      (runLimiter limiter (limiter a k t).2 rest).2)

/-- The times at which the calls of `key` were admitted during a run. -/
def admittedTimes (limiter : Attempts → String → Time → GateOutcome × Attempts) (key : String) :
    Attempts → List (String × Time) → List Time
  | _, [] => []
  | a, (k, t) :: rest =>
    (if k = key ∧ (limiter a k t).1 = .next then [t] else [])
      ++ admittedTimes limiter key (limiter a k t).2 rest

/-- The paging contract of a list reply, in the words of the specification: for the requested
`page` and `limit`, a reply with `items` returned documents and pagination object `pagination`,
next to the pagination object `first` of the reply to page 1 of the same query, reports
`pages = ceil(total / limit)`, the same total as page 1, and no document on a page beyond
`pages`. -/
def PagingContract (page limit items : Nat) (pagination first : Option Pagination) : Prop :=
  ∃ pg pg1, pagination = some pg ∧ first = some pg1
    ∧ pg.pages = some ⌈(pg.total : ℚ) / limit⌉₊
    ∧ pg.total = pg1.total
    ∧ (∀ n, pg.pages = some n → n < page → items = 0)

/-- The `getTasksValidation` chain of `routes/tasks.js`: the errors express-validator records
for a query string. -/
def getTasksValidation (q : TaskQuery) : List String :=
  (if q.status.all fun s => taskStatuses.contains s then []
    else ["Status must be one of: pending, in_progress, completed, cancelled"])
  ++ (if q.priority.all fun s => taskPriorities.contains s then []
    else ["Priority must be one of: low, medium, high, urgent"])
  ++ (if q.category.all fun s => s.trim.length ≤ 50 then []
    else ["Category must be less than 50 characters"])
  ++ (if q.page.all fun n => 1 ≤ n then [] else ["Page must be a positive integer"])
  ++ (if q.limit.all fun n => 1 ≤ n && n ≤ 100 then []
    else ["Limit must be between 1 and 100"])
  ++ (if q.sortBy.all fun s =>
        ["createdAt", "updatedAt", "dueDate", "priority", "title"].contains s then []
    else ["Sort by must be one of: createdAt, updatedAt, dueDate, priority, title"])
  ++ (if q.sortOrder.all fun s => ["asc", "desc"].contains s then []
    else ["Sort order must be asc or desc"])
  ++ (if q.search.all fun s => 1 ≤ s.trim.length && s.trim.length ≤ 100 then []
    else ["Search query must be between 1 and 100 characters"])

/-- The route `router.get('/', getTasksValidation, getTasks)`: the chain records its errors on
the request and passes on; `getTasks` answers without reading `validationResult(req)`.  The
pair is what was recorded and what was answered. -/
def tasksListRoute (rx : String → String → Bool) (db : List Task) (userId : ObjectId)
    (q : TaskQuery) : List String × TaskReply :=
  (getTasksValidation q, getTasks rx db userId q)

/-- A collection of `n` tasks of user 7. -/
def manyTasks (n : Nat) : List Task :=
  (List.range n).map fun i =>
    { id := i, title := "Task", user := 7, createdAt := i, updatedAt := i }

/-- An engine used to instantiate the general theorems: no regex match, text index present. -/
def sampleEngine : Engine :=
  { regex := fun _ _ => false, textAvailable := true, textScore := fun _ _ => 0 }

/-- The note of a single-note reply. -/
def NoteReply.note : NoteReply → Option Note
  | .one _ _ note => some note
  | _ => none

/-- The `userMessage` document that `sendMessage` builds and saves first. -/
def userMessageOf (userId : ObjectId) (body : SendBody) (freshSession : String)
    (userMsgId : ObjectId) (now : Time) : ChatMessage :=
  { id := userMsgId, user := userId, sessionId := (truthyStr body.sessionId).getD freshSession,
    role := "user", content := body.message, context := body.context.getD "general",
    createdAt := now, updatedAt := now }

/-- The non-deleted messages of a user in a session: the documents that match
`{ user, sessionId, isDeleted: { $ne: true } }`. -/
def liveMessages (db : List ChatMessage) (userId : ObjectId) (sessionId : String) :
    List ChatMessage :=
  db.filter fun d => d.user == userId && d.sessionId == sessionId && d.isDeleted != true

/-- The write that `deleteChatSession` applies to each message of the session. -/
def softDeleted (now : Time) (d : ChatMessage) : ChatMessage :=
  { d with isDeleted := true, deletedAt := some now, updatedAt := now }

/-- Three stored chat messages: two of user 7 in session `s1`, one of user 8 in session `s2`. -/
def sampleMessages : List ChatMessage :=
  [{ id := 1, user := 7, sessionId := "s1", role := "user", content := "hello", createdAt := 10,
     updatedAt := 10 },
   { id := 2, user := 7, sessionId := "s1", role := "assistant", content := "hi", createdAt := 20,
     updatedAt := 20 },
   { id := 3, user := 8, sessionId := "s2", role := "user", content := "hello", createdAt := 30,
     updatedAt := 30 }]

/-! ## JavaScript numbers and the derived fields of a task -/

/-- A non-negative double-precision number, held as `mant / 2 ^ scale`. -/
structure Double where
  mant : Nat
  scale : Nat
deriving DecidableEq, Repr

/-- The integer nearest to `a / b`, a tie going to the even neighbour: the rounding of every
IEEE 754 operation. -/
def roundTiesEven (a b : Nat) : Nat :=
  if 2 * (a % b) < b then a / b
  else if b < 2 * (a % b) then a / b + 1
  else if a / b % 2 = 0 then a / b else a / b + 1

/-- Position of the leading binary digit of `n` (`0` for `n < 2`), found in at most `fuel`
halvings. -/
def log2Aux : Nat → Nat → Nat
  | 0, _ => 0
  | fuel + 1, n => if n < 2 then 0 else log2Aux fuel (n / 2) + 1

/-- The binary exponent of a positive integer: `2 ^ ilog2 n ≤ n < 2 ^ (ilog2 n + 1)`. -/
def ilog2 (n : Nat) : Nat := log2Aux n n

/-- The JavaScript quotient `a / b` of two integers `a ≤ b` below `2 ^ 53`: the exact quotient
rounded to 53 significant bits. -/
def Double.div (a b : Nat) : Double :=
  if a = 0 then { mant := 0, scale := 0 }
  else
    let s0 := 52 + ilog2 b - ilog2 a
    let s := if a * 2 ^ s0 / b < 2 ^ 52 then s0 + 1 else s0
    { mant := roundTiesEven (a * 2 ^ s) b, scale := s }

/-- The JavaScript product `x * k` of a double and an integer below `2 ^ 53`: the exact product
rounded to 53 significant bits. -/
def Double.mul (x : Double) (k : Nat) : Double :=
  let p := x.mant * k
  let d := ilog2 p + 1 - 53
  { mant := roundTiesEven p (2 ^ d) * 2 ^ (d - x.scale), scale := x.scale - d }

/-- The value of `Math.round(x)`: the nearest integer, a tie going up. -/
def mathRound (x : Double) : Nat :=
  (2 * x.mant + 2 ^ x.scale) / 2 ^ (x.scale + 1)

/-- The `completionPercentage` virtual: `Math.round((completedSubtasks / length) * 100)` in
double precision when the task has subtasks. -/
def Task.completionPercentage (t : Task) : Nat :=
  if t.subtasks.length = 0 then
    if t.status = "completed" then 100 else 0
  else
    let completedSubtasks := (t.subtasks.filter fun subtask => subtask.completed).length
    mathRound ((Double.div completedSubtasks t.subtasks.length).mul 100)

/-- A task of user 7 with `n` subtasks, the first `c` of them completed. -/
def progressTask (c n : Nat) : Task :=
  { sampleTask with
    subtasks := (List.range n).map fun i =>
      { id := i, title := "step", completed := decide (i < c) } }

/-- An engine with a text index on which every note matches every search term. -/
def textEngine : Engine :=
  { regex := fun _ _ => true, textAvailable := true, textScore := fun _ _ => 1 }

/-- An engine without a text index (the `$text` query rejects) on which every regex matches. -/
def regexEngine : Engine :=
  { regex := fun _ _ => true, textAvailable := false, textScore := fun _ _ => 1 }

/-- The outcomes of the calls of `key` during a run, in call order. -/
def outcomesOf (limiter : Attempts → String → Time → GateOutcome × Attempts) (key : String) :
    Attempts → List (String × Time) → List GateOutcome
  | _, [] => []
  | a, (k, t) :: rest =>
    (if k = key then [(limiter a k t).1] else []) ++ outcomesOf limiter key (limiter a k t).2 rest

/-- The `isOverdue` virtual; `now` is the value of `new Date()`. -/
def Task.isOverdue (t : Task) (now : Time) : Bool :=
  match t.dueDate with
  | none => false
  | some dueDate => if t.status = "completed" then false else decide (now > dueDate)

/-- The `getOverdue` static.  In a query filter `$lt` with a date matches dates only, so a task
whose `dueDate` is `null` does not match. -/
def Task.getOverdue (db : List Task) (userId : ObjectId) (now : Time) : List Task :=
  sortDocs (fun a b => compareKeys Task.compareOn [("dueDate", 1)] a b != .gt)
    (db.filter fun d => d.user == userId && d.status != "completed"
      && d.dueDate.any fun dueDate => decide (dueDate < now))

/-- The `getOverdueTasks` handler: the overdue tasks and their count. -/
def getOverdueTasks (db : List Task) (userId : ObjectId) (now : Time) : List Task × Nat :=
  let overdueTasks := Task.getOverdue db userId now
  (overdueTasks, overdueTasks.length)

/-- The aggregation expression `{ $lt: [value, date] }`: in an aggregation `null` is compared
in BSON order, where it comes before every date. -/
def aggLtDate (value : Option Time) (date : Time) : Bool :=
  match value with
  | none => true
  | some v => decide (v < date)

/-- The `overview` object of the task statistics. -/
structure TaskOverview where
  total : Nat
  completed : Nat
  pending : Nat
  inProgress : Nat
  overdue : Nat
deriving DecidableEq, Repr

/-- One group of a `$group` stage keyed by a string path. -/
structure GroupCount where
  key : String
  count : Nat
  completed : Nat
deriving DecidableEq, Repr

/-- The `$group` stage of the per-category and per-priority statistics, the groups in the order
in which their keys first appear (MongoDB leaves the order of the groups open). -/
def groupCounts (key : Task → String) (docs : List Task) : List GroupCount :=
  (docs.map key).eraseDups.map fun k =>
    { key := k
      count := (docs.filter fun d => key d == k).length
      completed := (docs.filter fun d => key d == k && d.status == "completed").length }

structure TaskStats where
  overview : TaskOverview
  byCategory : List GroupCount
  byPriority : List GroupCount
deriving DecidableEq, Repr

/-- The `getTaskStats` handler.  The first pipeline yields no document when the user has no
task, and the handler then answers the zero overview. -/
def getTaskStats (db : List Task) (userId : ObjectId) (now : Time) : TaskStats :=
  let matched := db.filter fun d => d.user == userId
  let stats : Option TaskOverview :=
    if matched.isEmpty then none
    else some
      { total := matched.length
        completed := (matched.filter fun d => d.status == "completed").length
        pending := (matched.filter fun d => d.status == "pending").length
        inProgress := (matched.filter fun d => d.status == "in_progress").length
        overdue := (matched.filter fun d =>
          d.status != "completed" && aggLtDate d.dueDate now && d.dueDate != none).length }
  { overview := stats.getD { total := 0, completed := 0, pending := 0, inProgress := 0,
                             overdue := 0 }
    byCategory := groupCounts (fun d => d.category) matched
    byPriority := groupCounts (fun d => d.priority) matched }

/-! ## Properties of task completion -/

/-- The pre-save hook, run on a task whose status was modified, leaves `completedAt` set exactly
when the status is `completed`. -/
theorem Task.preSave_completedAt (now : Time) (t : Task) :
    ((Task.preSave true now t).completedAt.isSome ↔ (Task.preSave true now t).status = "completed")
    ∧ (Task.preSave true now t).status = t.status := by
  unfold Task.preSave
  by_cases h : t.status = "completed"
  · cases hc : t.completedAt <;> simp [h, hc]
  · simp [h]

/-- The task that `markCompleted` stores and returns is `completed` with a completion time. -/
theorem Task.markCompleted_completedAt (db : List Task) (t : Task) (now : Time) :
    (t.markCompleted db now).1.status = "completed"
    ∧ (t.markCompleted db now).1.completedAt.isSome := by
  unfold Task.markCompleted Task.save Task.preSave
  by_cases h : t.status = "completed" <;> simp [h] <;> split <;> simp

/-- C1 (updateTask breaks the invariant).  An owner's update `{ status: 'completed' }` of a
pending task stores the status `completed` with `completedAt` still `null`, and an update
`{ status: 'pending' }` of a completed task keeps its completion time: the write goes through
`findOneAndUpdate`, on which the pre-save hook never runs. -/
theorem updateTask_status_leaves_completedAt :
    (updateTask [{ id := 1, title := "Essay", user := 7, createdAt := 0, updatedAt := 0 }]
        7 1 [] { top := { status := some "completed" } } 50
      = (.one 200 (some "Task updated successfully")
          { id := 1, title := "Essay", status := "completed", completedAt := none, user := 7,
            createdAt := 0, updatedAt := 50 },
         [{ id := 1, title := "Essay", status := "completed", completedAt := none, user := 7,
            createdAt := 0, updatedAt := 50 }]))
    ∧ (updateTask [{ id := 1, title := "Essay", status := "completed", completedAt := some 20,
                     user := 7, createdAt := 0, updatedAt := 20 }]
        7 1 [] { top := { status := some "pending" } } 50
      = (.one 200 (some "Task updated successfully")
          { id := 1, title := "Essay", status := "pending", completedAt := some 20, user := 7,
            createdAt := 0, updatedAt := 50 },
         [{ id := 1, title := "Essay", status := "pending", completedAt := some 20, user := 7,
            createdAt := 0, updatedAt := 50 }])) := by
  constructor <;> decide

/-! ## Tenant isolation of single-document requests -/

/-- With unique ids, the filter `{ _id: d._id, user: u }` of a user `u` who does not own `d`
matches nothing. -/
theorem findOne_foreign {α : Type} (getId getUser : α → ObjectId) (db : List α) (d : α)
    (u : ObjectId) (hn : (db.map getId).Nodup) (hd : d ∈ db) (hu : u ≠ getUser d) :
    findOne (fun x => getId x == getId d && getUser x == u) db = none := by
  unfold findOne
  rw [List.find?_eq_none]
  intro x hx hp
  simp only [Bool.and_eq_true, beq_iff_eq] at hp
  have hxd : x = d := List.inj_on_of_nodup_map hn hx hd hp.1
  exact hu (by rw [← hp.2, hxd])

/-- C2 (counterexample).  User 8 does not own task 1 of user 7.  The `addSubtask` request of
user 8 without a title, and the `updateTask` request of user 8 with the body
`{ status: 'done' }`, for which the route has recorded a validation error, are answered 400
and not 404. -/
theorem foreign_request_answered_400 :
    addSubtask [{ id := 1, title := "Essay", user := 7, createdAt := 0, updatedAt := 0 }]
        8 1 none 99 50
      = (.fail 400 { error := "Subtask title is required", code := some "VALIDATION_ERROR" },
         [{ id := 1, title := "Essay", user := 7, createdAt := 0, updatedAt := 0 }])
    ∧ updateTask [{ id := 1, title := "Essay", user := 7, createdAt := 0, updatedAt := 0 }]
        8 1 ["Status must be one of: pending, in_progress, completed, cancelled"]
        { top := { status := some "done" } } 50
      = (.fail 400 { error := "Validation failed", code := none,
                     details :=
                       ["Status must be one of: pending, in_progress, completed, cancelled"] },
         [{ id := 1, title := "Essay", user := 7, createdAt := 0, updatedAt := 0 }])
    ∧ (TaskReply.fail 400
          { error := "Subtask title is required", code := some "VALIDATION_ERROR" })
        ≠ taskNotFound := by
  refine ⟨by decide, by decide, by decide⟩

/-- C2 (amended).  A user who does not own a stored task or note gets, from every
single-document request on its id, an error envelope and an unchanged collection: the 404
not-found reply whenever the request passes the checks the handler makes before the lookup, and
otherwise the 400 or 500 of that check. -/
theorem foreign_request_isolated (tasks : List Task) (notes : List Note) (u : ObjectId)
    (now : Time) (hT : (tasks.map (fun t => t.id)).Nodup)
    (hN : (notes.map (fun n => n.id)).Nodup) :
    (∀ d ∈ tasks, u ≠ d.user → ∀ op : TaskOp,
      (op.run tasks u d.id now).2 = tasks ∧
      (if op.passesChecks then (op.run tasks u d.id now).1 = taskNotFound
       else ∃ body, (op.run tasks u d.id now).1 = .fail 400 body
                  ∨ (op.run tasks u d.id now).1 = .fail 500 body))
    ∧ (∀ d ∈ notes, u ≠ d.user → ∀ op : NoteOp,
      (op.run notes u d.id now).2 = notes ∧
      (if op.passesChecks u then (op.run notes u d.id now).1 = noteNotFound
       else ∃ body, (op.run notes u d.id now).1 = .fail 400 body
                  ∨ (op.run notes u d.id now).1 = .fail 500 body)) := by
  constructor
  · intro d hd hu op
    have hf := findOne_foreign (fun t : Task => t.id) (fun t : Task => t.user) tasks d u hT hd hu
    cases op with
    | getTaskById => simp [TaskOp.run, TaskOp.passesChecks, getTaskById, hf]
    | deleteTask => simp [TaskOp.run, TaskOp.passesChecks, deleteTask, hf]
    | completeTask => simp [TaskOp.run, TaskOp.passesChecks, completeTask, hf]
    | updateSubtask sid title completed =>
      simp [TaskOp.run, TaskOp.passesChecks, updateSubtask, hf]
    | deleteSubtask sid => simp [TaskOp.run, TaskOp.passesChecks, deleteSubtask, hf]
    | updateTask errors body =>
      simp only [TaskOp.run, TaskOp.passesChecks, updateTask]
      by_cases he : errors.isEmpty = true
      · by_cases hv : (TaskUpdate.effective
            { body with top := { body.top with user := none } }).valid = true
        · simp [he, hv, hf]
        · simp [he, hv]
      · simp [he]
    | addSubtask title newId =>
      simp only [TaskOp.run, TaskOp.passesChecks, addSubtask]
      cases ht : truthyStr title with
      | none => simp
      | some t =>
        by_cases hl : t.trim.length = 0
        · simp [hl]
        · simp [hl, hf]
  · intro d hd hu op
    have hf := findOne_foreign (fun t : Note => t.id) (fun t : Note => t.user) notes d u hN hd hu
    cases op with
    | getNoteById => simp [NoteOp.run, NoteOp.passesChecks, getNoteById, hf]
    | deleteNote => simp [NoteOp.run, NoteOp.passesChecks, deleteNote, hf]
    | togglePin => simp [NoteOp.run, NoteOp.passesChecks, togglePin, hf]
    | toggleArchive => simp [NoteOp.run, NoteOp.passesChecks, toggleArchive, hf]
    | removeTag tag => simp [NoteOp.run, NoteOp.passesChecks, removeTag, hf]
    | updateNote errors body =>
      simp only [NoteOp.run, NoteOp.passesChecks, updateNote]
      by_cases he : errors.isEmpty = true
      · by_cases hv : (NoteUpdate.effective
            { body with top := { body.top with user := none, lastEditedBy := some u } }).valid
              = true
        · simp [he, hv, hf]
        · simp [he, hv]
      · simp [he]
    | addTag tag =>
      simp only [NoteOp.run, NoteOp.passesChecks, addTag]
      cases ht : truthyStr tag with
      | none => simp
      | some t =>
        by_cases hl : t.trim.length = 0
        · simp [hl]
        · simp [hl, hf]

/-- C2 (amended), instantiated: user 8 asks to delete task 1 and to pin note 1, both owned by
user 7. -/
theorem foreign_request_isolated_witness :
    ([sampleTask].map (fun t => t.id)).Nodup ∧ ([sampleNote].map (fun n => n.id)).Nodup
    ∧ deleteTask [sampleTask] 8 1 = (taskNotFound, [sampleTask])
    ∧ togglePin [sampleNote] 8 1 50 = (noteNotFound, [sampleNote]) := by
  have h := foreign_request_isolated [sampleTask] [sampleNote] 8 50 (by decide) (by decide)
  have ht := h.1 sampleTask (by simp) (by decide) .deleteTask
  have hn := h.2 sampleNote (by simp) (by decide) .togglePin
  refine ⟨by decide, by decide, Prod.ext ?_ ht.1, Prod.ext ?_ hn.1⟩
  · simpa [TaskOp.passesChecks] using ht.2
  · simpa [NoteOp.passesChecks] using hn.2

/-! ## List queries: sorting, paging and tenant isolation -/

theorem insertSorted_perm {α : Type} (le : α → α → Bool) (x : α) (xs : List α) :
    (insertSorted le x xs).Perm (x :: xs) := by
  induction xs with
  | nil => simp [insertSorted]
  | cons y ys ih =>
    unfold insertSorted
    split
    · exact List.Perm.refl _
    · exact ((List.Perm.cons y ih).trans (List.Perm.swap x y ys))

theorem sortDocs_perm {α : Type} (le : α → α → Bool) (xs : List α) :
    (sortDocs le xs).Perm xs := by
  induction xs with
  | nil => simp [sortDocs]
  | cons x xs ih =>
    unfold sortDocs
    exact (insertSorted_perm le x _).trans (List.Perm.cons x ih)

theorem mem_sortDocs {α : Type} (le : α → α → Bool) (xs : List α) (d : α) :
    d ∈ sortDocs le xs ↔ d ∈ xs :=
  (sortDocs_perm le xs).mem_iff

theorem length_sortDocs {α : Type} (le : α → α → Bool) (xs : List α) :
    (sortDocs le xs).length = xs.length :=
  (sortDocs_perm le xs).length_eq

theorem mem_of_skipLimit {α : Type} {skip : Int} {limit : Nat} {docs page : List α}
    (h : skipLimit skip limit docs = some page) {d : α} (hd : d ∈ page) : d ∈ docs := by
  unfold skipLimit at h
  split at h
  · cases h
  · simp only [Option.some.injEq] at h
    subst h
    split at hd
    · exact List.mem_of_mem_drop hd
    · exact List.mem_of_mem_drop (List.mem_of_mem_take hd)

theorem mem_of_jsSlice {α : Type} {start stop : Int} {xs : List α} {d : α}
    (hd : d ∈ jsSlice start stop xs) : d ∈ xs := by
  unfold jsSlice at hd
  exact List.mem_of_mem_drop (List.mem_of_mem_take hd)

/-- A filter that implies ownership sees the same documents in the whole collection and in the
owner's part of it. -/
theorem filter_owned {α : Type} (own p : α → Bool) (h : ∀ d, p d = true → own d = true)
    (db : List α) : (db.filter own).filter p = db.filter p := by
  rw [List.filter_filter]
  apply List.filter_congr
  intro d _
  cases hp : p d
  · simp
  · simp [h d hp]

theorem taskFilter_owned (rx : String → String → Bool) (u : ObjectId) (q : TaskQuery) (d : Task)
    (h : taskFilter rx u q d = true) : (d.user == u) = true := by
  unfold taskFilter at h
  simp only [Bool.and_eq_true] at h
  exact h.1.1.1.1

theorem noteFilter_owned (eng : Engine) (u : ObjectId) (q : NoteQuery) (d : Note)
    (h : noteFilter eng u q d = true) : (d.user == u) = true := by
  unfold noteFilter at h
  simp only [Bool.and_eq_true] at h
  exact h.1.1.1.1

theorem historyFilter_owned (u : ObjectId) (sid : Option String) (d : ChatMessage)
    (h : historyFilter u sid d = true) : (d.user == u) = true := by
  unfold historyFilter at h
  simp only [Bool.and_eq_true] at h
  exact h.1.1

theorem length_filter_le_owned {α : Type} (own p : α → Bool)
    (h : ∀ d, p d = true → own d = true) (db : List α) :
    (db.filter p).length ≤ (db.filter own).length := by
  rw [← filter_owned own p h db]
  exact List.length_filter_le _ _

theorem getTasks_isolated (rx : String → String → Bool) (db : List Task) (u : ObjectId)
    (q : TaskQuery) :
    getTasks rx db u q = getTasks rx (db.filter fun d => d.user == u) u q
    ∧ (∀ d ∈ (getTasks rx db u q).tasks, d ∈ db ∧ d.user = u)
    ∧ (∀ pg, (getTasks rx db u q).pagination = some pg →
        pg.total ≤ (db.filter fun d => d.user == u).length) := by
  have hown := taskFilter_owned rx u q
  refine ⟨?_, ?_, ?_⟩
  · unfold getTasks
    rw [filter_owned (fun d : Task => d.user == u) _ hown]
  · intro d hd
    unfold getTasks at hd
    simp only at hd
    split at hd
    · simp [TaskReply.tasks] at hd
    · rename_i tasks hs
      simp only [TaskReply.tasks] at hd
      have hm := (mem_sortDocs _ _ d).1 (mem_of_skipLimit hs hd)
      rw [List.mem_filter] at hm
      exact ⟨hm.1, by simpa using hown d hm.2⟩
  · intro pg hpg
    unfold getTasks at hpg
    simp only at hpg
    split at hpg
    · simp [TaskReply.pagination] at hpg
    · simp only [TaskReply.pagination, Option.some.injEq] at hpg
      subst hpg
      exact length_filter_le_owned _ _ hown db

theorem searchNotes_owned (eng : Engine) (db : List Note) (u : ObjectId) (query : String) :
    Note.searchNotes eng db u query
        = Note.searchNotes eng (db.filter fun d => d.user == u) u query
    ∧ ∀ res, Note.searchNotes eng db u query = some res →
        (∀ d ∈ res, d ∈ db ∧ d.user = u) ∧ res.length ≤ (db.filter fun d => d.user == u).length := by
  have hown : ∀ d : Note,
      (d.user == u && !d.isArchived && eng.textScore query d != 0) = true → (d.user == u) = true := by
    intro d h
    simp only [Bool.and_eq_true] at h
    exact h.1.1
  constructor
  · unfold Note.searchNotes
    rw [filter_owned (fun d : Note => d.user == u) _ hown]
  · intro res hres
    unfold Note.searchNotes at hres
    split at hres
    · simp only [Option.some.injEq] at hres
      subst hres
      refine ⟨?_, ?_⟩
      · intro d hd
        have hm := (mem_sortDocs _ _ d).1 hd
        rw [List.mem_filter] at hm
        exact ⟨hm.1, by simpa using hown d hm.2⟩
      · rw [length_sortDocs]
        exact length_filter_le_owned _ _ hown db
    · cases hres

theorem getNotes_isolated (eng : Engine) (db : List Note) (u : ObjectId) (q : NoteQuery) :
    getNotes eng db u q = getNotes eng (db.filter fun d => d.user == u) u q
    ∧ (∀ d ∈ (getNotes eng db u q).notes, d ∈ db ∧ d.user = u)
    ∧ (∀ pg, (getNotes eng db u q).pagination = some pg →
        pg.total ≤ (db.filter fun d => d.user == u).length) := by
  have hown := noteFilter_owned eng u q
  refine ⟨?_, ?_, ?_⟩
  · unfold getNotes
    rw [filter_owned (fun d : Note => d.user == u) _ hown]
    cases hq : truthyStr q.search with
    | none => rfl
    | some s => simp only [← (searchNotes_owned eng db u s).1]
  · intro d hd
    unfold getNotes at hd
    simp only at hd
    split at hd
    · rename_i res hres
      simp only [NoteReply.notes] at hd
      cases hq : truthyStr q.search with
      | none => simp [hq] at hres
      | some s =>
        simp only [hq] at hres
        exact ((searchNotes_owned eng db u s).2 res hres).1 d (mem_of_jsSlice hd)
    · split at hd
      · simp [NoteReply.notes] at hd
      · rename_i notes hs
        simp only [NoteReply.notes] at hd
        have hm := (mem_sortDocs _ _ d).1 (mem_of_skipLimit hs hd)
        rw [List.mem_filter] at hm
        exact ⟨hm.1, by simpa using hown d hm.2⟩
  · intro pg hpg
    unfold getNotes at hpg
    simp only at hpg
    split at hpg
    · rename_i res hres
      simp only [NoteReply.pagination, Option.some.injEq] at hpg
      subst hpg
      cases hq : truthyStr q.search with
      | none => simp [hq] at hres
      | some s =>
        simp only [hq] at hres
        exact ((searchNotes_owned eng db u s).2 res hres).2
    · split at hpg
      · simp [NoteReply.pagination] at hpg
      · simp only [NoteReply.pagination, Option.some.injEq] at hpg
        subst hpg
        exact length_filter_le_owned _ _ hown db

theorem getChatHistory_isolated (db : List ChatMessage) (u : ObjectId) (sid : Option String)
    (page limit : Option Nat) :
    getChatHistory db u sid page limit
        = getChatHistory (db.filter fun d => d.user == u) u sid page limit
    ∧ (∀ d ∈ (getChatHistory db u sid page limit).messages, d ∈ db ∧ d.user = u)
    ∧ (∀ n, (getChatHistory db u sid page limit).total = some n →
        n ≤ (db.filter fun d => d.user == u).length) := by
  have hown := historyFilter_owned u sid
  refine ⟨?_, ?_, ?_⟩
  · unfold getChatHistory
    rw [filter_owned (fun d : ChatMessage => d.user == u) _ hown]
  · intro d hd
    unfold getChatHistory at hd
    simp only at hd
    split at hd
    · simp [ChatReply.messages] at hd
    · rename_i msgs hs
      simp only [ChatReply.messages] at hd
      have hm := (mem_sortDocs _ _ d).1 (mem_of_skipLimit hs hd)
      rw [List.mem_filter] at hm
      exact ⟨hm.1, by simpa using hown d hm.2⟩
  · intro n hn
    unfold getChatHistory at hn
    simp only at hn
    split at hn
    · simp [ChatReply.total] at hn
    · simp only [ChatReply.total, Option.some.injEq] at hn
      subst hn
      exact length_filter_le_owned _ _ hown db

theorem searchMessages_static_owned (rx : String → String → Bool) (db : List ChatMessage)
    (u : ObjectId) (query : String) (limit : Nat) :
    ChatMessage.searchMessages rx db u query limit
        = ChatMessage.searchMessages rx (db.filter fun d => d.user == u) u query limit
    ∧ (∀ d ∈ ChatMessage.searchMessages rx db u query limit, d ∈ db ∧ d.user = u) := by
  have hown : ∀ d : ChatMessage,
      (d.user == u && d.isDeleted != true && rx query d.content) = true →
        (d.user == u) = true := by
    intro d h
    simp only [Bool.and_eq_true] at h
    exact h.1.1
  constructor
  · unfold ChatMessage.searchMessages
    rw [filter_owned (fun d : ChatMessage => d.user == u) _ hown]
  · intro d hd
    unfold ChatMessage.searchMessages at hd
    simp only at hd
    have hd2 : d ∈ sortDocs (fun a b : ChatMessage => decide (b.createdAt ≤ a.createdAt))
        (db.filter fun d => d.user == u && d.isDeleted != true && rx query d.content) := by
      split at hd
      · exact hd
      · exact List.mem_of_mem_take hd
    have hm := (mem_sortDocs _ _ d).1 hd2
    rw [List.mem_filter] at hm
    exact ⟨hm.1, by simpa using hown d hm.2⟩

theorem searchMessages_isolated (rx : String → String → Bool) (db : List ChatMessage)
    (u : ObjectId) (q : Option String) (limit : Option Nat) :
    searchMessages rx db u q limit
        = searchMessages rx (db.filter fun d => d.user == u) u q limit
    ∧ (∀ h ∈ (searchMessages rx db u q limit).hits,
        ∃ d ∈ db, d.user = u ∧ d.id = h.id ∧ d.content = h.content)
    ∧ (∀ n, (searchMessages rx db u q limit).total = some n →
        n = (searchMessages rx db u q limit).hits.length) := by
  refine ⟨?_, ?_, ?_⟩
  · unfold searchMessages
    cases truthyStr q with
    | none => rfl
    | some query => simp only [← (searchMessages_static_owned rx db u query.trim _).1]
  · intro h hh
    unfold searchMessages at hh
    cases hq : truthyStr q with
    | none => simp [hq, ChatReply.hits] at hh
    | some query =>
      simp only [hq] at hh
      split at hh
      · simp [ChatReply.hits] at hh
      · simp only [ChatReply.hits, List.mem_map] at hh
        obtain ⟨m, hm, rfl⟩ := hh
        have := (searchMessages_static_owned rx db u query.trim _).2 m hm
        exact ⟨m, this.1, this.2, rfl, rfl⟩
  · intro n hn
    unfold searchMessages at hn ⊢
    cases hq : truthyStr q with
    | none => simp [hq, ChatReply.total] at hn
    | some query =>
      simp only [hq] at hn ⊢
      split at hn
      · simp [ChatReply.total] at hn
      · rename_i hlen
        simp only [ChatReply.total, Option.some.injEq] at hn
        simp [hlen, ChatReply.hits, ← hn]

/-- C3.  Tenant isolation of the list operations.  For every collection content, engine, query and
requesting user `u`, each of `getTasks`, `getNotes` (text-search path and regular path),
`getChatHistory` and `searchMessages` (i) answers exactly as it does on the collection reduced
to the documents of `u`, (ii) returns only stored documents whose owner is `u`, and (iii)
reports a total that is bounded by the number of documents of `u` (for `searchMessages`: that
is the number of returned messages). -/
theorem list_operations_isolated (eng : Engine) (tasks : List Task) (notes : List Note)
    (msgs : List ChatMessage) (u : ObjectId) (tq : TaskQuery) (nq : NoteQuery)
    (sid q : Option String) (page limit : Option Nat) :
    (getTasks eng.regex tasks u tq = getTasks eng.regex (tasks.filter fun d => d.user == u) u tq
      ∧ (∀ d ∈ (getTasks eng.regex tasks u tq).tasks, d ∈ tasks ∧ d.user = u)
      ∧ (∀ pg, (getTasks eng.regex tasks u tq).pagination = some pg →
          pg.total ≤ (tasks.filter fun d => d.user == u).length))
    ∧ (getNotes eng notes u nq = getNotes eng (notes.filter fun d => d.user == u) u nq
      ∧ (∀ d ∈ (getNotes eng notes u nq).notes, d ∈ notes ∧ d.user = u)
      ∧ (∀ pg, (getNotes eng notes u nq).pagination = some pg →
          pg.total ≤ (notes.filter fun d => d.user == u).length))
    ∧ (getChatHistory msgs u sid page limit
          = getChatHistory (msgs.filter fun d => d.user == u) u sid page limit
      ∧ (∀ d ∈ (getChatHistory msgs u sid page limit).messages, d ∈ msgs ∧ d.user = u)
      ∧ (∀ n, (getChatHistory msgs u sid page limit).total = some n →
          n ≤ (msgs.filter fun d => d.user == u).length))
    ∧ (searchMessages eng.regex msgs u q limit
          = searchMessages eng.regex (msgs.filter fun d => d.user == u) u q limit
      ∧ (∀ h ∈ (searchMessages eng.regex msgs u q limit).hits,
          ∃ d ∈ msgs, d.user = u ∧ d.id = h.id ∧ d.content = h.content)
      ∧ (∀ n, (searchMessages eng.regex msgs u q limit).total = some n →
          n = (searchMessages eng.regex msgs u q limit).hits.length)) :=
  ⟨getTasks_isolated eng.regex tasks u tq, getNotes_isolated eng notes u nq,
    getChatHistory_isolated msgs u sid page limit, searchMessages_isolated eng.regex msgs u q limit⟩

/-! ## Token types -/

/-- The access check does not read the `type` claim: the refresh token of a stored, active user
passes `authenticateToken` at every time before its expiry. -/
theorem authenticateToken_accepts_refresh (secret : String) (users : List User) (user : User)
    (issued now : Time) (hu : findOne (fun u : User => u.id == user.id) users = some user)
    (ha : user.isActive = true) (hexp : now / 1000 < issued / 1000 + 30 * 24 * 60 * 60) :
    authenticateToken secret users
        (some [.text "Bearer", generateRefreshToken secret user.id issued]) now
      = .next (some user) (some user.id) := by
  have hexp2 : ¬ (issued / 1000 + 2592000 ≤ now / 1000) :=
    not_le.mpr (by norm_num at hexp; exact hexp)
  simp [authenticateToken, bearerToken, generateRefreshToken, jwtSign, jwtVerify, hexp2, hu, ha]

/-- C4 (the refresh token is accepted).  The token that `generateRefreshToken` issues for the
active user 7 is sent as the bearer token one second later: `authenticateToken` calls `next()`
with that user attached.  The sibling check `verifyRefreshToken` does tell the two token types
apart: it rejects the access token of the same user. -/
theorem refresh_token_passes_authenticateToken :
    authenticateToken "secret" [{ id := 7, username := "ada", email := "ada@x.com" }]
        (some [.text "Bearer", generateRefreshToken "secret" 7 1000]) 2000
      = .next (some { id := 7, username := "ada", email := "ada@x.com" }) (some 7)
    ∧ (verifyRefreshToken "secret" (generateToken "secret" 7 1000) 2000).toOption = none
    ∧ (verifyRefreshToken "secret" (generateRefreshToken "secret" 7 1000) 2000).toOption
        = some { userId := 7, type := some "refresh" } := by
  refine ⟨by decide, by decide, by decide⟩

/-! ## Pinned notes and the requested sort -/

/-- C9 (an unpinned note is listed before a pinned one).  User 7 has a pinned note last updated at
time 1 and an unpinned note last updated at time 2.  The default `getNotes` request lists the
unpinned note first: the sort object is `{ updatedAt: -1, isPinned: -1 }`, so the pin only
breaks ties of the requested key.  `getByCategory`, whose sort object starts with `isPinned`,
lists the pinned note first. -/
theorem getNotes_unpinned_before_pinned :
    getNotes { regex := fun _ _ => false, textAvailable := true, textScore := fun _ _ => 0 }
        [{ id := 1, title := "A", content := "a", isPinned := true, user := 7, createdAt := 1,
           updatedAt := 1 },
         { id := 2, title := "B", content := "b", isPinned := false, user := 7, createdAt := 2,
           updatedAt := 2 }] 7 {}
      = .many
          [{ id := 2, title := "B", content := "b", isPinned := false, user := 7, createdAt := 2,
             updatedAt := 2 },
           { id := 1, title := "A", content := "a", isPinned := true, user := 7, createdAt := 1,
             updatedAt := 1 }]
          { page := 1, limit := 20, total := 2, pages := some 1 } none
    ∧ Note.getByCategory
        [{ id := 1, title := "A", content := "a", isPinned := true, user := 7, createdAt := 1,
           updatedAt := 1 },
         { id := 2, title := "B", content := "b", isPinned := false, user := 7, createdAt := 2,
           updatedAt := 2 }] 7 "personal"
      = [{ id := 1, title := "A", content := "a", isPinned := true, user := 7, createdAt := 1,
           updatedAt := 1 },
         { id := 2, title := "B", content := "b", isPinned := false, user := 7, createdAt := 2,
           updatedAt := 2 }] := by
  constructor <;> decide

/-! ## Note versions -/

/-- The pre-save hook adds one to the version of a note whose title or content was modified. -/
theorem Note.preSave_version (n : Note) : (Note.preSave true n).version = n.version + 1 := by
  simp [Note.preSave]

/-- C10 (updateNote does not bump the version).  The owner replaces the content of a note at
version 2 through `updateNote`: the stored note has the new content and `lastEditedBy` set to
the editor, and its version is still 2, because the write is a `findOneAndUpdate`, on which the
pre-save hook never runs. -/
theorem updateNote_keeps_version :
    updateNote [{ id := 1, title := "Reading list", content := "Chapter 3", version := 2,
                  user := 7, createdAt := 0, updatedAt := 0 }]
        7 1 [] { top := { content := some "Chapter 4" } } 50
      = (.one 200 (some "Note updated successfully")
          { id := 1, title := "Reading list", content := "Chapter 4", version := 2,
            lastEditedBy := some 7, user := 7, createdAt := 0, updatedAt := 50 },
         [{ id := 1, title := "Reading list", content := "Chapter 4", version := 2,
            lastEditedBy := some 7, user := 7, createdAt := 0, updatedAt := 50 }]) := by
  decide

/-! ## Rate limiter -/

/-- Integer ceiling division agrees with the ceiling of the exact quotient. -/
theorem natCeil_div (t l : Nat) (hl : 0 < l) : ⌈(t : ℚ) / l⌉₊ = (t + l - 1) / l := by
  apply eq_of_forall_ge_iff
  intro n
  have hlq : (0 : ℚ) < l := by exact_mod_cast hl
  rw [Nat.ceil_le, div_le_iff₀ hlq]
  have h1 : ((t : ℚ) ≤ n * l) ↔ t ≤ n * l := by exact_mod_cast Iff.rfl
  rw [h1]
  constructor
  · intro h
    have h2 : t + l - 1 < (n + 1) * l := by
      rw [Nat.succ_mul]
      generalize n * l = m at h ⊢
      omega
    exact Nat.lt_succ_iff.mp ((Nat.div_lt_iff_lt_mul hl).2 h2)
  · intro h
    have h2 := (Nat.div_lt_iff_lt_mul hl).1 (Nat.lt_succ_iff.mpr h)
    rw [Nat.succ_mul] at h2
    generalize n * l = m at h2 ⊢
    omega

/-- The recorded times of `key` that the limiter keeps at clock `now`. -/
theorem createRateLimiter_outcome (w max : Nat) (msg : Option String) (a : Attempts)
    (key : String) (now : Time) :
    (createRateLimiter w max msg a key now).1
      = if max ≤ (((a key).getD []).filter fun t => decide (t > now - w)).length then
          .reply 429 ((truthyStr msg).getD "Too many requests") "RATE_LIMIT_EXCEEDED"
            ((w + 999) / 1000)
        else .next := by
  unfold createRateLimiter
  cases h : a key <;> simp [h, Attempts.set] <;> split <;> rfl

theorem createRateLimiter_recorded (w max : Nat) (msg : Option String) (a : Attempts)
    (key : String) (now : Time) :
    (((createRateLimiter w max msg a key now).2 key).getD [])
      = if max ≤ (((a key).getD []).filter fun t => decide (t > now - w)).length then
          ((a key).getD []).filter fun t => decide (t > now - w)
        else (((a key).getD []).filter fun t => decide (t > now - w)) ++ [now] := by
  unfold createRateLimiter
  cases h : a key <;> simp [h, Attempts.set] <;> split <;> simp [h, Attempts.set]

theorem createRateLimiter_other (w max : Nat) (msg : Option String) (a : Attempts)
    (key k : String) (now : Time) (hk : k ≠ key) :
    (createRateLimiter w max msg a key now).2 k = a k := by
  unfold createRateLimiter
  cases h : a key <;> simp [h, Attempts.set] <;> split <;> simp [h, Attempts.set, hk]

/-- Pruning at an earlier clock keeps every time that is inside the window of a later clock. -/
theorem filter_window (w : Nat) (t now : Time) (htn : t ≤ now) (l : List Time) :
    ((l.filter fun x => decide (x > t - w)).filter fun x => decide (now - x < w))
      = l.filter fun x => decide (now - x < w) := by
  rw [List.filter_filter]
  apply List.filter_congr
  intro x _
  by_cases h : now - x < w
  · have h2 : x > t - w := by
      have h3 : t - (w : Int) ≤ now - w := by linarith
      linarith
    simp [h, h2]
  · simp [h]

/-- One call at a clock not after `now` changes the number of recorded times of `key` inside the
window of `now` by one if it is an admitted call of `key` inside that window, and not at all
otherwise. -/
theorem createRateLimiter_count (w max : Nat) (msg : Option String) (a : Attempts)
    (key k : String) (t now : Time) (htn : t ≤ now) :
    ((((createRateLimiter w max msg a k t).2 key).getD []).filter
        fun x => decide (now - x < w)).length
      = (((a key).getD []).filter fun x => decide (now - x < w)).length
        + ((if k = key ∧ (createRateLimiter w max msg a k t).1 = .next then [t] else []).filter
            fun x => decide (now - x < w)).length := by
  by_cases hk : k = key
  · subst hk
    rw [createRateLimiter_recorded, createRateLimiter_outcome]
    by_cases hm : max ≤ (((a k).getD []).filter fun x => decide (x > t - w)).length
    · simp only [hm, if_true, filter_window w t now htn]
      simp
    · simp only [hm, if_false, List.filter_append, filter_window w t now htn, List.length_append]
      simp
  · have hk2 : key ≠ k := fun h => hk h.symm
    rw [createRateLimiter_other w max msg a k key t hk2]
    simp [hk]

/-- After a run whose calls are all at clocks not after `now`, the recorded times of `key` inside
the window of `now` are the ones recorded before the run and the admitted calls of the run. -/
theorem runLimiter_count (w max : Nat) (msg : Option String) (key : String) (now : Time)
    (calls : List (String × Time)) :
    ∀ a : Attempts, (∀ c ∈ calls, c.2 ≤ now) →
      ((((runLimiter (createRateLimiter w max msg) a calls).2 key).getD []).filter
          fun x => decide (now - x < w)).length
        = (((a key).getD []).filter fun x => decide (now - x < w)).length
          + ((admittedTimes (createRateLimiter w max msg) key a calls).filter
              fun x => decide (now - x < w)).length := by
  induction calls with
  | nil => intro a _; simp [runLimiter, admittedTimes]
  | cons c rest ih =>
    intro a hle
    obtain ⟨k, t⟩ := c
    have ht : t ≤ now := hle (k, t) (List.mem_cons_self _ _)
    have hrest : ∀ c ∈ rest, c.2 ≤ now := fun c hc => hle c (List.mem_cons_of_mem _ hc)
    simp only [runLimiter, admittedTimes, List.filter_append, List.length_append]
    rw [ih _ hrest, createRateLimiter_count w max msg a key k t now ht]
    omega

/-- A call is rejected as soon as `max` recorded times of its key are inside its window. -/
theorem createRateLimiter_rejects (w max : Nat) (msg : Option String) (a : Attempts)
    (key : String) (now : Time)
    (h : max ≤ (((a key).getD []).filter fun x => decide (now - x < w)).length) :
    (createRateLimiter w max msg a key now).1
      = .reply 429 ((truthyStr msg).getD "Too many requests") "RATE_LIMIT_EXCEEDED"
          ((w + 999) / 1000) := by
  rw [createRateLimiter_outcome]
  have hc : (((a key).getD []).filter fun x => decide (x > now - w))
      = ((a key).getD []).filter fun x => decide (now - x < w) := by
    apply List.filter_congr
    intro x _
    by_cases hx : now - x < w
    · have : x > now - w := by linarith
      simp [hx, this]
    · have : ¬ x > now - w := by
        intro h2
        exact hx (by linarith)
      simp [hx, this]
  rw [hc, if_pos h]

theorem retryAfter_ceil (w : Nat) : (w + 999) / 1000 = ⌈(w : ℚ) / 1000⌉₊ := by
  have h := natCeil_div w 1000 (by norm_num)
  simp only [Nat.cast_ofNat] at h
  rw [h]
  have h2 : w + 1000 - 1 = w + 999 := by omega
  rw [h2]

/-- Calls of one key whose times all lie inside one window of each other, and inside one window
of everything recorded for the key: the limiter admits them until the key holds `max` times and
rejects the rest. -/
theorem runLimiter_one_key (w max : Nat) (msg : Option String) (key : String) (ts : List Time) :
    ∀ (a : Attempts) (l : List Time), (a key).getD [] = l →
      (∀ x ∈ l, ∀ t ∈ ts, t - x < w) → (∀ t ∈ ts, ∀ t' ∈ ts, t' - t < w) →
      (runLimiter (createRateLimiter w max msg) a (ts.map fun t => (key, t))).1
        = List.replicate (min ts.length (max - l.length)) .next
          ++ List.replicate (ts.length - (max - l.length))
              (.reply 429 ((truthyStr msg).getD "Too many requests") "RATE_LIMIT_EXCEEDED"
                ((w + 999) / 1000)) := by
  induction ts with
  | nil => intro a l _ _ _; simp [runLimiter]
  | cons t ts ih =>
    intro a l hl hold hts
    have hkeep : (l.filter fun x => decide (x > t - w)) = l := by
      rw [List.filter_eq_self]
      intro x hx
      have := hold x hx t (List.mem_cons_self _ _)
      have h2 : x > t - w := by linarith
      simpa using h2
    have hts2 : ∀ u ∈ ts, ∀ u2 ∈ ts, u2 - u < w :=
      fun u hu u2 hu2 => hts u (List.mem_cons_of_mem _ hu) u2 (List.mem_cons_of_mem _ hu2)
    simp only [List.map_cons, runLimiter, List.length_cons]
    rw [createRateLimiter_outcome, hl, hkeep]
    by_cases hm : max ≤ l.length
    · have hrec : ((createRateLimiter w max msg a key t).2 key).getD [] = l := by
        rw [createRateLimiter_recorded, hl, hkeep, if_pos hm]
      have hold2 : ∀ x ∈ l, ∀ u ∈ ts, u - x < w :=
        fun x hx u hu => hold x hx u (List.mem_cons_of_mem _ hu)
      rw [ih _ l hrec hold2 hts2, if_pos hm]
      have h0 : max - l.length = 0 := by omega
      simp [h0, List.replicate_succ]
    · have hrec : ((createRateLimiter w max msg a key t).2 key).getD [] = l ++ [t] := by
        rw [createRateLimiter_recorded, hl, hkeep, if_neg hm]
      have hold2 : ∀ x ∈ l ++ [t], ∀ u ∈ ts, u - x < w := by
        intro x hx u hu
        rcases List.mem_append.1 hx with h | h
        · exact hold x h u (List.mem_cons_of_mem _ hu)
        · have hxt : x = t := by simpa using h
          subst hxt
          exact hts x (List.mem_cons_self _ _) u (List.mem_cons_of_mem _ hu)
      rw [ih _ (l ++ [t]) hrec hold2 hts2, if_neg hm]
      obtain ⟨m, hm2⟩ : ∃ m, max - l.length = m + 1 := ⟨max - l.length - 1, by omega⟩
      have h1 : max - (l ++ [t]).length = m := by
        simp only [List.length_append, List.length_singleton]
        omega
      rw [h1, hm2, Nat.add_min_add_right, Nat.add_sub_add_right, List.replicate_succ]
      rfl

/-- C5.  Once `max` admitted attempts of a key lie less than `windowMs` before the current time,
the next attempt of that key is answered 429 with code `RATE_LIMIT_EXCEEDED` and
`retryAfter = ceil(windowMs / 1000)` instead of reaching the handler (first part: any limiter,
any starting map, any interleaving of calls by any keys at clocks up to the current one).  For
the login limiter six attempts of one key inside 15 minutes are admitted five times and then
rejected, and for the registration limiter four attempts inside 60 minutes are admitted three
times and then rejected. -/
theorem rate_limit_rejects_beyond_max :
    (∀ (windowMs max : Nat) (message : Option String) (attempts : Attempts)
        (calls : List (String × Time)) (key : String) (now : Time),
        (∀ c ∈ calls, c.2 ≤ now) →
        max ≤ ((admittedTimes (createRateLimiter windowMs max message) key attempts calls).filter
                fun t => decide (now - t < windowMs)).length →
        (createRateLimiter windowMs max message
            (runLimiter (createRateLimiter windowMs max message) attempts calls).2 key now).1
          = .reply 429 ((truthyStr message).getD "Too many requests") "RATE_LIMIT_EXCEEDED"
              ⌈(windowMs : ℚ) / 1000⌉₊)
    ∧ (∀ (key : String) (ts : List Time), ts.length = 6 →
        (∀ t ∈ ts, ∀ t' ∈ ts, t' - t < 15 * 60 * 1000) →
        (runLimiter loginRateLimit (fun _ => none) (ts.map fun t => (key, t))).1
          = [.next, .next, .next, .next, .next,
             .reply 429 "Too many login attempts, please try again later" "RATE_LIMIT_EXCEEDED"
               900])
    ∧ (∀ (key : String) (ts : List Time), ts.length = 4 →
        (∀ t ∈ ts, ∀ t' ∈ ts, t' - t < 60 * 60 * 1000) →
        (runLimiter registerRateLimit (fun _ => none) (ts.map fun t => (key, t))).1
          = [.next, .next, .next,
             .reply 429 "Too many registration attempts, please try again later"
               "RATE_LIMIT_EXCEEDED" 3600]) := by
  refine ⟨?_, ?_, ?_⟩
  · intro w max msg a calls key now hle hmax
    rw [← retryAfter_ceil]
    apply createRateLimiter_rejects
    rw [runLimiter_count w max msg key now calls a hle]
    omega
  · intro key ts hlen hts
    have h := runLimiter_one_key (15 * 60 * 1000) 5
      (some "Too many login attempts, please try again later") key ts (fun _ => none) [] rfl
      (by simp) (by simpa using hts)
    rw [loginRateLimit, h, hlen]
    decide
  · intro key ts hlen hts
    have h := runLimiter_one_key (60 * 60 * 1000) 3
      (some "Too many registration attempts, please try again later") key ts (fun _ => none) []
      rfl (by simp) (by simpa using hts)
    rw [registerRateLimit, h, hlen]
    decide

/-- C5, instantiated: a limiter of five attempts per 15 minutes has admitted five calls of
`10.0.0.1` (and one of another address) in the last five seconds; the next call of `10.0.0.1`
is answered 429. -/
theorem rate_limit_rejects_beyond_max_witness :
    (createRateLimiter 900000 5 none
        (runLimiter (createRateLimiter 900000 5 none) (fun _ => none)
          [("10.0.0.1", 0), ("10.0.0.1", 1000), ("10.0.0.2", 1500), ("10.0.0.1", 2000),
           ("10.0.0.1", 3000), ("10.0.0.1", 4000)]).2 "10.0.0.1" 5000).1
      = .reply 429 "Too many requests" "RATE_LIMIT_EXCEEDED" ⌈((900000 : Nat) : ℚ) / 1000⌉₊ :=
  rate_limit_rejects_beyond_max.1 900000 5 none (fun _ => none)
    [("10.0.0.1", 0), ("10.0.0.1", 1000), ("10.0.0.2", 1500), ("10.0.0.1", 2000),
     ("10.0.0.1", 3000), ("10.0.0.1", 4000)] "10.0.0.1" 5000 (by decide) (by decide)

/-- C6.  With `max ≥ 1`, in every limiter state (so in every state a sequence of admitted and
rejected attempts can reach): if each recorded attempt of a key is at least `windowMs` older
than the current time, the next attempt of that key is admitted and is the one recorded
attempt of the key afterwards. -/
theorem rate_limit_admits_after_window (windowMs max : Nat) (message : Option String)
    (attempts : Attempts) (key : String) (now : Time) (hmax : 1 ≤ max)
    (hold : ∀ t ∈ (attempts key).getD [], (windowMs : Int) ≤ now - t) :
    (createRateLimiter windowMs max message attempts key now).1 = .next
    ∧ (createRateLimiter windowMs max message attempts key now).2 key = some [now] := by
  have hnone : ((attempts key).getD []).filter (fun t => decide (t > now - windowMs)) = [] := by
    rw [List.filter_eq_nil_iff]
    intro t ht
    have := hold t ht
    have h2 : ¬ t > now - windowMs := by
      intro h3
      linarith
    simpa using h2
  constructor
  · rw [createRateLimiter_outcome, hnone]
    have : ¬ max ≤ 0 := by omega
    simp [this]
  · unfold createRateLimiter
    cases h : attempts key with
    | none =>
      have : ¬ max = 0 := by omega
      simp [h, Attempts.set, this]
    | some l =>
      rw [h] at hnone
      simp only [Option.getD_some] at hnone
      have : ¬ max = 0 := by omega
      simp [h, Attempts.set, hnone, this]

/-- C6, instantiated on a reached state: the login limiter admitted five calls of `10.0.0.1` in
its first five seconds and rejected two more; a call 15 minutes after the last admitted one is
admitted. -/
theorem rate_limit_admits_after_window_witness :
    (∀ t ∈ ((runLimiter loginRateLimit (fun _ => none)
          [("10.0.0.1", 0), ("10.0.0.1", 1000), ("10.0.0.1", 2000), ("10.0.0.1", 3000),
           ("10.0.0.1", 4000), ("10.0.0.1", 5000), ("10.0.0.1", 6000)]).2 "10.0.0.1").getD [],
        ((15 * 60 * 1000 : Nat) : Int) ≤ 904000 - t)
    ∧ (createRateLimiter (15 * 60 * 1000) 5 none
        (runLimiter loginRateLimit (fun _ => none)
          [("10.0.0.1", 0), ("10.0.0.1", 1000), ("10.0.0.1", 2000), ("10.0.0.1", 3000),
           ("10.0.0.1", 4000), ("10.0.0.1", 5000), ("10.0.0.1", 6000)]).2
        "10.0.0.1" 904000).1 = .next :=
  ⟨by decide,
   (rate_limit_admits_after_window (15 * 60 * 1000) 5 none _ "10.0.0.1" 904000 (by decide)
      (by decide)).1⟩

/-! ## Pagination -/

theorem ceilPages_eq (total limit : Nat) (hl : 1 ≤ limit) :
    ceilPages total limit = some ⌈(total : ℚ) / limit⌉₊ := by
  unfold ceilPages
  have h0 : limit ≠ 0 := by omega
  rw [if_neg h0, natCeil_div total limit hl]

/-- A page beyond the last one starts at or after the end of the result. -/
theorem total_le_skip (total limit page n : Nat) (hl : 1 ≤ limit)
    (hn : ceilPages total limit = some n) (hlt : n < page) : total ≤ (page - 1) * limit := by
  unfold ceilPages at hn
  have h0 : limit ≠ 0 := by omega
  rw [if_neg h0] at hn
  simp only [Option.some.injEq] at hn
  have h1 : total + limit - 1 < limit * ((total + limit - 1) / limit + 1) :=
    Nat.lt_mul_div_succ _ hl
  rw [hn, Nat.mul_succ] at h1
  have h2 : limit * n ≤ limit * (page - 1) := Nat.mul_le_mul_left _ (by omega)
  rw [Nat.mul_comm limit (page - 1)] at h2
  generalize limit * n = a at h1 h2
  generalize (page - 1) * limit = b at h2 ⊢
  omega

theorem skip_toNat (page limit : Nat) (hp : 1 ≤ page) :
    ¬ (((page : Int) - 1) * limit < 0) ∧ (((page : Int) - 1) * limit).toNat = (page - 1) * limit := by
  have h : ((page : Int) - 1) * limit = (((page - 1) * limit : Nat) : Int) := by
    push_cast [Nat.cast_sub hp]
    ring
  rw [h]
  exact ⟨by omega, Int.toNat_natCast _⟩

/-- The skip/limit stages with a page and a limit of at least 1: the query succeeds, and a page
beyond `ceil(length / limit)` is empty. -/
theorem skipLimit_page {α : Type} (docs : List α) (page limit : Nat) (hp : 1 ≤ page)
    (hl : 1 ≤ limit) :
    ∃ items, skipLimit (((page : Int) - 1) * limit) limit docs = some items
      ∧ (∀ n, ceilPages docs.length limit = some n → n < page → items.length = 0) := by
  obtain ⟨hneg, hnat⟩ := skip_toNat page limit hp
  have h0 : limit ≠ 0 := by omega
  refine ⟨(docs.drop ((page - 1) * limit)).take limit, ?_, ?_⟩
  · unfold skipLimit
    rw [if_neg hneg, hnat]
    simp [h0]
  · intro n hn hlt
    have := total_le_skip docs.length limit page n hl hn hlt
    rw [List.drop_of_length_le this]
    simp

/-- The `slice(skip, skip + limit)` of the search path: a page beyond `ceil(length / limit)` is
empty. -/
theorem jsSlice_page {α : Type} (docs : List α) (page limit : Nat) (hp : 1 ≤ page)
    (hl : 1 ≤ limit) (n : Nat) (hn : ceilPages docs.length limit = some n) (hlt : n < page) :
    (jsSlice (((page : Int) - 1) * limit) (((page : Int) - 1) * limit + limit) docs).length
      = 0 := by
  obtain ⟨hneg, hnat⟩ := skip_toNat page limit hp
  have hle := total_le_skip docs.length limit page n hl hn hlt
  have h : ((page : Int) - 1) * limit = (((page - 1) * limit : Nat) : Int) := by
    push_cast [Nat.cast_sub hp]
    ring
  unfold jsSlice
  rw [h]
  generalize (page - 1) * limit = b at hle
  have h1 : ¬ ((b : Int) < 0) := by omega
  have h2 : ¬ ((b : Int) + limit < 0) := by omega
  have h3 : min (b : Int) (docs.length : Int) = docs.length := by omega
  have h4 : min ((b : Int) + limit) (docs.length : Int) = docs.length := by omega
  simp [h1, h2, h3, h4]

theorem getTasks_page_form (rx : String → String → Bool) (db : List Task) (u : ObjectId)
    (q : TaskQuery) (hp : 1 ≤ q.page.getD 1) (hl : 1 ≤ q.limit.getD 20) :
    ∃ items, getTasks rx db u q
        = .many items { page := q.page.getD 1, limit := q.limit.getD 20,
                        total := (db.filter (taskFilter rx u q)).length,
                        pages := ceilPages (db.filter (taskFilter rx u q)).length
                          (q.limit.getD 20) }
      ∧ (∀ n, ceilPages (db.filter (taskFilter rx u q)).length (q.limit.getD 20) = some n →
          n < q.page.getD 1 → items.length = 0) := by
  obtain ⟨items, hs, hempty⟩ := skipLimit_page
    (sortDocs (fun a b => compareKeys Task.compareOn
        (setKey (q.sortBy.getD "createdAt")
          (if q.sortOrder.getD "desc" = "asc" then 1 else -1) []) a b != .gt)
      (db.filter (taskFilter rx u q))) (q.page.getD 1) (q.limit.getD 20) hp hl
  refine ⟨items, ?_, ?_⟩
  · unfold getTasks
    simp only [hs]
  · intro n hn
    rw [length_sortDocs] at hempty
    exact hempty n hn

theorem getNotes_page_form (eng : Engine) (db : List Note) (u : ObjectId) (q : NoteQuery)
    (hp : 1 ≤ q.page.getD 1) (hl : 1 ≤ q.limit.getD 20) :
    ∃ items total, getNotes eng db u q
        = .many items { page := q.page.getD 1, limit := q.limit.getD 20, total := total,
                        pages := ceilPages total (q.limit.getD 20) }
            (match (match truthyStr q.search with
                | some s => Note.searchNotes eng db u s
                | none => none) with
              | some _ => q.search
              | none => none)
      ∧ total = (match (match truthyStr q.search with
                | some s => Note.searchNotes eng db u s
                | none => none) with
              | some res => res.length
              | none => (db.filter (noteFilter eng u q)).length)
      ∧ (∀ n, ceilPages total (q.limit.getD 20) = some n → n < q.page.getD 1 →
          items.length = 0) := by
  unfold getNotes
  simp only
  cases hsearch : (match truthyStr q.search with
      | some s => Note.searchNotes eng db u s
      | none => none) with
  | some res =>
    refine ⟨_, res.length, rfl, rfl, ?_⟩
    intro n hn hlt
    exact jsSlice_page res (q.page.getD 1) (q.limit.getD 20) hp hl n hn hlt
  | none =>
    simp only
    obtain ⟨items, hs, hempty⟩ := skipLimit_page
      (Note.sortBy
        (if (!decide (q.archived.getD "false" = "true")) = true then
          setKey "isPinned" (-1)
            (setKey (q.sortBy.getD "updatedAt")
              (if q.sortOrder.getD "desc" = "asc" then 1 else -1) [])
        else setKey (q.sortBy.getD "updatedAt")
              (if q.sortOrder.getD "desc" = "asc" then 1 else -1) [])
        (db.filter (noteFilter eng u q))) (q.page.getD 1) (q.limit.getD 20) hp hl
    refine ⟨items, (db.filter (noteFilter eng u q)).length, ?_, rfl, ?_⟩
    · simp only [hs]
    · intro n hn
      have hlen : (Note.sortBy
        (if (!decide (q.archived.getD "false" = "true")) = true then
          setKey "isPinned" (-1)
            (setKey (q.sortBy.getD "updatedAt")
              (if q.sortOrder.getD "desc" = "asc" then 1 else -1) [])
        else setKey (q.sortBy.getD "updatedAt")
              (if q.sortOrder.getD "desc" = "asc" then 1 else -1) [])
        (db.filter (noteFilter eng u q))).length = (db.filter (noteFilter eng u q)).length :=
        length_sortDocs _ _
      rw [hlen] at hempty
      exact hempty n hn

theorem getArchivedNotes_page_form (db : List Note) (u : ObjectId) (page limit : Option Nat)
    (hp : 1 ≤ page.getD 1) (hl : 1 ≤ limit.getD 20) :
    ∃ items, getArchivedNotes db u page limit
        = .many items { page := page.getD 1, limit := limit.getD 20,
                        total := (db.filter fun d => d.user == u && d.isArchived).length,
                        pages := ceilPages (db.filter fun d => d.user == u && d.isArchived).length
                          (limit.getD 20) } none
      ∧ (∀ n, ceilPages (db.filter fun d => d.user == u && d.isArchived).length (limit.getD 20)
            = some n → n < page.getD 1 → items.length = 0) := by
  obtain ⟨items, hs, hempty⟩ := skipLimit_page (Note.getArchived db u) (page.getD 1)
    (limit.getD 20) hp hl
  refine ⟨items, ?_, ?_⟩
  · unfold getArchivedNotes
    simp only [hs]
  · intro n hn
    have hlen : (Note.getArchived db u).length
        = (db.filter fun d => d.user == u && d.isArchived).length := length_sortDocs _ _
    rw [hlen] at hempty
    exact hempty n hn

theorem getChatHistory_page_form (db : List ChatMessage) (u : ObjectId) (sid : Option String)
    (page limit : Option Nat) (hp : 1 ≤ page.getD 1) (hl : 1 ≤ limit.getD 50) :
    ∃ items, getChatHistory db u sid page limit
        = .history items { page := page.getD 1, limit := limit.getD 50,
                           total := (db.filter (historyFilter u sid)).length,
                           pages := ceilPages (db.filter (historyFilter u sid)).length
                             (limit.getD 50) } sid
      ∧ (∀ n, ceilPages (db.filter (historyFilter u sid)).length (limit.getD 50) = some n →
          n < page.getD 1 → items.length = 0) := by
  obtain ⟨items, hs, hempty⟩ := skipLimit_page
    (sortDocs (fun a b : ChatMessage => decide (a.createdAt ≤ b.createdAt))
      (db.filter (historyFilter u sid))) (page.getD 1) (limit.getD 50) hp hl
  refine ⟨items, ?_, ?_⟩
  · unfold getChatHistory
    simp only [hs]
  · intro n hn
    rw [length_sortDocs] at hempty
    exact hempty n hn

theorem pagingContract_of_forms (page limit items total : Nat) (hl : 1 ≤ limit)
    (pagination first : Option Pagination)
    (h : pagination = some { page := page, limit := limit, total := total,
                             pages := ceilPages total limit })
    (h1 : first = some { page := 1, limit := limit, total := total,
                         pages := ceilPages total limit })
    (hempty : ∀ n, ceilPages total limit = some n → n < page → items = 0) :
    PagingContract page limit items pagination first :=
  ⟨_, _, h, h1, ceilPages_eq total limit hl, rfl, hempty⟩

theorem getD_ge_one (x : Option Nat) (d : Nat) (hd : 1 ≤ d) (h : ∀ p, x = some p → 1 ≤ p) :
    1 ≤ x.getD d := by
  cases x with
  | none => exact hd
  | some p => exact h p rfl

/-- C7.  For a page and a limit that are absent (defaults) or integers of at least 1, the replies
of `getTasks`, `getNotes` (whichever path answers: the text search or the regular query),
`getArchivedNotes` and `getChatHistory` report `pages = ceil(total / limit)` and the total of
page 1 of the same query, and return no document on a page greater than `pages`. -/
theorem pagination_contract (eng : Engine) (tasks : List Task) (notes : List Note)
    (msgs : List ChatMessage) (u : ObjectId) (tq : TaskQuery) (nq : NoteQuery)
    (sid : Option String) (page limit : Option Nat)
    (hp : ∀ p, page = some p → 1 ≤ p) (hl : ∀ l, limit = some l → 1 ≤ l) :
    PagingContract (page.getD 1) (limit.getD 20)
        (getTasks eng.regex tasks u { tq with page := page, limit := limit }).tasks.length
        (getTasks eng.regex tasks u { tq with page := page, limit := limit }).pagination
        (getTasks eng.regex tasks u { tq with page := some 1, limit := limit }).pagination
    ∧ PagingContract (page.getD 1) (limit.getD 20)
        (getNotes eng notes u { nq with page := page, limit := limit }).notes.length
        (getNotes eng notes u { nq with page := page, limit := limit }).pagination
        (getNotes eng notes u { nq with page := some 1, limit := limit }).pagination
    ∧ PagingContract (page.getD 1) (limit.getD 20)
        (getArchivedNotes notes u page limit).notes.length
        (getArchivedNotes notes u page limit).pagination
        (getArchivedNotes notes u (some 1) limit).pagination
    ∧ PagingContract (page.getD 1) (limit.getD 50)
        (getChatHistory msgs u sid page limit).messages.length
        (getChatHistory msgs u sid page limit).pagination
        (getChatHistory msgs u sid (some 1) limit).pagination := by
  have hP : 1 ≤ page.getD 1 := getD_ge_one page 1 le_rfl hp
  have hL : 1 ≤ limit.getD 20 := getD_ge_one limit 20 (by norm_num) hl
  have hL2 : 1 ≤ limit.getD 50 := getD_ge_one limit 50 (by norm_num) hl
  refine ⟨?_, ?_, ?_, ?_⟩
  · obtain ⟨items, hrep, hempty⟩ := getTasks_page_form eng.regex tasks u
      { tq with page := page, limit := limit } hP hL
    obtain ⟨items1, hrep1, _⟩ := getTasks_page_form eng.regex tasks u
      { tq with page := some 1, limit := limit } le_rfl hL
    rw [hrep, hrep1]
    exact pagingContract_of_forms _ _ _ _ hL _ _ rfl rfl hempty
  · obtain ⟨items, total, hrep, htot, hempty⟩ := getNotes_page_form eng notes u
      { nq with page := page, limit := limit } hP hL
    obtain ⟨items1, total1, hrep1, htot1, _⟩ := getNotes_page_form eng notes u
      { nq with page := some 1, limit := limit } le_rfl hL
    have ht : total1 = total := htot1.trans htot.symm
    subst ht
    rw [hrep, hrep1]
    exact pagingContract_of_forms _ _ _ _ hL _ _ rfl rfl hempty
  · obtain ⟨items, hrep, hempty⟩ := getArchivedNotes_page_form notes u page limit hP hL
    obtain ⟨items1, hrep1, _⟩ := getArchivedNotes_page_form notes u (some 1) limit le_rfl hL
    rw [hrep, hrep1]
    exact pagingContract_of_forms _ _ _ _ hL _ _ rfl rfl hempty
  · obtain ⟨items, hrep, hempty⟩ := getChatHistory_page_form msgs u sid page limit hP hL2
    obtain ⟨items1, hrep1, _⟩ := getChatHistory_page_form msgs u sid (some 1) limit le_rfl hL2
    rw [hrep, hrep1]
    exact pagingContract_of_forms _ _ _ _ hL2 _ _ rfl rfl hempty

/-- C7, instantiated: three tasks, limit 2, page 3.  The reply has no task, total 3 and 2 pages. -/
theorem pagination_contract_witness :
    getTasks sampleEngine.regex (manyTasks 3) 7 { page := some 3, limit := some 2 }
      = .many [] { page := 3, limit := 2, total := 3, pages := some 2 }
    ∧ PagingContract 3 2
        (getTasks sampleEngine.regex (manyTasks 3) 7
          { page := some 3, limit := some 2 }).tasks.length
        (getTasks sampleEngine.regex (manyTasks 3) 7
          { page := some 3, limit := some 2 }).pagination
        (getTasks sampleEngine.regex (manyTasks 3) 7
          { page := some 1, limit := some 2 }).pagination :=
  ⟨by decide,
   (pagination_contract sampleEngine (manyTasks 3) [] [] 7 {} {} none (some 3) (some 2)
      (by intro p h; cases h; decide) (by intro l h; cases h; decide)).1⟩

/-! ## Page size -/

/-- On the first page `getTasks` returns as many tasks as the limit allows, whatever the limit. -/
theorem getTasks_first_page_length (rx : String → String → Bool) (db : List Task)
    (u : ObjectId) (q : TaskQuery) (hp : q.page = none) (limit : Nat) (hl : q.limit = some limit)
    (h1 : 1 ≤ limit) :
    (getTasks rx db u q).tasks.length = min limit (db.filter (taskFilter rx u q)).length := by
  have h0 : limit ≠ 0 := by omega
  unfold getTasks
  simp [hp, hl, skipLimit, h0, TaskReply.tasks, length_sortDocs]

/-- C8 (the limit is not capped).  User 7 owns 101 tasks and requests `GET /api/tasks?limit=1000`.
The validation chain records that the limit must be between 1 and 100, and the handler, which
never reads the recorded errors, answers with all 101 tasks. -/
theorem getTasks_limit_not_enforced :
    (tasksListRoute sampleEngine.regex (manyTasks 101) 7 { limit := some 1000 }).1
      = ["Limit must be between 1 and 100"]
    ∧ (tasksListRoute sampleEngine.regex (manyTasks 101) 7 { limit := some 1000 }).2.tasks.length
      = 101 := by
  constructor
  · decide
  · have hall : (manyTasks 101).filter (taskFilter sampleEngine.regex 7 { limit := some 1000 })
        = manyTasks 101 := by
      rw [List.filter_eq_self]
      intro d hd
      simp only [manyTasks, List.mem_map] at hd
      obtain ⟨i, _, rfl⟩ := hd
      rfl
    simp only [tasksListRoute]
    rw [getTasks_first_page_length _ _ _ _ rfl 1000 rfl (by norm_num), hall]
    simp [manyTasks]

/-! ## Lookups and writes in a collection with unique ids -/

/-- In a collection with unique ids, a filter that pins the id of a stored document and accepts
that document finds it. -/
theorem findOne_unique {α : Type} (getId : α → ObjectId) (p : α → Bool) (db : List α) (d : α)
    (hn : (db.map getId).Nodup) (hd : d ∈ db) (hp : p d = true)
    (hid : ∀ x, p x = true → getId x = getId d) : findOne p db = some d := by
  unfold findOne
  induction db with
  | nil => cases hd
  | cons x xs ih =>
    rw [List.map_cons, List.nodup_cons] at hn
    by_cases hx : p x = true
    · have hxd : x = d := by
        rcases List.mem_cons.1 hd with h | h
        · exact h.symm
        · exact absurd (List.mem_map.2 ⟨d, h, (hid x hx).symm⟩) hn.1
      subst hxd
      simp [List.find?, hx]
    · have hdx : d ∈ xs := by
        rcases List.mem_cons.1 hd with h | h
        · exact absurd (h ▸ hp) hx
        · exact h
      simp only [List.find?, hx]
      exact ih hn.2 hdx

theorem replaceFirst_map_id {α : Type} (getId : α → ObjectId) (p : α → Bool) (f : α → α)
    (hf : ∀ x, p x = true → getId (f x) = getId x) (db : List α) :
    (replaceFirst p f db).map getId = db.map getId := by
  induction db with
  | nil => rfl
  | cons x xs ih =>
    unfold replaceFirst
    split
    · rename_i hx
      simp [hf x hx]
    · simp [ih]

/-- Writing a stored document back under its id puts the written document in the collection. -/
theorem mem_replaceFirst {α : Type} (getId : α → ObjectId) (db : List α) (d e : α)
    (hn : (db.map getId).Nodup) (hd : d ∈ db) :
    e ∈ replaceFirst (fun x => getId x == getId d) (fun _ => e) db := by
  induction db with
  | nil => cases hd
  | cons x xs ih =>
    rw [List.map_cons, List.nodup_cons] at hn
    unfold replaceFirst
    by_cases hx : (getId x == getId d) = true
    · simp [hx]
    · have hdx : d ∈ xs := by
        rcases List.mem_cons.1 hd with h | h
        · subst h
          simp at hx
        · exact h
      simp only [hx]
      exact List.mem_cons_of_mem _ (ih hn.2 hdx)

/-- A document with another id is not touched by a write under the id of `d`. -/
theorem mem_replaceFirst_other {α : Type} (getId : α → ObjectId) (db : List α) (d e m : α)
    (hm : m ∈ db) (hne : getId m ≠ getId d) :
    m ∈ replaceFirst (fun x => getId x == getId d) (fun _ => e) db := by
  induction db with
  | nil => cases hm
  | cons x xs ih =>
    unfold replaceFirst
    by_cases hx : (getId x == getId d) = true
    · rcases List.mem_cons.1 hm with h | h
      · subst h
        simp at hx
        exact absurd hx hne
      · simp [hx, h]
    · simp only [hx]
      rcases List.mem_cons.1 hm with h | h
      · subst h
        exact List.mem_cons_self _ _
      · exact List.mem_cons_of_mem _ (ih h)

/-! ## Pin toggle -/

theorem Note.togglePin_eq (db : List Note) (n : Note) (now : Time) :
    n.togglePin db now
      = ({ n with isPinned := !n.isPinned, updatedAt := now },
         replaceFirst (fun d => d.id == n.id)
           (fun _ => { n with isPinned := !n.isPinned, updatedAt := now }) db) := by
  have hne : ({ n with isPinned := !n.isPinned } : Note) ≠ n := by
    intro h
    have h2 := congrArg Note.isPinned h
    simp at h2
  simp [Note.togglePin, Note.save, Note.preSave, hne]

/-- The `togglePin` handler on a stored note of the requester, in a collection with unique ids. -/
theorem togglePin_own (db : List Note) (n : Note) (now : Time)
    (hn : (db.map fun d => d.id).Nodup) (hd : n ∈ db) :
    (togglePin db n.user n.id now).1.note
        = some { n with isPinned := !n.isPinned, updatedAt := now }
    ∧ (togglePin db n.user n.id now).2
        = replaceFirst (fun d => d.id == n.id)
            (fun _ => { n with isPinned := !n.isPinned, updatedAt := now }) db := by
  have hf : findOne (fun d : Note => d.id == n.id && d.user == n.user) db = some n :=
    findOne_unique (fun d : Note => d.id) _ db n hn hd (by simp)
      (fun x hx => by
        simp only [Bool.and_eq_true, beq_iff_eq] at hx
        exact hx.1)
  simp [togglePin, hf, Note.togglePin_eq, NoteReply.note]

/-- C11 (counterexample).  A pin toggle at clock 50 of a note last updated at clock 0 changes its
`updatedAt` field as well. -/
theorem togglePin_changes_updatedAt :
    togglePin [sampleNote] 7 1 50
      = (.one 200 (some "Note pinned successfully")
          { id := 1, title := "Reading list", content := "Chapter 3", isPinned := true,
            user := 7, createdAt := 0, updatedAt := 50 },
         [{ id := 1, title := "Reading list", content := "Chapter 3", isPinned := true,
            user := 7, createdAt := 0, updatedAt := 50 }])
    ∧ sampleNote.updatedAt = 0 := by
  constructor <;> decide

/-- C11 (amended).  For every stored note (ids unique), one `togglePin` by its owner negates
`isPinned`, sets `updatedAt` to the time of the save and changes no other field, the version
included; a second `togglePin` gives back the initial `isPinned`, so that the note returned and
the note stored after two toggles are the initial note with `updatedAt` set to the time of the
second save. -/
theorem togglePin_twice (db : List Note) (n : Note) (now1 now2 : Time)
    (hn : (db.map fun d => d.id).Nodup) (hd : n ∈ db) :
    (togglePin db n.user n.id now1).1.note
        = some { n with isPinned := !n.isPinned, updatedAt := now1 }
    ∧ (togglePin (togglePin db n.user n.id now1).2 n.user n.id now2).1.note
        = some { n with updatedAt := now2 }
    ∧ findOne (fun d : Note => d.id == n.id)
        (togglePin (togglePin db n.user n.id now1).2 n.user n.id now2).2
        = some { n with updatedAt := now2 } := by
  obtain ⟨h1, hdb1⟩ := togglePin_own db n now1 hn hd
  have hn1 : ((togglePin db n.user n.id now1).2.map fun d => d.id).Nodup := by
    rw [hdb1, replaceFirst_map_id (fun d : Note => d.id) (fun d => d.id == n.id)
      (fun _ => ({ n with isPinned := !n.isPinned, updatedAt := now1 } : Note))
      (fun x hx => (beq_iff_eq.1 hx).symm)]
    exact hn
  have hm1 : ({ n with isPinned := !n.isPinned, updatedAt := now1 } : Note)
      ∈ (togglePin db n.user n.id now1).2 := by
    rw [hdb1]
    exact mem_replaceFirst (fun d : Note => d.id) db n _ hn hd
  obtain ⟨h2, hdb2⟩ := togglePin_own (togglePin db n.user n.id now1).2
    { n with isPinned := !n.isPinned, updatedAt := now1 } now2 hn1 hm1
  have hback : ({ n with isPinned := !n.isPinned, updatedAt := now1 } : Note).isPinned.not
      = n.isPinned := by simp
  simp only [hback] at h2 hdb2
  refine ⟨h1, h2, ?_⟩
  have hn2 : ((togglePin (togglePin db n.user n.id now1).2 n.user n.id now2).2.map
      fun d => d.id).Nodup := by
    rw [hdb2, replaceFirst_map_id (fun d : Note => d.id) (fun d => d.id == n.id)
      (fun _ => ({ n with updatedAt := now2 } : Note)) (fun x hx => (beq_iff_eq.1 hx).symm)]
    exact hn1
  have hm2 : ({ n with updatedAt := now2 } : Note)
      ∈ (togglePin (togglePin db n.user n.id now1).2 n.user n.id now2).2 := by
    rw [hdb2]
    exact mem_replaceFirst (fun d : Note => d.id) _
      { n with isPinned := !n.isPinned, updatedAt := now1 } _ hn1 hm1
  exact findOne_unique (fun d : Note => d.id) _ _ _ hn2 hm2 (by simp)
    (fun x hx => by simpa using hx)

/-- C11 (amended), instantiated on the collection holding `sampleNote`, toggled at clocks 50 and
60. -/
theorem togglePin_twice_witness :
    ([sampleNote].map fun d => d.id).Nodup ∧ sampleNote ∈ [sampleNote]
    ∧ (togglePin (togglePin [sampleNote] sampleNote.user sampleNote.id 50).2
        sampleNote.user sampleNote.id 60).1.note
        = some { sampleNote with updatedAt := 60 } :=
  ⟨by decide, by decide,
   (togglePin_twice [sampleNote] sampleNote 50 60 (by decide) (by decide)).2.1⟩

/-! ## Tags -/

theorem Note.addTag_present (db : List Note) (n : Note) (t : String) (now : Time)
    (h : t ∈ n.tags) : n.addTag db t now = (n, db) := by
  simp [Note.addTag, h]

theorem Note.addTag_absent (db : List Note) (n : Note) (t : String) (now : Time)
    (h : t ∉ n.tags) :
    n.addTag db t now
      = ({ n with tags := n.tags ++ [t], updatedAt := now },
         replaceFirst (fun d => d.id == n.id)
           (fun _ => { n with tags := n.tags ++ [t], updatedAt := now }) db) := by
  have hne : ({ n with tags := n.tags ++ [t] } : Note) ≠ n := by
    intro h2
    have h3 := congrArg (fun x : Note => x.tags.length) h2
    simp at h3
  simp [Note.addTag, h, Note.save, Note.preSave, hne]

/-- The `addTag` method is idempotent: once `t` was added, adding it again changes neither the
note nor the collection, and the first addition inserts `t` only if it was absent. -/
theorem Note.addTag_twice (db : List Note) (n : Note) (t : String) (now1 now2 : Time) :
    (n.addTag db t now1).1.addTag (n.addTag db t now1).2 t now2 = n.addTag db t now1
    ∧ (n.addTag db t now1).1.tags.count t = (if t ∈ n.tags then n.tags.count t else 1) := by
  by_cases h : t ∈ n.tags
  · rw [Note.addTag_present db n t now1 h, Note.addTag_present db n t now2 h]
    simp [h]
  · rw [Note.addTag_absent db n t now1 h]
    refine ⟨Note.addTag_present _ _ t now2 (by simp), ?_⟩
    simp [h, List.count_eq_zero_of_not_mem h]

/-- C12 (counterexample).  A note stored with the tag list `["math", "math"]` (lists written by
`createNote` and `updateNote` are not deduplicated).  The `addTag` request of its owner for
`math` answers 200 with the note as it is and leaves the collection as it is, so after any
number of additions the list still holds `math` twice. -/
theorem addTag_twice_keeps_duplicates :
    addTag [{ id := 1, title := "A", content := "a", tags := ["math", "math"], user := 7,
              createdAt := 0, updatedAt := 0 }] 7 1 (some "math") 50
      = (.one 200 (some "Tag added successfully")
          { id := 1, title := "A", content := "a", tags := ["math", "math"], user := 7,
            createdAt := 0, updatedAt := 0 },
         [{ id := 1, title := "A", content := "a", tags := ["math", "math"], user := 7,
            createdAt := 0, updatedAt := 0 }])
    ∧ (["math", "math"] : List String).count "math" = 2 := by
  constructor
  · with_unfolding_all decide
  · decide

/-- C12 (amended).  For every stored note (ids unique) and every tag request that the `addTag`
handler accepts (a non-blank tag whose stored form `s`, trimmed and in lower case, is in the
list already or has at most 30 characters): after the first addition `s` occurs in the tag
list once if it was absent and as often as before if it was present, and the second addition
answers with the same note and leaves the collection unchanged. -/
theorem addTag_handler_twice (db : List Note) (n : Note) (tag : Option String) (t : String)
    (now1 now2 : Time) (hn : (db.map fun d => d.id).Nodup) (hd : n ∈ db)
    (ht : truthyStr tag = some t) (hb : t.trim.length ≠ 0)
    (hlen : t.trim.toLower ∈ n.tags ∨ t.trim.toLower.length ≤ 30) :
    ∃ n1, (addTag db n.user n.id tag now1).1 = .one 200 (some "Tag added successfully") n1
      ∧ n1 = (if t.trim.toLower ∈ n.tags then n
              else { n with tags := n.tags ++ [t.trim.toLower], updatedAt := now1 })
      ∧ n1.tags.count t.trim.toLower
          = (if t.trim.toLower ∈ n.tags then n.tags.count t.trim.toLower else 1)
      ∧ addTag (addTag db n.user n.id tag now1).2 n.user n.id tag now2
          = (.one 200 (some "Tag added successfully") n1, (addTag db n.user n.id tag now1).2) := by
  have hf : findOne (fun d : Note => d.id == n.id && d.user == n.user) db = some n :=
    findOne_unique (fun d : Note => d.id) _ db n hn hd (by simp)
      (fun x hx => by
        simp only [Bool.and_eq_true, beq_iff_eq] at hx
        exact hx.1)
  by_cases h : t.trim.toLower ∈ n.tags
  · have h1 : addTag db n.user n.id tag now1
        = (.one 200 (some "Tag added successfully") n, db) := by
      simp [addTag, ht, hb, hf, h, Note.addTag_present db n _ now1 h]
    have h2 : addTag db n.user n.id tag now2
        = (.one 200 (some "Tag added successfully") n, db) := by
      simp [addTag, ht, hb, hf, h, Note.addTag_present db n _ now2 h]
    refine ⟨n, ?_, by simp [h], by simp [h], ?_⟩
    · rw [h1]
    · rw [h1]
      exact h2
  · have hl : ¬ (30 < t.trim.toLower.length) := by
      rcases hlen with h3 | h3
      · exact absurd h3 h
      · omega
    have h1 : addTag db n.user n.id tag now1
        = (.one 200 (some "Tag added successfully")
            { n with tags := n.tags ++ [t.trim.toLower], updatedAt := now1 },
           replaceFirst (fun d => d.id == n.id)
             (fun _ => { n with tags := n.tags ++ [t.trim.toLower], updatedAt := now1 }) db) := by
      simp [addTag, ht, hb, hf, h, hl, Note.addTag_absent db n _ now1 h]
    have hn1 : ((replaceFirst (fun d : Note => d.id == n.id)
        (fun _ => ({ n with tags := n.tags ++ [t.trim.toLower], updatedAt := now1 } : Note))
        db).map fun d => d.id).Nodup := by
      rw [replaceFirst_map_id (fun d : Note => d.id) (fun d => d.id == n.id)
        (fun _ => ({ n with tags := n.tags ++ [t.trim.toLower], updatedAt := now1 } : Note))
        (fun x hx => (beq_iff_eq.1 hx).symm)]
      exact hn
    have hm1 := mem_replaceFirst (fun d : Note => d.id) db n
      ({ n with tags := n.tags ++ [t.trim.toLower], updatedAt := now1 } : Note) hn hd
    have hf1 : findOne (fun d : Note => d.id == n.id && d.user == n.user)
        (replaceFirst (fun d : Note => d.id == n.id)
          (fun _ => ({ n with tags := n.tags ++ [t.trim.toLower], updatedAt := now1 } : Note))
          db)
        = some { n with tags := n.tags ++ [t.trim.toLower], updatedAt := now1 } :=
      findOne_unique (fun d : Note => d.id) _ _ _ hn1 hm1 (by simp)
        (fun x hx => by
          simp only [Bool.and_eq_true, beq_iff_eq] at hx
          exact hx.1)
    refine ⟨{ n with tags := n.tags ++ [t.trim.toLower], updatedAt := now1 }, ?_, by simp [h],
      ?_, ?_⟩
    · rw [h1]
    · simp [h, List.count_eq_zero_of_not_mem h]
    · rw [h1]
      simp only
      have hin : t.trim.toLower ∈
          ({ n with tags := n.tags ++ [t.trim.toLower], updatedAt := now1 } : Note).tags := by
        simp
      simp [addTag, ht, hb, hf1, Note.addTag_present _ _ _ now2 hin]

/-- C12 (amended), instantiated: the tag ` Math ` is added twice to a stored note without tags;
the stored form is `math`. -/
theorem addTag_handler_twice_witness :
    ([sampleNote].map fun d => d.id).Nodup ∧ sampleNote ∈ [sampleNote]
    ∧ truthyStr (some " Math ") = some " Math " ∧ " Math ".trim.length ≠ 0
    ∧ " Math ".trim.toLower = "math"
    ∧ ∃ n1, (addTag [sampleNote] sampleNote.user sampleNote.id (some " Math ") 50).1
          = .one 200 (some "Tag added successfully") n1
      ∧ n1 = (if " Math ".trim.toLower ∈ sampleNote.tags then sampleNote
              else { sampleNote with tags := sampleNote.tags ++ [" Math ".trim.toLower],
                                     updatedAt := 50 })
      ∧ n1.tags.count " Math ".trim.toLower
          = (if " Math ".trim.toLower ∈ sampleNote.tags
              then sampleNote.tags.count " Math ".trim.toLower else 1)
      ∧ addTag (addTag [sampleNote] sampleNote.user sampleNote.id (some " Math ") 50).2
            sampleNote.user sampleNote.id (some " Math ") 60
          = (.one 200 (some "Tag added successfully") n1,
             (addTag [sampleNote] sampleNote.user sampleNote.id (some " Math ") 50).2) :=
  ⟨by decide, by decide, by decide, by with_unfolding_all decide, by with_unfolding_all decide,
   addTag_handler_twice [sampleNote] sampleNote (some " Math ") " Math " 50 60 (by decide)
     (by decide) (by decide) (by with_unfolding_all decide)
     (Or.inr (by with_unfolding_all decide))⟩

/-! ## Reactions -/

theorem ChatMessage.addReaction_reactions (db : List ChatMessage) (m : ChatMessage)
    (x : String) (now : Time) :
    (m.addReaction db x now).1.reactions
      = m.reactions.filter (fun r => r.type ≠ x) ++ [{ type := x, timestamp := now }] := by
  unfold ChatMessage.addReaction ChatMessage.save ChatMessage.preSave
  simp only [ne_eq, not_true_eq_false, decide_False, Bool.false_and, Bool.false_eq_true,
    if_false]
  split <;> rfl

/-- C13.  For every chat message, reactions list and reaction type `x`: after `addReaction(x)`
the reactions are the former reactions of the other types, in their former order, followed by
the new reaction; so exactly one reaction has type `x`, it is the new one (its timestamp is the
clock of the call) and it is the last element. -/
theorem addReaction_replaces_same_type (db : List ChatMessage) (m : ChatMessage) (x : String)
    (now : Time) :
    ((m.addReaction db x now).1.reactions.filter fun r => r.type = x)
        = [{ type := x, timestamp := now }]
    ∧ (m.addReaction db x now).1.reactions.getLast? = some { type := x, timestamp := now }
    ∧ ((m.addReaction db x now).1.reactions.filter fun r => r.type ≠ x)
        = (m.reactions.filter fun r => r.type ≠ x)
    ∧ (m.addReaction db x now).1.reactions
        = (m.reactions.filter fun r => r.type ≠ x) ++ [{ type := x, timestamp := now }] := by
  rw [ChatMessage.addReaction_reactions]
  refine ⟨?_, ?_, ?_, rfl⟩
  · rw [List.filter_append, List.filter_filter]
    have h : (m.reactions.filter fun a => decide (a.type = x) && decide (a.type ≠ x)) = [] := by
      rw [List.filter_eq_nil_iff]
      intro a _
      by_cases ha : a.type = x <;> simp [ha]
    rw [h]
    simp
  · simp
  · rw [List.filter_append, List.filter_filter]
    have h : (m.reactions.filter fun a => decide (a.type ≠ x) && decide (a.type ≠ x))
        = m.reactions.filter fun a => decide (a.type ≠ x) := by
      apply List.filter_congr
      intro a _
      simp
    rw [h]
    simp

/-! ## Subtasks addressed by id -/

/-- On a task of the requester without a subtask of the given id, `updateSubtask` answers 404
`SUBTASK_NOT_FOUND` and `deleteSubtask` answers 500 `SUBTASK_ERROR`; neither writes. -/
theorem subtask_absent (db : List Task) (t : Task) (subtaskId : ObjectId)
    (title : Option String) (completed : Option JsVal) (now : Time)
    (hn : (db.map fun d => d.id).Nodup) (hd : t ∈ db)
    (hs : ∀ s ∈ t.subtasks, s.id ≠ subtaskId) :
    updateSubtask db t.user t.id subtaskId title completed now
        = (.fail 404 { error := "Subtask not found", code := some "SUBTASK_NOT_FOUND" }, db)
    ∧ deleteSubtask db t.user t.id subtaskId now
        = (.fail 500 { error := "Failed to delete subtask", code := some "SUBTASK_ERROR" }, db) := by
  have hf : findOne (fun d : Task => d.id == t.id && d.user == t.user) db = some t :=
    findOne_unique (fun d : Task => d.id) _ db t hn hd (by simp)
      (fun x hx => by
        simp only [Bool.and_eq_true, beq_iff_eq] at hx
        exact hx.1)
  have hsub : t.subtasks.find? (fun s => s.id == subtaskId) = none := by
    rw [List.find?_eq_none]
    intro s hs2
    simpa using hs s hs2
  simp [updateSubtask, deleteSubtask, hf, hsub]

/-- C14 (deleteSubtask answers 500).  Task 1 of user 7 has no subtask; for the subtask id 5
`updateSubtask` answers 404 `SUBTASK_NOT_FOUND`, but `deleteSubtask` answers 500 `SUBTASK_ERROR`:
it calls `.remove()` on the `null` that `task.subtasks.id(5)` returns.  The task is unchanged in
both cases. -/
theorem deleteSubtask_absent_answers_500 :
    deleteSubtask [sampleTask] 7 1 5 50
      = (.fail 500 { error := "Failed to delete subtask", code := some "SUBTASK_ERROR" },
         [sampleTask])
    ∧ updateSubtask [sampleTask] 7 1 5 none (some (.bool true)) 50
      = (.fail 404 { error := "Subtask not found", code := some "SUBTASK_NOT_FOUND" },
         [sampleTask]) := by
  constructor <;> decide

/-! ## Soft delete of a chat session -/

theorem deleteChatSession_db (db : List ChatMessage) (u : ObjectId) (s : String) (now : Time) :
    (deleteChatSession db u s now).2
      = db.map fun d => if d.user == u && d.sessionId == s then softDeleted now d else d := rfl

/-- After the soft delete, every stored message of the user in the session is flagged. -/
theorem deleteChatSession_flagged (db : List ChatMessage) (u : ObjectId) (s : String)
    (now : Time) (x : ChatMessage) (hx : x ∈ (deleteChatSession db u s now).2)
    (hu : x.user = u) (hs : x.sessionId = s) : x.isDeleted = true := by
  rw [deleteChatSession_db, List.mem_map] at hx
  obtain ⟨d, _, rfl⟩ := hx
  by_cases ht : (d.user == u && d.sessionId == s) = true
  · simp [ht, softDeleted]
  · rw [if_neg ht] at hu hs
    simp [hu, hs] at ht

theorem deleteChatSession_history_empty (db : List ChatMessage) (u : ObjectId) (s : String)
    (now : Time) :
    (deleteChatSession db u s now).2.filter (historyFilter u (some s)) = [] := by
  rw [List.filter_eq_nil_iff]
  intro x hx hf
  simp only [historyFilter, Bool.and_eq_true, beq_iff_eq, Option.some.injEq] at hf
  have hdel := deleteChatSession_flagged db u s now x hx hf.1.1 hf.1.2.symm
  simp [hdel] at hf

theorem skipLimit_nil {α : Type} (skip : Int) (limit : Nat) (page : List α)
    (h : skipLimit skip limit ([] : List α) = some page) : page = [] := by
  unfold skipLimit at h
  split at h
  · cases h
  · simp at h
    exact h

/-- After the soft delete the history of the session is empty and its total is 0. -/
theorem deleteChatSession_getChatHistory (db : List ChatMessage) (u : ObjectId) (s : String)
    (now : Time) (page limit : Option Nat) :
    (getChatHistory (deleteChatSession db u s now).2 u (some s) page limit).messages = []
    ∧ (∀ n, (getChatHistory (deleteChatSession db u s now).2 u (some s) page limit).total
          = some n → n = 0) := by
  unfold getChatHistory
  simp only [deleteChatSession_history_empty, sortDocs]
  constructor
  · split
    · rfl
    · rename_i msgs hm
      simp only [ChatReply.messages]
      exact skipLimit_nil _ _ _ hm
  · intro n hn
    split at hn
    · simp [ChatReply.total] at hn
    · simp [ChatReply.total] at hn
      exact hn.symm

/-- In a collection with unique ids, what the soft delete leaves under the id of a message of the
session is that message, flagged. -/
theorem deleteChatSession_at_id (db : List ChatMessage) (u : ObjectId) (s : String) (now : Time)
    (hn : (db.map fun d => d.id).Nodup) (m : ChatMessage) (hm : m ∈ db) (hu : m.user = u)
    (hs : m.sessionId = s) (x : ChatMessage) (hx : x ∈ (deleteChatSession db u s now).2)
    (hid : x.id = m.id) : x = softDeleted now m := by
  rw [deleteChatSession_db, List.mem_map] at hx
  obtain ⟨d, hd, rfl⟩ := hx
  have hdid : d.id = m.id := by
    by_cases ht : (d.user == u && d.sessionId == s) = true
    · rw [if_pos ht] at hid
      exact hid
    · rw [if_neg ht] at hid
      exact hid
  have hdm : d = m := List.inj_on_of_nodup_map hn hd hm hdid
  subst hdm
  simp [hu, hs]

theorem deleteChatSession_retains (db : List ChatMessage) (u : ObjectId) (s : String)
    (now : Time) (m : ChatMessage) (hm : m ∈ db) (hu : m.user = u) (hs : m.sessionId = s) :
    softDeleted now m ∈ (deleteChatSession db u s now).2 := by
  rw [deleteChatSession_db, List.mem_map]
  exact ⟨m, hm, by simp [hu, hs]⟩

theorem deleteChatSession_others (db : List ChatMessage) (u : ObjectId) (s : String)
    (now : Time) :
    ((deleteChatSession db u s now).2.filter fun d => !(d.user == u && d.sessionId == s))
      = db.filter fun d => !(d.user == u && d.sessionId == s) := by
  rw [deleteChatSession_db]
  induction db with
  | nil => rfl
  | cons d ds ih =>
    rw [List.map_cons, List.filter_cons, List.filter_cons, ih]
    by_cases ht : (d.user == u && d.sessionId == s) = true
    · have ht2 : ((softDeleted now d).user == u && (softDeleted now d).sessionId == s) = true :=
        ht
      rw [if_pos ht, ht2, ht]
      rfl
    · rw [if_neg ht]

/-- Every message a search returns is stored and not flagged as deleted. -/
theorem searchMessages_hits_live (rx : String → String → Bool) (db : List ChatMessage)
    (v : ObjectId) (q : Option String) (limit : Option Nat) (h : SearchHit)
    (hh : h ∈ (searchMessages rx db v q limit).hits) :
    ∃ x ∈ db, x.id = h.id ∧ x.isDeleted = false := by
  unfold searchMessages at hh
  cases hq : truthyStr q with
  | none => simp [hq, ChatReply.hits] at hh
  | some query =>
    simp only [hq] at hh
    split at hh
    · simp [ChatReply.hits] at hh
    · simp only [ChatReply.hits, List.mem_map] at hh
      obtain ⟨m, hm, rfl⟩ := hh
      unfold ChatMessage.searchMessages at hm
      simp only at hm
      have hm2 : m ∈ sortDocs (fun a b : ChatMessage => decide (b.createdAt ≤ a.createdAt))
          (db.filter fun d => d.user == v && d.isDeleted != true && rx query.trim d.content) := by
        split at hm
        · exact hm
        · exact List.mem_of_mem_take hm
      have hm3 := (mem_sortDocs _ _ m).1 hm2
      rw [List.mem_filter] at hm3
      refine ⟨m, hm3.1, rfl, ?_⟩
      have := hm3.2
      simp only [Bool.and_eq_true, bne_iff_ne, ne_eq, Bool.not_eq_true] at this
      exact this.1.2

/-- The history window of a session whose only non-deleted message of the user is the one just
saved. -/
theorem conversationHistory_fresh (db : List ChatMessage) (u : ObjectId) (s : String)
    (um : ChatMessage) (hu : um.user = u) (hs : um.sessionId = s) (hd : um.isDeleted = false)
    (hempty : (db.filter fun d => d.user == u && d.sessionId == s && d.isDeleted != true) = []) :
    conversationHistory (db ++ [um]) u s = [{ role := um.role, content := um.content }] := by
  unfold conversationHistory
  rw [List.filter_append, hempty]
  simp [hu, hs, hd, sortDocs, insertSorted]

/-- The requests `sendMessage` sends to the completion API: none when the request is rejected
before the call, and otherwise exactly one, whose message list is the system instruction followed
by the history window read after the user message was saved. -/
theorem sendMessage_calls (complete : String → List ChatTurn → Option Completion)
    (db : List ChatMessage) (u : ObjectId) (errors : List String) (body : SendBody)
    (fresh : String) (id1 id2 : ObjectId) (now later : Time) :
    (sendMessage complete db u errors body fresh id1 id2 now later).calls
      = if errors.isEmpty
            && ChatMessage.valid
                { id := id1, user := u, sessionId := (truthyStr body.sessionId).getD fresh,
                  role := "user", content := body.message,
                  context := body.context.getD "general", createdAt := now, updatedAt := now }
        then
          [(body.model.getD "gpt-3.5-turbo",
            { role := "system", content := SYSTEM_MESSAGE }
              :: conversationHistory
                  (db ++ [{ id := id1, user := u,
                            sessionId := (truthyStr body.sessionId).getD fresh, role := "user",
                            content := body.message, context := body.context.getD "general",
                            createdAt := now, updatedAt := now }])
                  u ((truthyStr body.sessionId).getD fresh))]
        else [] := by
  unfold sendMessage
  by_cases he : errors.isEmpty = true
  · by_cases hv : ChatMessage.valid
        { id := id1, user := u, sessionId := (truthyStr body.sessionId).getD fresh,
          role := "user", content := body.message,
          context := body.context.getD "general", createdAt := now, updatedAt := now } = true
    · simp only [he, hv, Bool.not_true, Bool.false_eq_true, if_false, Bool.and_self, if_true]
      split <;> rfl
    · simp [he, hv]
  · simp [he]

/-- After the soft delete of a session, a reaction request on a message of that session finds
nothing, whoever asks. -/
theorem deleteChatSession_addReaction (db : List ChatMessage) (u : ObjectId) (s : String)
    (now : Time) (hn : (db.map fun d => d.id).Nodup) (m : ChatMessage) (hm : m ∈ db)
    (hu : m.user = u) (hs : m.sessionId = s) (requester : ObjectId) (reaction : Option String)
    (now2 : Time) :
    addReaction (deleteChatSession db u s now).2 requester m.id reaction now2
      = (messageNotFound, (deleteChatSession db u s now).2) := by
  have hf : findOne
      (fun d : ChatMessage => d.id == m.id && d.user == requester && d.isDeleted != true)
      (deleteChatSession db u s now).2 = none := by
    unfold findOne
    rw [List.find?_eq_none]
    intro x hx hp
    simp only [Bool.and_eq_true, beq_iff_eq] at hp
    have hxm := deleteChatSession_at_id db u s now hn m hm hu hs x hx hp.1.1
    rw [hxm] at hp
    simp [softDeleted] at hp
  unfold addReaction
  rw [hf]

theorem deleteChatSession_ids (db : List ChatMessage) (u : ObjectId) (s : String) (now : Time) :
    (deleteChatSession db u s now).2.map (fun d => d.id) = db.map fun d => d.id := by
  rw [deleteChatSession_db, List.map_map]
  apply List.map_congr_left
  intro d _
  by_cases ht : (d.user == u && d.sessionId == s) = true
  · simp only [Function.comp, if_pos ht, softDeleted]
  · simp only [Function.comp, if_neg ht]

/-- C15.  After `deleteChatSession(u, s)` on a collection with unique ids: every message of `u`
in `s` is still stored, under its id, with `isDeleted = true` and `deletedAt` set to the time of
the call; `getChatHistory` for `s` returns no message and total 0; no search returns any of
them; the message list a later `sendMessage` of `u` in `s` forwards holds only the system
instruction and the new user message; `addReaction` on any of them answers 404; and the
messages of other users and of other sessions are the same as before. -/
theorem deleteChatSession_soft_deletes (rx : String → String → Bool) (db : List ChatMessage)
    (u : ObjectId) (s : String) (now : Time) (hn : (db.map fun d => d.id).Nodup) :
    (∀ m ∈ db, m.user = u → m.sessionId = s →
        softDeleted now m ∈ (deleteChatSession db u s now).2
        ∧ (softDeleted now m).isDeleted = true ∧ (softDeleted now m).deletedAt = some now
        ∧ (∀ x ∈ (deleteChatSession db u s now).2, x.id = m.id → x = softDeleted now m))
    ∧ ((deleteChatSession db u s now).2.map (fun d => d.id) = db.map fun d => d.id)
    ∧ (∀ page limit,
        (getChatHistory (deleteChatSession db u s now).2 u (some s) page limit).messages = []
        ∧ (∀ n, (getChatHistory (deleteChatSession db u s now).2 u (some s) page limit).total
              = some n → n = 0))
    ∧ (∀ v q limit, ∀ h ∈ (searchMessages rx (deleteChatSession db u s now).2 v q limit).hits,
        ∀ m ∈ db, m.user = u → m.sessionId = s → h.id ≠ m.id)
    ∧ (∀ complete errors body fresh id1 id2 t1 t2, truthyStr body.sessionId = some s →
        ∀ call ∈ (sendMessage complete (deleteChatSession db u s now).2 u errors body fresh
                    id1 id2 t1 t2).calls,
          call.2 = [{ role := "system", content := SYSTEM_MESSAGE },
                    { role := "user", content := body.message }])
    ∧ (∀ m ∈ db, m.user = u → m.sessionId = s → ∀ requester reaction t,
        addReaction (deleteChatSession db u s now).2 requester m.id reaction t
          = (messageNotFound, (deleteChatSession db u s now).2))
    ∧ (((deleteChatSession db u s now).2.filter fun d => !(d.user == u && d.sessionId == s))
        = db.filter fun d => !(d.user == u && d.sessionId == s)) := by
  refine ⟨?_, deleteChatSession_ids db u s now, ?_, ?_, ?_, ?_, deleteChatSession_others db u s now⟩
  · intro m hm hu hs
    exact ⟨deleteChatSession_retains db u s now m hm hu hs, rfl, rfl,
      fun x hx hid => deleteChatSession_at_id db u s now hn m hm hu hs x hx hid⟩
  · intro page limit
    exact deleteChatSession_getChatHistory db u s now page limit
  · intro v q limit h hh m hm hu hs hid
    obtain ⟨x, hx, hxid, hlive⟩ := searchMessages_hits_live rx _ v q limit h hh
    have hxm := deleteChatSession_at_id db u s now hn m hm hu hs x hx (hxid.trans hid)
    rw [hxm] at hlive
    simp [softDeleted] at hlive
  · intro complete errors body fresh id1 id2 t1 t2 hsid call hcall
    rw [sendMessage_calls] at hcall
    split at hcall
    · simp only [List.mem_singleton] at hcall
      subst hcall
      simp only [hsid, Option.getD_some]
      rw [conversationHistory_fresh _ u s _ rfl rfl rfl]
      have hflt := deleteChatSession_history_empty db u s now
      rw [List.filter_eq_nil_iff] at hflt ⊢
      intro x hx hp
      apply hflt x hx
      simp only [Bool.and_eq_true, beq_iff_eq] at hp
      simp [historyFilter, hp.1.1, hp.1.2, hp.2]
    · cases hcall
  · intro m hm hu hs requester reaction t
    exact deleteChatSession_addReaction db u s now hn m hm hu hs requester reaction t

/-- C15, instantiated: user 7 deletes session `s1` of `sampleMessages` at clock 100. -/
theorem deleteChatSession_soft_deletes_witness :
    (sampleMessages.map fun d => d.id).Nodup
    ∧ (deleteChatSession sampleMessages 7 "s1" 100).2
        = [{ id := 1, user := 7, sessionId := "s1", role := "user", content := "hello",
             isDeleted := true, deletedAt := some 100, createdAt := 10, updatedAt := 100 },
           { id := 2, user := 7, sessionId := "s1", role := "assistant", content := "hi",
             isDeleted := true, deletedAt := some 100, createdAt := 20, updatedAt := 100 },
           { id := 3, user := 8, sessionId := "s2", role := "user", content := "hello",
             createdAt := 30, updatedAt := 30 }]
    ∧ (getChatHistory (deleteChatSession sampleMessages 7 "s1" 100).2 7 (some "s1")
        none none).messages = [] :=
  ⟨by decide, by decide,
   ((deleteChatSession_soft_deletes sampleEngine.regex sampleMessages 7 "s1" 100
      (by decide)).2.2.1 none none).1⟩

/-! ## The history window of the chat relay -/

theorem insertSorted_pairwise {α : Type} (le : α → α → Bool)
    (htot : ∀ a b, le a b = true ∨ le b a = true)
    (htr : ∀ a b c, le a b = true → le b c = true → le a c = true) (x : α) (xs : List α)
    (h : xs.Pairwise fun a b => le a b = true) :
    (insertSorted le x xs).Pairwise fun a b => le a b = true := by
  induction xs with
  | nil => simp [insertSorted]
  | cons y ys ih =>
    rw [List.pairwise_cons] at h
    unfold insertSorted
    by_cases hxy : le x y = true
    · rw [if_pos hxy]
      refine List.Pairwise.cons ?_ (List.Pairwise.cons h.1 h.2)
      intro z hz
      rcases List.mem_cons.1 hz with hzy | hzy
      · rw [hzy]
        exact hxy
      · exact htr x y z hxy (h.1 z hzy)
    · rw [if_neg hxy]
      refine List.Pairwise.cons ?_ (ih h.2)
      intro z hz
      rcases List.mem_cons.1 ((insertSorted_perm le x ys).mem_iff.1 hz) with hzx | hzy
      · rw [hzx]
        exact (htot x y).resolve_left hxy
      · exact h.1 z hzy

/-- The sort stage returns its input in order, for a total and transitive order. -/
theorem sortDocs_pairwise {α : Type} (le : α → α → Bool)
    (htot : ∀ a b, le a b = true ∨ le b a = true)
    (htr : ∀ a b c, le a b = true → le b c = true → le a c = true) (xs : List α) :
    (sortDocs le xs).Pairwise fun a b => le a b = true := by
  induction xs with
  | nil => simp [sortDocs]
  | cons x xs ih =>
    unfold sortDocs
    exact insertSorted_pairwise le htot htr x _ ih

/-- Newest-first order of chat messages is sorted by creation time. -/
theorem newestFirst_pairwise (xs : List ChatMessage) :
    (sortDocs (fun a b : ChatMessage => decide (b.createdAt ≤ a.createdAt)) xs).Pairwise
      fun a b => b.createdAt ≤ a.createdAt := by
  have h := sortDocs_pairwise (fun a b : ChatMessage => decide (b.createdAt ≤ a.createdAt))
    (fun a b => by
      rcases le_total a.createdAt b.createdAt with h | h
      · exact Or.inr (by simpa using h)
      · exact Or.inl (by simpa using h))
    (fun a b c hab hbc => by
      have h1 : b.createdAt ≤ a.createdAt := by simpa using hab
      have h2 : c.createdAt ≤ b.createdAt := by simpa using hbc
      simpa using le_trans h2 h1) xs
  exact h.imp (fun hab => by simpa using hab)

/-- With every stored message older than the clock, the newest-first order of the session
starts with the message just saved. -/
theorem newestFirst_head (db : List ChatMessage) (u : ObjectId) (sid : String)
    (um : ChatMessage) (hu : um.user = u) (hs : um.sessionId = sid)
    (hd : um.isDeleted = false) (hclock : ∀ m ∈ db, m.createdAt < um.createdAt) :
    (sortDocs (fun a b : ChatMessage => decide (b.createdAt ≤ a.createdAt))
      (liveMessages (db ++ [um]) u sid)).head? = some um := by
  have hmem : um ∈ sortDocs (fun a b : ChatMessage => decide (b.createdAt ≤ a.createdAt))
      (liveMessages (db ++ [um]) u sid) := by
    rw [mem_sortDocs]
    simp [liveMessages, hu, hs, hd]
  have hsorted := newestFirst_pairwise (liveMessages (db ++ [um]) u sid)
  cases hdesc : sortDocs (fun a b : ChatMessage => decide (b.createdAt ≤ a.createdAt))
      (liveMessages (db ++ [um]) u sid) with
  | nil =>
    rw [hdesc] at hmem
    cases hmem
  | cons h t =>
    rw [hdesc] at hmem hsorted
    rw [List.pairwise_cons] at hsorted
    have hh : h ∈ liveMessages (db ++ [um]) u sid := by
      rw [← mem_sortDocs (fun a b : ChatMessage => decide (b.createdAt ≤ a.createdAt)), hdesc]
      exact List.mem_cons_self _ _
    simp only [List.head?_cons, Option.some.injEq]
    rcases List.mem_cons.1 hmem with hum | hum
    · exact hum.symm
    · have hle := hsorted.1 um hum
      simp only [liveMessages, List.filter_append, List.mem_append, List.mem_filter] at hh
      rcases hh with hh | hh
      · have := hclock h hh.1
        exact absurd hle (not_le.mpr this)
      · have h2 := hh.1
        simp only [List.mem_singleton] at h2
        exact h2

/-- C16.  Every request `sendMessage` sends to the completion API (there is at most one per
call) carries the fixed system instruction followed by the last `min(10, n)` of the `n`
non-deleted messages of the user in the session, the one just saved included in `n`, taken from
an arrangement of those messages in ascending creation order and reduced to role and content.
So the list has `1 + min(10, n)` elements, at most 11, and starts with the system instruction;
and when every stored message is older than the clock of the call, its last element is the
user message saved by this call. -/
theorem sendMessage_forwards_window (complete : String → List ChatTurn → Option Completion)
    (db : List ChatMessage) (u : ObjectId) (errors : List String) (body : SendBody)
    (fresh : String) (id1 id2 : ObjectId) (now later : Time) :
    (sendMessage complete db u errors body fresh id1 id2 now later).calls.length ≤ 1
    ∧ (errors.isEmpty = true → (userMessageOf u body fresh id1 now).valid = true →
        (sendMessage complete db u errors body fresh id1 id2 now later).calls.length = 1)
    ∧ ∀ call ∈ (sendMessage complete db u errors body fresh id1 id2 now later).calls,
      ∃ asc : List ChatMessage,
        asc.Perm (liveMessages (db ++ [userMessageOf u body fresh id1 now]) u
          (userMessageOf u body fresh id1 now).sessionId)
        ∧ asc.Pairwise (fun a b => a.createdAt ≤ b.createdAt)
        ∧ call.2 = { role := "system", content := SYSTEM_MESSAGE }
            :: ((asc.drop (asc.length - 10)).map
                  fun m => ({ role := m.role, content := m.content } : ChatTurn))
        ∧ call.2.length = 1 + min 10 (liveMessages (db ++ [userMessageOf u body fresh id1 now]) u
            (userMessageOf u body fresh id1 now).sessionId).length
        ∧ call.2.length ≤ 11
        ∧ call.2.head? = some { role := "system", content := SYSTEM_MESSAGE }
        ∧ ((∀ m ∈ db, m.createdAt < now) →
            call.2.getLast? = some { role := "user", content := body.message }) := by
  rw [sendMessage_calls]
  split
  · refine ⟨by simp, fun _ _ => rfl, ?_⟩
    intro call hcall
    simp only [List.mem_singleton] at hcall
    subst hcall
    have hlen : (sortDocs (fun a b : ChatMessage => decide (b.createdAt ≤ a.createdAt))
        (liveMessages (db ++ [userMessageOf u body fresh id1 now]) u
          (userMessageOf u body fresh id1 now).sessionId)).length
        = (liveMessages (db ++ [userMessageOf u body fresh id1 now]) u
          (userMessageOf u body fresh id1 now).sessionId).length := length_sortDocs _ _
    refine ⟨(sortDocs (fun a b : ChatMessage => decide (b.createdAt ≤ a.createdAt))
        (liveMessages (db ++ [userMessageOf u body fresh id1 now]) u
          (userMessageOf u body fresh id1 now).sessionId)).reverse,
      (List.reverse_perm _).trans (sortDocs_perm _ _),
      List.pairwise_reverse.2 (newestFirst_pairwise _), ?_, ?_, ?_, rfl, ?_⟩
    · simp only [conversationHistory, List.reverse_take, List.length_reverse]
      rfl
    · simp only [conversationHistory, List.length_cons, List.length_map, List.length_reverse,
        List.length_take]
      rw [← hlen]
      simp only [liveMessages, userMessageOf]
      omega
    · simp only [conversationHistory, List.length_cons, List.length_map, List.length_reverse,
        List.length_take]
      omega
    · intro hclock
      have hhead := newestFirst_head db u (userMessageOf u body fresh id1 now).sessionId
        (userMessageOf u body fresh id1 now) rfl rfl rfl hclock
      have hne : conversationHistory (db ++ [userMessageOf u body fresh id1 now]) u
          (userMessageOf u body fresh id1 now).sessionId ≠ [] := by
        intro hnil
        have h0 := congrArg List.length hnil
        simp only [conversationHistory, List.length_map, List.length_reverse, List.length_take,
          List.length_nil] at h0
        have hpos : 0 < (sortDocs (fun a b : ChatMessage => decide (b.createdAt ≤ a.createdAt))
            (liveMessages (db ++ [userMessageOf u body fresh id1 now]) u
              (userMessageOf u body fresh id1 now).sessionId)).length := by
          cases hdesc : sortDocs (fun a b : ChatMessage => decide (b.createdAt ≤ a.createdAt))
              (liveMessages (db ++ [userMessageOf u body fresh id1 now]) u
                (userMessageOf u body fresh id1 now).sessionId) with
          | nil => rw [hdesc] at hhead; cases hhead
          | cons h t => simp
        simp only [liveMessages] at hpos
        omega
      have hlast : (conversationHistory (db ++ [userMessageOf u body fresh id1 now]) u
          (userMessageOf u body fresh id1 now).sessionId).getLast?
          = some { role := "user", content := body.message } := by
        simp only [conversationHistory, List.getLast?_map, List.getLast?_reverse,
          List.head?_take]
        have h10 : ¬ (10 = 0) := by decide
        rw [if_neg h10]
        simp only [liveMessages] at hhead
        rw [hhead]
        rfl
      show (({ role := "system", content := SYSTEM_MESSAGE } : ChatTurn)
        :: conversationHistory (db ++ [userMessageOf u body fresh id1 now]) u
          (userMessageOf u body fresh id1 now).sessionId).getLast? = _
      generalize conversationHistory (db ++ [userMessageOf u body fresh id1 now]) u
          (userMessageOf u body fresh id1 now).sessionId = w at hne hlast
      cases w with
      | nil => exact absurd rfl hne
      | cons a t =>
        rw [List.getLast?_cons_cons]
        exact hlast
  · rename_i hrej
    refine ⟨by simp, fun he hv => ?_, fun call hcall => by cases hcall⟩
    exact absurd (by rw [he]; exact hv) hrej

/-- C16, instantiated: user 7 sends `thanks` in session `s1` of `sampleMessages` at clock 40.
The one request to the completion API holds the system instruction and the three messages of
the session in order of creation. -/
theorem sendMessage_forwards_window_witness :
    (sendMessage (fun _ _ => some { content := some "welcome", promptTokens := 1,
                                    completionTokens := 1, totalTokens := 2 })
        sampleMessages 7 [] { message := "thanks", sessionId := some "s1" } "fresh" 4 5 40
        41).calls
      = [("gpt-3.5-turbo",
          [{ role := "system", content := SYSTEM_MESSAGE }, { role := "user", content := "hello" },
           { role := "assistant", content := "hi" }, { role := "user", content := "thanks" }])]
    ∧ (sendMessage (fun _ _ => some { content := some "welcome", promptTokens := 1,
                                      completionTokens := 1, totalTokens := 2 })
        sampleMessages 7 [] { message := "thanks", sessionId := some "s1" } "fresh" 4 5 40
        41).calls.length = 1 :=
  ⟨by rfl,
   (sendMessage_forwards_window (fun _ _ => some { content := some "welcome", promptTokens := 1,
                                                   completionTokens := 1, totalTokens := 2 })
      sampleMessages 7 [] { message := "thanks", sessionId := some "s1" } "fresh" 4 5 40
      41).2.1 (by decide) (by decide)⟩

/-! ## Failure of the completion call -/

/-- C17.  For a `sendMessage` call that passes validation and whose user message passes the
schema, when the completion call fails: the collection gains the user message and then one
assistant message with the apology text, both in the session of the call; one request was sent
to the completion API; and the reply is 500 with code `AI_SERVICE_ERROR` and the session id. -/
theorem sendMessage_completion_failure
    (complete : String → List ChatTurn → Option Completion) (db : List ChatMessage)
    (u : ObjectId) (errors : List String) (body : SendBody) (fresh : String)
    (id1 id2 : ObjectId) (now later : Time) (he : errors = [])
    (hv : (userMessageOf u body fresh id1 now).valid = true)
    (hfail : complete (body.model.getD "gpt-3.5-turbo")
      ({ role := "system", content := SYSTEM_MESSAGE }
        :: conversationHistory (db ++ [userMessageOf u body fresh id1 now]) u
            (userMessageOf u body fresh id1 now).sessionId) = none) :
    (sendMessage complete db u errors body fresh id1 id2 now later).db
      = db ++ [userMessageOf u body fresh id1 now,
               { id := id2, user := u, sessionId := (userMessageOf u body fresh id1 now).sessionId,
                 role := "assistant", content := apologyText,
                 context := body.context.getD "general", createdAt := later,
                 updatedAt := later }]
    ∧ (sendMessage complete db u errors body fresh id1 id2 now later).calls.length = 1
    ∧ (sendMessage complete db u errors body fresh id1 id2 now later).reply
      = .aiError 500 "AI service temporarily unavailable" apologyText
          (userMessageOf u body fresh id1 now).sessionId "AI_SERVICE_ERROR" := by
  subst he
  simp only [userMessageOf] at hv hfail
  simp [sendMessage, userMessageOf, hv, hfail]

/-- C17, instantiated: the completion API is down when user 7 sends `thanks` in session `s1` of
`sampleMessages`. -/
theorem sendMessage_completion_failure_witness :
    (userMessageOf 7 { message := "thanks", sessionId := some "s1" } "fresh" 4 40).valid = true
    ∧ (sendMessage (fun _ _ => none) sampleMessages 7 []
        { message := "thanks", sessionId := some "s1" } "fresh" 4 5 40 41).db
      = sampleMessages
        ++ [{ id := 4, user := 7, sessionId := "s1", role := "user", content := "thanks",
              createdAt := 40, updatedAt := 40 },
            { id := 5, user := 7, sessionId := "s1", role := "assistant", content := apologyText,
              createdAt := 41, updatedAt := 41 }]
    ∧ (sendMessage (fun _ _ => none) sampleMessages 7 []
        { message := "thanks", sessionId := some "s1" } "fresh" 4 5 40 41).reply
      = .aiError 500 "AI service temporarily unavailable" apologyText "s1" "AI_SERVICE_ERROR" :=
  ⟨by decide,
   (sendMessage_completion_failure (fun _ _ => none) sampleMessages 7 []
      { message := "thanks", sessionId := some "s1" } "fresh" 4 5 40 41 rfl (by decide) rfl).1,
   (sendMessage_completion_failure (fun _ _ => none) sampleMessages 7 []
      { message := "thanks", sessionId := some "s1" } "fresh" 4 5 40 41 rfl (by decide)
      rfl).2.2⟩

/-! ## Chat history through its route -/

/-- C18 (the route never passes the session id).  User 7 has two successful turns in the fresh
session `s1`.  Read with the session id, `getChatHistory` returns the two user turns and the two
replies in order of creation.  Through the route `GET /history?sessionId=s1` the handler finds
`req.params.sessionId` undefined and answers with no message and total 0; the reply of the route
is the same whatever session id the query string carries. -/
theorem chatHistoryRoute_ignores_sessionId :
    getChatHistory
        (sendMessage (fun _ _ => some { content := some "welcome", promptTokens := 1,
                                        completionTokens := 1, totalTokens := 2 })
          (sendMessage (fun _ _ => some { content := some "hi", promptTokens := 1,
                                          completionTokens := 1, totalTokens := 2 })
            [] 7 [] { message := "hello" } "s1" 1 2 10 11).db
          7 [] { message := "thanks", sessionId := some "s1" } "s2" 3 4 20 21).db
        7 (some "s1") none none
      = .history
          [{ id := 1, user := 7, sessionId := "s1", role := "user", content := "hello",
             createdAt := 10, updatedAt := 10 },
           { id := 2, user := 7, sessionId := "s1", role := "assistant", content := "hi",
             createdAt := 11, updatedAt := 11 },
           { id := 3, user := 7, sessionId := "s1", role := "user", content := "thanks",
             createdAt := 20, updatedAt := 20 },
           { id := 4, user := 7, sessionId := "s1", role := "assistant", content := "welcome",
             createdAt := 21, updatedAt := 21 }]
          { page := 1, limit := 50, total := 4, pages := some 1 } (some "s1")
    ∧ chatHistoryRoute
        (sendMessage (fun _ _ => some { content := some "welcome", promptTokens := 1,
                                        completionTokens := 1, totalTokens := 2 })
          (sendMessage (fun _ _ => some { content := some "hi", promptTokens := 1,
                                          completionTokens := 1, totalTokens := 2 })
            [] 7 [] { message := "hello" } "s1" 1 2 10 11).db
          7 [] { message := "thanks", sessionId := some "s1" } "s2" 3 4 20 21).db
        7 { sessionId := some "s1" }
      = .history [] { page := 1, limit := 50, total := 0, pages := some 0 } none
    ∧ (∀ (db : List ChatMessage) (u : ObjectId) (q : HistoryQuery) (s : Option String),
        chatHistoryRoute db u { q with sessionId := s } = chatHistoryRoute db u q) := by
  refine ⟨by decide, by decide, fun _ _ _ _ => rfl⟩

/-! ## Outcomes of the authentication middleware -/

/-- C19 (counterexample).  The access token of the active user 7 is presented while the user
lookup rejects: `authenticateToken` answers 500 with code `AUTH_ERROR`, none of the listed 401
codes. -/
theorem authenticateToken_lookup_failure_500 :
    authenticateToken "secret" [{ id := 7, username := "ada", email := "ada@x.com" }]
        (some [.text "Bearer", generateToken "secret" 7 1000]) 2000 true
      = .reply 500 { error := "Authentication failed", code := some "AUTH_ERROR" } := by
  decide

/-- C19 (amended).  `authenticateToken` calls the handler exactly when a token is present, it
verifies, the user lookup succeeds and returns a user, and that user is active; it then
attaches that user and its id.  Otherwise it answers, with the first applicable of: 401
`TOKEN_MISSING`; 401 `TOKEN_INVALID` or 401 `TOKEN_EXPIRED`; 500 `AUTH_ERROR` when the user
lookup itself rejects; 401 `USER_NOT_FOUND`; 401 `ACCOUNT_DEACTIVATED`. -/
theorem authenticateToken_outcomes (secret : String) (users : List User)
    (authorization : Option (List Token)) (now : Time) (lookupFails : Bool) :
    ((∃ user userId, authenticateToken secret users authorization now lookupFails
          = .next user userId)
      ↔ ∃ token decoded user, bearerToken authorization = some token
          ∧ jwtVerify token secret now = .ok decoded ∧ lookupFails = false
          ∧ findOne (fun x : User => x.id == decoded.userId) users = some user
          ∧ user.isActive = true)
    ∧ (∀ token decoded user, bearerToken authorization = some token →
        jwtVerify token secret now = .ok decoded → lookupFails = false →
        findOne (fun x : User => x.id == decoded.userId) users = some user →
        user.isActive = true →
        authenticateToken secret users authorization now lookupFails
          = .next (some user) (some user.id))
    ∧ (bearerToken authorization = none →
        authenticateToken secret users authorization now lookupFails
          = .reply 401 { error := "Access token required", code := some "TOKEN_MISSING" })
    ∧ (∀ token, bearerToken authorization = some token →
        jwtVerify token secret now = .error .JsonWebTokenError →
        authenticateToken secret users authorization now lookupFails
          = .reply 401 { error := "Invalid token", code := some "TOKEN_INVALID" })
    ∧ (∀ token, bearerToken authorization = some token →
        jwtVerify token secret now = .error .TokenExpiredError →
        authenticateToken secret users authorization now lookupFails
          = .reply 401 { error := "Token expired", code := some "TOKEN_EXPIRED" })
    ∧ (∀ token decoded, bearerToken authorization = some token →
        jwtVerify token secret now = .ok decoded → lookupFails = true →
        authenticateToken secret users authorization now lookupFails
          = .reply 500 { error := "Authentication failed", code := some "AUTH_ERROR" })
    ∧ (∀ token decoded, bearerToken authorization = some token →
        jwtVerify token secret now = .ok decoded → lookupFails = false →
        findOne (fun x : User => x.id == decoded.userId) users = none →
        authenticateToken secret users authorization now lookupFails
          = .reply 401 { error := "User not found", code := some "USER_NOT_FOUND" })
    ∧ (∀ token decoded user, bearerToken authorization = some token →
        jwtVerify token secret now = .ok decoded → lookupFails = false →
        findOne (fun x : User => x.id == decoded.userId) users = some user →
        user.isActive = false →
        authenticateToken secret users authorization now lookupFails
          = .reply 401 { error := "Account is deactivated",
                         code := some "ACCOUNT_DEACTIVATED" }) := by
  refine ⟨?_, ?_, ?_, ?_, ?_, ?_, ?_, ?_⟩
  · constructor
    · rintro ⟨user, userId, h⟩
      unfold authenticateToken at h
      cases hb : bearerToken authorization with
      | none => simp [hb] at h
      | some token =>
        cases hj : jwtVerify token secret now with
        | error e => cases e <;> simp [hb, hj] at h
        | ok decoded =>
          cases hl : lookupFails with
          | true => simp [hb, hj, hl] at h
          | false =>
            cases hf : findOne (fun x : User => x.id == decoded.userId) users with
            | none => simp [hb, hj, hl, hf] at h
            | some usr =>
              cases ha : usr.isActive with
              | false => simp [hb, hj, hl, hf, ha] at h
              | true => exact ⟨token, decoded, usr, rfl, hj, rfl, hf, ha⟩
    · rintro ⟨token, decoded, usr, hb, hj, hl, hf, ha⟩
      exact ⟨some usr, some usr.id, by simp [authenticateToken, hb, hj, hl, hf, ha]⟩
  · intro token decoded usr hb hj hl hf ha
    simp [authenticateToken, hb, hj, hl, hf, ha]
  · intro hb
    simp [authenticateToken, hb]
  · intro token hb hj
    simp [authenticateToken, hb, hj]
  · intro token hb hj
    simp [authenticateToken, hb, hj]
  · intro token decoded hb hj hl
    simp [authenticateToken, hb, hj, hl]
  · intro token decoded hb hj hl hf
    simp [authenticateToken, hb, hj, hl, hf]
  · intro token decoded usr hb hj hl hf ha
    simp [authenticateToken, hb, hj, hl, hf, ha]

/-- C20.  `optionalAuth` never answers: in every case it calls `next()`, with the loaded user
and its id attached when a token is present, it verifies, the lookup succeeds and returns an
active user, and with `user` and `userId` both `null` in every other case (no header, no
token part, invalid or expired token, rejected lookup, unknown user, inactive user). -/
theorem optionalAuth_never_rejects (secret : String) (users : List User)
    (authorization : Option (List Token)) (now : Time) (lookupFails : Bool) :
    (∀ status body, optionalAuth secret users authorization now lookupFails ≠ .reply status body)
    ∧ (∀ token decoded user, bearerToken authorization = some token →
        jwtVerify token secret now = .ok decoded → lookupFails = false →
        findOne (fun x : User => x.id == decoded.userId) users = some user →
        user.isActive = true →
        optionalAuth secret users authorization now lookupFails
          = .next (some user) (some user.id))
    ∧ ((¬ ∃ token decoded user, bearerToken authorization = some token
          ∧ jwtVerify token secret now = .ok decoded ∧ lookupFails = false
          ∧ findOne (fun x : User => x.id == decoded.userId) users = some user
          ∧ user.isActive = true) →
        optionalAuth secret users authorization now lookupFails = .next none none) := by
  have hcases : optionalAuth secret users authorization now lookupFails = .next none none
      ∨ ∃ token decoded user, bearerToken authorization = some token
          ∧ jwtVerify token secret now = .ok decoded ∧ lookupFails = false
          ∧ findOne (fun x : User => x.id == decoded.userId) users = some user
          ∧ user.isActive = true
          ∧ optionalAuth secret users authorization now lookupFails
              = .next (some user) (some user.id) := by
    unfold optionalAuth
    cases hb : bearerToken authorization with
    | none => exact Or.inl rfl
    | some token =>
      cases hj : jwtVerify token secret now with
      | error e => exact Or.inl (by simp [hj])
      | ok decoded =>
        cases hl : lookupFails with
        | true => exact Or.inl (by simp [hj])
        | false =>
          cases hf : findOne (fun x : User => x.id == decoded.userId) users with
          | none => exact Or.inl (by simp [hj, hf])
          | some usr =>
            cases ha : usr.isActive with
            | false => exact Or.inl (by simp [hj, hf, ha])
            | true =>
              exact Or.inr ⟨token, decoded, usr, rfl, hj, rfl, hf, ha, by simp [hj, hf, ha]⟩
  refine ⟨?_, ?_, ?_⟩
  · intro status body h
    rcases hcases with h1 | ⟨_, _, _, _, _, _, _, _, h1⟩ <;> rw [h1] at h <;> cases h
  · intro token decoded usr hb hj hl hf ha
    simp [optionalAuth, hb, hj, hl, hf, ha]
  · intro hno
    rcases hcases with h1 | ⟨token, decoded, usr, hb, hj, hl, hf, ha, _⟩
    · exact h1
    · exact absurd ⟨token, decoded, usr, hb, hj, hl, hf, ha⟩ hno

/-! ## Completion percentage -/

theorem log2Aux_spec : ∀ (fuel n : Nat), n ≤ fuel → n ≠ 0 →
    2 ^ log2Aux fuel n ≤ n ∧ n < 2 ^ (log2Aux fuel n + 1) := by
  intro fuel
  induction fuel with
  | zero => intro n h h0; omega
  | succ f ih =>
    intro n h h0
    unfold log2Aux
    by_cases h2 : n < 2
    · rw [if_pos h2]
      constructor <;> simp <;> omega
    · rw [if_neg h2]
      have hh := ih (n / 2) (by omega) (by omega)
      rw [Nat.pow_succ, Nat.pow_succ]
      omega

theorem ilog2_le (n : Nat) (h : n ≠ 0) : 2 ^ ilog2 n ≤ n :=
  (log2Aux_spec n n (Nat.le_refl n) h).1

theorem lt_ilog2 (n : Nat) (h : n ≠ 0) : n < 2 ^ (ilog2 n + 1) :=
  (log2Aux_spec n n (Nat.le_refl n) h).2

theorem roundTiesEven_near (a b : Nat) (hb : 0 < b) :
    2 * (roundTiesEven a b * b) ≤ 2 * a + b ∧ 2 * a ≤ 2 * (roundTiesEven a b * b) + b := by
  have h := Nat.div_add_mod a b
  have hr := Nat.mod_lt a hb
  unfold roundTiesEven
  generalize a / b = q at *
  generalize a % b = r at *
  have hq1 : (q + 1) * b = q * b + b := by ring
  have hq : b * q = q * b := Nat.mul_comm _ _
  split
  · omega
  · split
    · omega
    · split <;> omega

theorem ilog2_mono (a b : Nat) (ha : a ≠ 0) (hab : a ≤ b) : ilog2 a ≤ ilog2 b := by
  have hb : b ≠ 0 := by omega
  have h1 := ilog2_le a ha
  have h2 := lt_ilog2 b hb
  have h3 : 2 ^ ilog2 a < 2 ^ (ilog2 b + 1) := by omega
  have h4 := (Nat.pow_lt_pow_iff_right (by norm_num : 1 < 2)).1 h3
  omega

/-- The quotient of `0 < a ≤ b` as a double: the scale is at least 52, the significand is the
exact scaled quotient up to half a unit, and it has at most 53 bits. -/
theorem Double.div_spec (a b : Nat) (ha : a ≠ 0) (hab : a ≤ b) :
    52 ≤ (Double.div a b).scale
    ∧ 2 * ((Double.div a b).mant * b) ≤ 2 * (a * 2 ^ (Double.div a b).scale) + b
    ∧ 2 * (a * 2 ^ (Double.div a b).scale) ≤ 2 * ((Double.div a b).mant * b) + b
    ∧ (Double.div a b).mant ≤ 2 ^ 53 := by
  have hb : 0 < b := by omega
  have hmono := ilog2_mono a b ha hab
  have hal := lt_ilog2 a ha
  have hbl := ilog2_le b (by omega)
  -- the quotient scaled by the first candidate is below `2 ^ 53`
  have h0 : a * 2 ^ (52 + ilog2 b - ilog2 a) < 2 ^ 53 * b := by
    have e : 2 ^ (ilog2 a + 1) * 2 ^ (52 + ilog2 b - ilog2 a) = 2 ^ 53 * 2 ^ ilog2 b := by
      rw [← Nat.pow_add, ← Nat.pow_add]
      congr 1
      omega
    calc a * 2 ^ (52 + ilog2 b - ilog2 a)
        < 2 ^ (ilog2 a + 1) * 2 ^ (52 + ilog2 b - ilog2 a) :=
          Nat.mul_lt_mul_of_pos_right hal (Nat.two_pow_pos _)
      _ = 2 ^ 53 * 2 ^ ilog2 b := e
      _ ≤ 2 ^ 53 * b := Nat.mul_le_mul_left _ hbl
  have hs : ∃ s, (Double.div a b) = { mant := roundTiesEven (a * 2 ^ s) b, scale := s }
      ∧ 52 ≤ s ∧ a * 2 ^ s < 2 ^ 53 * b := by
    unfold Double.div
    rw [if_neg ha]
    by_cases hlt : a * 2 ^ (52 + ilog2 b - ilog2 a) / b < 2 ^ 52
    · refine ⟨52 + ilog2 b - ilog2 a + 1, by dsimp only; rw [if_pos hlt], by omega, ?_⟩
      have h1 := (Nat.div_lt_iff_lt_mul hb).1 hlt
      have e : a * 2 ^ (52 + ilog2 b - ilog2 a + 1) = 2 * (a * 2 ^ (52 + ilog2 b - ilog2 a)) := by
        rw [Nat.pow_succ]; ring
      rw [e]
      omega
    · exact ⟨52 + ilog2 b - ilog2 a, by dsimp only; rw [if_neg hlt], by omega, h0⟩
  obtain ⟨s, hd, hs52, hlt⟩ := hs
  rw [hd]
  have hr := roundTiesEven_near (a * 2 ^ s) b hb
  refine ⟨hs52, hr.1, hr.2, ?_⟩
  show roundTiesEven (a * 2 ^ s) b ≤ 2 ^ 53
  have h5 : 2 * (roundTiesEven (a * 2 ^ s) b * b) < 2 * ((2 ^ 53 + 1) * b) := by
    have := hr.1
    have e : (2 ^ 53 + 1) * b = 2 ^ 53 * b + b := by ring
    omega
  have h6 := Nat.lt_of_mul_lt_mul_right (Nat.lt_of_mul_lt_mul_left h5)
  omega

/-- The product by 100 of a double with a significand of at most 53 bits and a scale of at
least 52: at most seven low bits are rounded away. -/
theorem Double.mul_spec (x : Double) (hm : x.mant ≤ 2 ^ 53) (hs : 52 ≤ x.scale) :
    ∃ d, d ≤ 7 ∧ (x.mul 100).scale + d = x.scale
      ∧ 2 * ((x.mul 100).mant * 2 ^ d) ≤ 2 * (x.mant * 100) + 2 ^ d
      ∧ 2 * (x.mant * 100) ≤ 2 * ((x.mul 100).mant * 2 ^ d) + 2 ^ d := by
  have hd : ilog2 (x.mant * 100) + 1 - 53 ≤ 7 := by
    by_cases h0 : x.mant * 100 = 0
    · rw [h0]; decide
    · have h1 := ilog2_le (x.mant * 100) h0
      have h2 : 2 ^ ilog2 (x.mant * 100) < 2 ^ 60 := by omega
      have h3 := (Nat.pow_lt_pow_iff_right (by norm_num : 1 < 2)).1 h2
      omega
  refine ⟨ilog2 (x.mant * 100) + 1 - 53, hd, ?_, ?_⟩
  · show x.scale - (ilog2 (x.mant * 100) + 1 - 53) + (ilog2 (x.mant * 100) + 1 - 53) = x.scale
    omega
  · have hz : ilog2 (x.mant * 100) + 1 - 53 - x.scale = 0 := by omega
    have hr := roundTiesEven_near (x.mant * 100) (2 ^ (ilog2 (x.mant * 100) + 1 - 53))
      (Nat.two_pow_pos _)
    show 2 * (roundTiesEven (x.mant * 100) (2 ^ (ilog2 (x.mant * 100) + 1 - 53))
          * 2 ^ (ilog2 (x.mant * 100) + 1 - 53 - x.scale)
          * 2 ^ (ilog2 (x.mant * 100) + 1 - 53)) ≤ _
      ∧ _ ≤ 2 * (roundTiesEven (x.mant * 100) (2 ^ (ilog2 (x.mant * 100) + 1 - 53))
          * 2 ^ (ilog2 (x.mant * 100) + 1 - 53 - x.scale)
          * 2 ^ (ilog2 (x.mant * 100) + 1 - 53)) + _
    rw [hz, Nat.pow_zero, Nat.mul_one]
    exact hr

/-- Rounding a value that is close to `100 * c / n`: when the significand `m2 / 2 ^ s2` is
within `228 * n / 2 ^ s` of the exact percentage and `2 ^ s` exceeds `228 * n`, `Math.round`
gives the exact percentage rounded half up, or one less if the exact percentage lies half-way
between two integers. -/
theorem mathRound_near (c n m s m2 d s2 : Nat) (hn : 0 < n) (hns : 228 * n < 2 ^ s)
    (hd7 : d ≤ 7) (hsd : s2 + d = s)
    (h1 : 2 * (m * n) ≤ 2 * (c * 2 ^ s) + n) (h2 : 2 * (c * 2 ^ s) ≤ 2 * (m * n) + n)
    (h3 : 2 * (m2 * 2 ^ d) ≤ 2 * (m * 100) + 2 ^ d)
    (h4 : 2 * (m * 100) ≤ 2 * (m2 * 2 ^ d) + 2 ^ d) :
    (2 * m2 + 2 ^ s2) / 2 ^ (s2 + 1) = (200 * c + n) / (2 * n)
    ∨ ((200 * c + n) % (2 * n) = 0
        ∧ (2 * m2 + 2 ^ s2) / 2 ^ (s2 + 1) + 1 = (200 * c + n) / (2 * n)) := by
  have hD : 2 ^ d ≤ 128 := by
    have := Nat.pow_le_pow_right (by norm_num : 0 < 2) hd7
    simpa using this
  have hDpos : 0 < 2 ^ d := Nat.two_pow_pos _
  have hS2pos : 0 < 2 ^ s2 := Nat.two_pow_pos _
  have hS : 2 ^ s = 2 ^ s2 * 2 ^ d := by rw [← hsd, Nat.pow_add]
  rw [Nat.pow_succ]
  rw [hS] at hns h1 h2
  generalize 2 ^ d = D at *
  generalize 2 ^ s2 = S2 at *
  have hp := Nat.div_add_mod (2 * m2 + S2) (S2 * 2)
  have hr := Nat.mod_lt (2 * m2 + S2) (show 0 < S2 * 2 by omega)
  have hK := Nat.div_add_mod (200 * c + n) (2 * n)
  have hρ := Nat.mod_lt (200 * c + n) (show 0 < 2 * n by omega)
  generalize (2 * m2 + S2) / (S2 * 2) = p at *
  generalize (2 * m2 + S2) % (S2 * 2) = r at *
  generalize (200 * c + n) / (2 * n) = K at *
  generalize (200 * c + n) % (2 * n) = ρ at *
  -- the products the argument is linear in
  obtain ⟨A, hA⟩ : ∃ A, A = n * (S2 * D) := ⟨_, rfl⟩
  obtain ⟨G, hG⟩ : ∃ G, G = m2 * D * n := ⟨_, rfl⟩
  obtain ⟨R, hR⟩ : ∃ R, R = r * (D * n) := ⟨_, rfl⟩
  obtain ⟨Q, hQ⟩ : ∃ Q, Q = ρ * (S2 * D) := ⟨_, rfl⟩
  have e1 : 2 * (A * p) + R = 2 * G + A := by
    rw [hA, hR, hG]
    have := congrArg (fun z => z * (D * n)) hp
    simp only at this
    linarith
  have e2 : 2 * (A * K) + Q = 200 * (c * (S2 * D)) + A := by
    rw [hA, hQ]
    have := congrArg (fun z => z * (S2 * D)) hK
    simp only at this
    linarith
  have b1 : R + D * n ≤ 2 * A := by
    rw [hA, hR]
    have := Nat.mul_le_mul_right (D * n) (show r + 1 ≤ S2 * 2 by omega)
    linarith
  have b2 : Q + S2 * D ≤ 2 * A := by
    rw [hA, hQ]
    have := Nat.mul_le_mul_right (S2 * D) (show ρ + 1 ≤ 2 * n by omega)
    linarith
  have b3 : 2 * G ≤ 200 * (m * n) + D * n ∧ 200 * (m * n) ≤ 2 * G + D * n := by
    rw [hG]
    have t1 := Nat.mul_le_mul_right n h3
    have t2 := Nat.mul_le_mul_right n h4
    constructor <;> linarith
  have b4 : D * n ≤ 128 * n := Nat.mul_le_mul_right n hD
  have b5 : S2 * D ≤ A := by
    rw [hA]
    exact Nat.le_mul_of_pos_left _ hn
  by_cases hρ0 : ρ = 0
  · have hQ0 : Q = 0 := by rw [hQ, hρ0, Nat.zero_mul]
    have u1 : A * p < A * (K + 1) := by rw [Nat.mul_succ]; omega
    have u2 : A * K < A * (p + 2) := by
      have : A * (p + 2) = A * p + 2 * A := by ring
      omega
    have v1 := Nat.lt_of_mul_lt_mul_left u1
    have v2 := Nat.lt_of_mul_lt_mul_left u2
    by_cases hpk : p = K
    · exact Or.inl hpk
    · exact Or.inr ⟨hρ0, by omega⟩
  · have hQ1 : S2 * D ≤ Q := by
      rw [hQ]
      exact Nat.le_mul_of_pos_left _ (by omega)
    have u1 : A * p < A * (K + 1) := by rw [Nat.mul_succ]; omega
    have u2 : A * K < A * (p + 1) := by rw [Nat.mul_succ]; omega
    have v1 := Nat.lt_of_mul_lt_mul_left u1
    have v2 := Nat.lt_of_mul_lt_mul_left u2
    exact Or.inl (by omega)

/-- In exact terms: with `K` the exact percentage `100 * c / n` rounded half up, the computed
percentage of `c ≤ n` out of `0 < n < 2 ^ 32` is `K`, or `K - 1` when the exact percentage lies
half-way between two integers. -/
theorem mathRound_percent (c n : Nat) (hn : 0 < n) (hc : c ≤ n) (h32 : n < 2 ^ 32) :
    mathRound ((Double.div c n).mul 100) = (200 * c + n) / (2 * n)
    ∨ ((200 * c + n) % (2 * n) = 0
        ∧ mathRound ((Double.div c n).mul 100) + 1 = (200 * c + n) / (2 * n)) := by
  by_cases hc0 : c = 0
  · subst hc0
    left
    have e0 : Double.div 0 n = { mant := 0, scale := 0 } := by
      unfold Double.div
      rw [if_pos rfl]
    have e : mathRound (Double.mul { mant := 0, scale := 0 } 100) = 0 := by decide
    rw [e0, e]
    symm
    apply Nat.div_eq_of_lt
    omega
  · obtain ⟨hs, h1, h2, hm⟩ := Double.div_spec c n hc0 hc
    obtain ⟨d, hd, hsd, h3, h4⟩ := Double.mul_spec (Double.div c n) hm hs
    have hns : 228 * n < 2 ^ (Double.div c n).scale := by
      have : 2 ^ 52 ≤ 2 ^ (Double.div c n).scale := Nat.pow_le_pow_right (by norm_num) hs
      have h40 : 228 * n < 2 ^ 52 := by
        have : (2 : Nat) ^ 32 = 4294967296 := by norm_num
        have : (2 : Nat) ^ 52 = 4503599627370496 := by norm_num
        omega
      omega
    exact mathRound_near c n (Double.div c n).mant (Double.div c n).scale
      ((Double.div c n).mul 100).mant d ((Double.div c n).mul 100).scale hn hns hd hsd h1 h2 h3 h4

theorem completed_le (t : Task) :
    (t.subtasks.filter fun subtask => subtask.completed).length ≤ t.subtasks.length :=
  List.length_filter_le _ _

/-- The exact percentage `100 * c / n` against its half-up rounding `K` and the rest `ρ`. -/
theorem percent_exact (c n K ρ : Nat) (hn : 0 < n) (h : 2 * n * K + ρ = 200 * c + n) :
    (100 * c : ℚ) / n = K + ρ / (2 * n) - 1 / 2 := by
  have hq : (2 * n * K + ρ : ℚ) = 200 * c + n := by exact_mod_cast h
  have hn0 : (n : ℚ) ≠ 0 := by exact_mod_cast (Nat.pos_iff_ne_zero.1 hn)
  have e : (ρ : ℚ) / (2 * n) * n = ρ / 2 := by
    field_simp
    ring
  rw [eq_comm, eq_div_iff hn0]
  linear_combination (1 / 2 : ℚ) * hq + e

theorem completionPercentage_eq (t : Task) (h : t.subtasks.length ≠ 0) :
    t.completionPercentage
      = mathRound ((Double.div (t.subtasks.filter fun s => s.completed).length
          t.subtasks.length).mul 100) := by
  unfold Task.completionPercentage
  rw [if_neg h]

/-- The percentage of a task with subtasks, against the exact value. -/
theorem completionPercentage_near (t : Task) (c n : Nat) (hn : t.subtasks.length = n)
    (hc : (t.subtasks.filter fun s => s.completed).length = c) (h1 : 1 ≤ n) (h32 : n < 2 ^ 32) :
    |(t.completionPercentage : ℚ) - 100 * c / n| ≤ 1 / 2
    ∧ (Int.fract ((100 * c : ℚ) / n) ≠ 1 / 2 →
        (t.completionPercentage : ℤ) = round ((100 * c : ℚ) / n)) := by
  have hne : t.subtasks.length ≠ 0 := by omega
  have hcn : c ≤ n := by rw [← hc, ← hn]; exact completed_le t
  rw [completionPercentage_eq t hne, hc, hn]
  have hK := Nat.div_add_mod (200 * c + n) (2 * n)
  have hρ := Nat.mod_lt (200 * c + n) (show 0 < 2 * n by omega)
  have hp := mathRound_percent c n h1 hcn h32
  generalize mathRound ((Double.div c n).mul 100) = p at hp ⊢
  generalize (200 * c + n) / (2 * n) = K at hK hp
  generalize (200 * c + n) % (2 * n) = ρ at hK hρ hp
  have hx := percent_exact c n K ρ h1 hK
  have hnq : (0 : ℚ) < n := by exact_mod_cast h1
  have hρq : (ρ : ℚ) < 2 * n := by exact_mod_cast hρ
  have hfrac0 : (0 : ℚ) ≤ (ρ : ℚ) / (2 * n) := by positivity
  have hfrac1 : (ρ : ℚ) / (2 * n) < 1 := by
    rw [div_lt_one (by positivity)]
    exact hρq
  rcases hp with h | ⟨h0, h⟩
  · rw [h, hx]
    constructor
    · rw [abs_le]
      constructor <;> linarith
    · intro _
      symm
      rw [round_eq, Int.floor_eq_iff]
      simp only [Int.cast_natCast]
      constructor <;> linarith
  · have hKq : (p : ℚ) + 1 = K := by exact_mod_cast h
    rw [h0] at hx
    simp only [Nat.cast_zero, zero_div, add_zero] at hx
    constructor
    · rw [hx, abs_le]
      constructor <;> linarith
    · intro hf
      exfalso
      apply hf
      rw [Int.fract_eq_iff]
      refine ⟨by norm_num, by norm_num, (p : ℤ), ?_⟩
      rw [hx]
      simp only [Int.cast_natCast]
      linarith

/-- C21 (counterexample).  Twenty-three completed subtasks out of forty are 57.5 percent,
which rounds to 58; the virtual computes `(23 / 40) * 100` in double precision, where the
product is `8092405580431359 / 2 ^ 47 = 57.49999999999999`, and answers 57. -/
theorem completionPercentage_tie_rounds_down :
    (progressTask 23 40).subtasks.length = 40
    ∧ ((progressTask 23 40).subtasks.filter fun s => s.completed).length = 23
    ∧ (Double.div 23 40).mul 100 = { mant := 8092405580431359, scale := 47 }
    ∧ (progressTask 23 40).completionPercentage = 57
    ∧ round ((100 * 23 : ℚ) / 40) = 58 := by
  refine ⟨by decide, by decide, by decide, by decide, ?_⟩
  rw [round_eq, Int.floor_eq_iff]
  norm_num

/-- C21 (amended).  A task without subtasks has the percentage 100 when its status is
`completed` and 0 otherwise.  A task with `n ≥ 1` subtasks (fewer than `2 ^ 32`, as in every
JavaScript array), `c` of them completed, has a percentage within one half of `100 * c / n`;
it is `round (100 * c / n)` unless `100 * c / n` lies exactly half-way between two integers;
and it is the same for every task with these subtasks, whatever the status. -/
theorem completionPercentage_derived (t : Task) (c n : Nat) (hn : t.subtasks.length = n)
    (hc : (t.subtasks.filter fun s => s.completed).length = c) :
    (n = 0 → t.completionPercentage = if t.status = "completed" then 100 else 0)
    ∧ (1 ≤ n → n < 2 ^ 32 →
        |(t.completionPercentage : ℚ) - 100 * c / n| ≤ 1 / 2
        ∧ (Int.fract ((100 * c : ℚ) / n) ≠ 1 / 2 →
            (t.completionPercentage : ℤ) = round ((100 * c : ℚ) / n))
        ∧ ∀ t2 : Task, t2.subtasks = t.subtasks →
            t2.completionPercentage = t.completionPercentage) := by
  constructor
  · intro h0
    unfold Task.completionPercentage
    rw [if_pos (by omega)]
  · intro h1 h32
    have h := completionPercentage_near t c n hn hc h1 h32
    refine ⟨h.1, h.2, ?_⟩
    intro t2 h2
    have hne : t.subtasks.length ≠ 0 := by omega
    rw [completionPercentage_eq t hne, completionPercentage_eq t2 (by rw [h2]; exact hne), h2]

/-- C21 (amended), instantiated: three completed subtasks out of four give `round (100 * 3 / 4)`. -/
theorem completionPercentage_derived_witness :
    (progressTask 3 4).subtasks.length = 4
    ∧ ((progressTask 3 4).subtasks.filter fun s => s.completed).length = 3
    ∧ ((progressTask 3 4).completionPercentage : ℤ)
        = round ((100 * ((3 : ℕ) : ℚ)) / ((4 : ℕ) : ℚ)) :=
  ⟨by decide, by decide,
   ((completionPercentage_derived (progressTask 3 4) 3 4 (by decide) (by decide)).2
      (by decide) (by decide)).2.1 (by norm_num)⟩

/-- C30 (counterexample).  One completed subtask out of 201 gives the percentage 0, and
199 completed subtasks out of 200 give the percentage 100. -/
theorem completionPercentage_reaches_ends :
    (progressTask 1 201).subtasks.length = 201
    ∧ ((progressTask 1 201).subtasks.filter fun s => s.completed).length = 1
    ∧ (progressTask 1 201).completionPercentage = 0
    ∧ (progressTask 199 200).subtasks.length = 200
    ∧ ((progressTask 199 200).subtasks.filter fun s => s.completed).length = 199
    ∧ (progressTask 199 200).completionPercentage = 100 := by
  set_option maxRecDepth 20000 in decide

/-- C30 (amended).  For a task with `n ≥ 1` subtasks (fewer than `2 ^ 32`), `c` of them
completed, the percentage is a natural number of at most 100; with at most 200 subtasks it is 0
only if no subtask is completed, and with at most 199 subtasks it is 100 only if every subtask
is completed. -/
theorem completionPercentage_range (t : Task) (c n : Nat) (hn : t.subtasks.length = n)
    (hc : (t.subtasks.filter fun s => s.completed).length = c) (h1 : 1 ≤ n) (h32 : n < 2 ^ 32) :
    t.completionPercentage ≤ 100
    ∧ (n ≤ 200 → t.completionPercentage = 0 → c = 0)
    ∧ (n ≤ 199 → t.completionPercentage = 100 → c = n) := by
  have hne : t.subtasks.length ≠ 0 := by omega
  have hcn : c ≤ n := by rw [← hc, ← hn]; exact completed_le t
  rw [completionPercentage_eq t hne, hc, hn]
  have hK := Nat.div_add_mod (200 * c + n) (2 * n)
  have hρ := Nat.mod_lt (200 * c + n) (show 0 < 2 * n by omega)
  have hK100 : (200 * c + n) / (2 * n) < 101 := by
    rw [Nat.div_lt_iff_lt_mul (by omega)]
    omega
  have hp := mathRound_percent c n h1 hcn h32
  generalize (200 * c + n) / (2 * n) = K at hK hp hK100
  generalize (200 * c + n) % (2 * n) = ρ at hK hρ hp
  refine ⟨?_, ?_, ?_⟩
  · rcases hp with h | ⟨_, h⟩ <;> omega
  · intro h200 h0
    rcases hp with h | ⟨hρ0, h⟩
    · have hK0 : K = 0 := by omega
      subst hK0
      omega
    · have hK1 : K = 1 := by omega
      subst hK1
      have hn200 : n = 200 := by omega
      have hc1 : c = 1 := by omega
      subst hn200 hc1
      revert h0
      decide
  · intro h199 h100
    rcases hp with h | ⟨_, h⟩
    · have hK0 : K = 100 := by omega
      subst hK0
      omega
    · omega

/-- C30 (amended), instantiated: three subtasks, all completed. -/
theorem completionPercentage_range_witness :
    (progressTask 3 3).completionPercentage ≤ 100
    ∧ (3 ≤ 200 → (progressTask 3 3).completionPercentage = 0 → 3 = 0)
    ∧ (3 ≤ 199 → (progressTask 3 3).completionPercentage = 100 → 3 = 3) :=
  completionPercentage_range (progressTask 3 3) 3 3 (by decide) (by decide) (by decide)
    (by decide)

/-! ## The error envelope -/

/-- C22 (a failed validation is answered without a code).  When `validationResult(req)` holds an error, `updateTask`,
`updateNote` and `sendMessage` answer 400 with `error` and `details` and no `code`, whatever
the rest of the request is; the title check that `addSubtask` makes by hand answers 400 with
the code `VALIDATION_ERROR`. -/
theorem validation_failure_lacks_code (e : String) (es : List String) :
    (∀ (db : List Task) (userId taskId : ObjectId) (body : TaskUpdate) (now : Time),
      (updateTask db userId taskId (e :: es) body now).1
        = .fail 400 { error := "Validation failed", code := none, details := e :: es })
    ∧ (∀ (db : List Note) (userId noteId : ObjectId) (body : NoteUpdate) (now : Time),
      (updateNote db userId noteId (e :: es) body now).1
        = .fail 400 { error := "Validation failed", code := none, details := e :: es })
    ∧ (∀ (complete : String → List ChatTurn → Option Completion) (db : List ChatMessage)
        (userId : ObjectId) (body : SendBody) (freshSession : String)
        (userMsgId replyId : ObjectId) (now later : Time),
      (sendMessage complete db userId (e :: es) body freshSession userMsgId replyId now
          later).reply
        = .fail 400 { error := "Validation failed", code := none, details := e :: es })
    ∧ (∀ (db : List Task) (userId taskId newId : ObjectId) (now : Time),
      (addSubtask db userId taskId none newId now).1
        = .fail 400 { error := "Subtask title is required", code := some "VALIDATION_ERROR" }) := by
  refine ⟨?_, ?_, ?_, ?_⟩
  · intro db userId taskId body now
    simp [updateTask]
  · intro db userId noteId body now
    simp [updateNote]
  · intro complete db userId body freshSession userMsgId replyId now later
    simp [sendMessage]
  · intro db userId taskId newId now
    simp [addSubtask, truthyStr]

/-! ## The owner of a document under an update -/

/-- C23 (a `$set` of `user` changes the owner).  `delete updateData.user` removes the top-level `user` key only: a
body `{ "$set": { "user": 8 } }` sent by user 7 for an own task, or an own note, is passed to
`findOneAndUpdate` unchanged and makes user 8 the owner of the stored document, while the same
`user` at the top level of the body is dropped. -/
theorem update_dollarSet_transfers_owner :
    (updateTask [sampleTask] 7 1 [] { dollarSet := some { user := some 8 } } 5).2
      = [{ sampleTask with user := 8, updatedAt := 5 }]
    ∧ (updateNote [sampleNote] 7 1 [] { dollarSet := some { user := some 8 } } 5).2
      = [{ sampleNote with user := 8, lastEditedBy := some 7, updatedAt := 5 }]
    ∧ (updateTask [sampleTask] 7 1 [] { top := { user := some 8 } } 5).2
      = [{ sampleTask with updatedAt := 5 }]
    ∧ (updateNote [sampleNote] 7 1 [] { top := { user := some 8 } } 5).2
      = [{ sampleNote with lastEditedBy := some 7, updatedAt := 5 }] := by
  refine ⟨?_, ?_, ?_, ?_⟩ <;> with_unfolding_all decide

/-! ## Filters of the note list under a search term -/

/-- C24 (the search path drops the filters).  User 7 has one note, of category `personal`, neither pinned nor
archived.  With a search term that the text index answers, `getNotes` returns this note to a
request for category `study`, to a request for archived notes and to a request for pinned
notes: the filter object is built and not used on this path.  When the `$text` query rejects
and the regex fallback answers, the same three requests return nothing. -/
theorem getNotes_search_ignores_filters :
    (getNotes textEngine [sampleNote] 7 { search := some "list", category := some "study" }).notes
      = [sampleNote]
    ∧ (getNotes textEngine [sampleNote] 7 { search := some "list", archived := some "true" }).notes
      = [sampleNote]
    ∧ (getNotes textEngine [sampleNote] 7 { search := some "list", pinned := some "true" }).notes
      = [sampleNote]
    ∧ (getNotes regexEngine [sampleNote] 7
        { search := some "list", category := some "study" }).notes = []
    ∧ (getNotes regexEngine [sampleNote] 7
        { search := some "list", archived := some "true" }).notes = []
    ∧ (getNotes regexEngine [sampleNote] 7
        { search := some "list", pinned := some "true" }).notes = [] := by
  refine ⟨?_, ?_, ?_, ?_, ?_, ?_⟩ <;> decide

/-! ## Pruning in the rate limiter -/

/-- C25 (counterexample).  A limiter of one attempt per second admits `10.0.0.1` at time 0.
At time 1000 the recorded attempt is exactly `windowMs` old, so it is not older than
`now - windowMs`; the limiter drops it all the same, admits the call, and holds `[1000]`. -/
theorem rate_limit_drops_attempt_at_window_edge :
    (runLimiter (createRateLimiter 1000 1 none) (fun _ => none) [("10.0.0.1", 0)]).2 "10.0.0.1"
      = some [0]
    ∧ ¬ ((0 : Time) < 1000 - ((1000 : Nat) : Time))
    ∧ (createRateLimiter 1000 1 none
        (runLimiter (createRateLimiter 1000 1 none) (fun _ => none) [("10.0.0.1", 0)]).2
        "10.0.0.1" 1000).1 = .next
    ∧ (createRateLimiter 1000 1 none
        (runLimiter (createRateLimiter 1000 1 none) (fun _ => none) [("10.0.0.1", 0)]).2
        "10.0.0.1" 1000).2 "10.0.0.1" = some [1000] := by
  refine ⟨?_, ?_, ?_, ?_⟩ <;> decide

/-- C25 (amended).  On each call the limiter keeps, of the recorded attempts of the calling key,
exactly those newer than `now - windowMs` (it drops every attempt whose time is at most
`now - windowMs`, the one recorded exactly `windowMs` ago included); it rejects with 429 when
`max` or more are kept and otherwise appends `now`; the attempts of every other key stay as
they are. -/
theorem rate_limit_prunes_then_decides (windowMs max : Nat) (message : Option String)
    (attempts : Attempts) (key : String) (now : Time) :
    (∀ t, t ∈ (((attempts key).getD []).filter fun t => decide (t > now - windowMs))
        ↔ t ∈ (attempts key).getD [] ∧ ¬ t ≤ now - windowMs)
    ∧ (createRateLimiter windowMs max message attempts key now).1
        = (if max ≤ (((attempts key).getD []).filter fun t => decide (t > now - windowMs)).length
          then .reply 429 ((truthyStr message).getD "Too many requests") "RATE_LIMIT_EXCEEDED"
            ((windowMs + 999) / 1000)
          else .next)
    ∧ ((createRateLimiter windowMs max message attempts key now).2 key).getD []
        = (if max ≤ (((attempts key).getD []).filter fun t => decide (t > now - windowMs)).length
          then ((attempts key).getD []).filter fun t => decide (t > now - windowMs)
          else (((attempts key).getD []).filter fun t => decide (t > now - windowMs)) ++ [now])
    ∧ (∀ k, k ≠ key → (createRateLimiter windowMs max message attempts key now).2 k
        = attempts k) := by
  refine ⟨?_, createRateLimiter_outcome windowMs max message attempts key now,
    createRateLimiter_recorded windowMs max message attempts key now, ?_⟩
  · intro t
    simp only [List.mem_filter, decide_eq_true_eq, gt_iff_lt, not_le]
  · intro k hk
    exact createRateLimiter_other windowMs max message attempts key k now hk

/-- C25 (amended), instantiated on the login limiter after two calls of `10.0.0.1`: a call by `10.0.0.2`
leaves the two recorded attempts of `10.0.0.1` in place. -/
theorem rate_limit_prunes_then_decides_witness :
    "10.0.0.1" ≠ "10.0.0.2"
    ∧ (createRateLimiter 900000 5 none
        (runLimiter (createRateLimiter 900000 5 none) (fun _ => none)
          [("10.0.0.1", 0), ("10.0.0.1", 1000)]).2 "10.0.0.2" 2000).2 "10.0.0.1"
      = (runLimiter (createRateLimiter 900000 5 none) (fun _ => none)
          [("10.0.0.1", 0), ("10.0.0.1", 1000)]).2 "10.0.0.1" :=
  ⟨by decide,
   (rate_limit_prunes_then_decides 900000 5 none
      (runLimiter (createRateLimiter 900000 5 none) (fun _ => none)
        [("10.0.0.1", 0), ("10.0.0.1", 1000)]).2 "10.0.0.2" 2000).2.2.2 "10.0.0.1" (by decide)⟩

/-! ## Invariants of the rate limiter -/

/-- The entry of the calling key after a call. -/
theorem createRateLimiter_entry (w max : Nat) (msg : Option String) (a : Attempts)
    (key : String) (now : Time) :
    (createRateLimiter w max msg a key now).2 key
      = if max ≤ (((a key).getD []).filter fun t => decide (t > now - w)).length then
          (a key).map fun times => times.filter fun t => decide (t > now - w)
        else some ((((a key).getD []).filter fun t => decide (t > now - w)) ++ [now]) := by
  unfold createRateLimiter
  cases hk : a key with
  | none =>
    by_cases hm : max ≤ 0
    · simp [hk, hm]
    · simp [hk, hm, Attempts.set]
  | some l =>
    by_cases hm : max ≤ (l.filter fun t => decide (t > now - w)).length
    · simp [hk, hm, Attempts.set]
    · simp [hk, hm, Attempts.set]

/-- What a call does to its own key is decided by the recorded attempts of that key alone. -/
theorem createRateLimiter_congr (w max : Nat) (msg : Option String) (a b : Attempts)
    (key : String) (now : Time) (h : a key = b key) :
    (createRateLimiter w max msg a key now).1 = (createRateLimiter w max msg b key now).1
    ∧ (createRateLimiter w max msg a key now).2 key
        = (createRateLimiter w max msg b key now).2 key := by
  rw [createRateLimiter_outcome, createRateLimiter_outcome, createRateLimiter_entry,
    createRateLimiter_entry, h]
  exact ⟨rfl, rfl⟩

/-- One call keeps the number of recorded attempts of every key within `max`. -/
theorem createRateLimiter_bounded (w max : Nat) (msg : Option String) (a : Attempts)
    (k : String) (now : Time) (h : ∀ key, ((a key).getD []).length ≤ max) :
    ∀ key, (((createRateLimiter w max msg a k now).2 key).getD []).length ≤ max := by
  intro key
  by_cases hk : key = k
  · subst hk
    rw [createRateLimiter_recorded]
    split
    · exact Nat.le_trans (List.length_filter_le _ _) (h key)
    · rw [List.length_append, List.length_singleton]
      omega
  · rw [createRateLimiter_other w max msg a k key now hk]
    exact h key

theorem runLimiter_bounded (w max : Nat) (msg : Option String) (calls : List (String × Time)) :
    ∀ a : Attempts, (∀ key, ((a key).getD []).length ≤ max) →
      ∀ key, (((runLimiter (createRateLimiter w max msg) a calls).2 key).getD []).length
        ≤ max := by
  induction calls with
  | nil => intro a h key; exact h key
  | cons c rest ih =>
    intro a h key
    obtain ⟨k, t⟩ := c
    simp only [runLimiter]
    exact ih _ (createRateLimiter_bounded w max msg a k t h) key

/-- The calls of one key see the run as if the calls of the other keys were not there. -/
theorem runLimiter_key_alone (w max : Nat) (msg : Option String) (key : String)
    (calls : List (String × Time)) :
    ∀ a b : Attempts, a key = b key →
      outcomesOf (createRateLimiter w max msg) key a calls
          = (runLimiter (createRateLimiter w max msg) b
              (calls.filter fun c => decide (c.1 = key))).1
        ∧ (runLimiter (createRateLimiter w max msg) a calls).2 key
          = (runLimiter (createRateLimiter w max msg) b
              (calls.filter fun c => decide (c.1 = key))).2 key := by
  induction calls with
  | nil => intro a b h; exact ⟨rfl, h⟩
  | cons c rest ih =>
    intro a b h
    obtain ⟨k, t⟩ := c
    by_cases hk : k = key
    · subst hk
      have hc := createRateLimiter_congr w max msg a b k t h
      have hi := ih _ _ hc.2
      simp only [outcomesOf, runLimiter, List.filter_cons, decide_True, if_true,
        List.singleton_append]
      exact ⟨by rw [hc.1, hi.1], hi.2⟩
    · have hkey : key ≠ k := fun e => hk e.symm
      have ho := createRateLimiter_other w max msg a k key t hkey
      have hi := ih (createRateLimiter w max msg a k t).2 b (by rw [ho, h])
      simp only [outcomesOf, runLimiter, List.filter_cons, hk, decide_False, if_false,
        List.nil_append, Bool.false_eq_true]
      exact hi

/-- C26.  For every limiter (any window, any `max ≥ 0`) and every sequence of calls by any keys
at any times (non-decreasing ones included) from the empty map: no key ever holds more than
`max` recorded attempts; a rejected call leaves the list of its key as the pruned list, without
the rejected time; a call by one key changes neither the recorded attempts of another key nor
the outcome of that key's next call; and over a whole run the outcomes and the recorded
attempts of a key are those of the run of its own calls alone. -/
theorem rate_limiter_invariants (windowMs max : Nat) (message : Option String) :
    (∀ (calls : List (String × Time)) (key : String),
        (((runLimiter (createRateLimiter windowMs max message) (fun _ => none) calls).2
          key).getD []).length ≤ max)
    ∧ (∀ (attempts : Attempts) (key : String) (now : Time),
        (createRateLimiter windowMs max message attempts key now).1 ≠ .next →
        ((createRateLimiter windowMs max message attempts key now).2 key).getD []
          = ((attempts key).getD []).filter fun t => decide (t > now - windowMs))
    ∧ (∀ (attempts : Attempts) (key k : String) (now : Time), k ≠ key →
        (createRateLimiter windowMs max message attempts key now).2 k = attempts k
        ∧ ∀ t, (createRateLimiter windowMs max message
              (createRateLimiter windowMs max message attempts key now).2 k t).1
            = (createRateLimiter windowMs max message attempts k t).1)
    ∧ (∀ (calls : List (String × Time)) (key : String),
        outcomesOf (createRateLimiter windowMs max message) key (fun _ => none) calls
          = (runLimiter (createRateLimiter windowMs max message) (fun _ => none)
              (calls.filter fun c => decide (c.1 = key))).1
        ∧ (runLimiter (createRateLimiter windowMs max message) (fun _ => none) calls).2 key
          = (runLimiter (createRateLimiter windowMs max message) (fun _ => none)
              (calls.filter fun c => decide (c.1 = key))).2 key) := by
  refine ⟨?_, ?_, ?_, ?_⟩
  · intro calls key
    exact runLimiter_bounded windowMs max message calls (fun _ => none)
      (fun _ => Nat.zero_le _) key
  · intro attempts key now hrej
    rw [createRateLimiter_recorded]
    rw [createRateLimiter_outcome] at hrej
    split
    · rfl
    · rename_i hlt
      rw [if_neg hlt] at hrej
      exact absurd rfl hrej
  · intro attempts key k now hk
    have ho := createRateLimiter_other windowMs max message attempts key k now hk
    exact ⟨ho, fun t => (createRateLimiter_congr windowMs max message _ attempts k t ho).1⟩
  · intro calls key
    exact runLimiter_key_alone windowMs max message key calls _ _ rfl

/-- C26, instantiated on the login limiter: `10.0.0.1` calls five times inside a second and is
admitted, `10.0.0.2` calls in between; the sixth call of `10.0.0.1` is rejected and not
recorded, and the next call of `10.0.0.2` is answered as if `10.0.0.1` had not called. -/
theorem rate_limiter_invariants_witness :
    (createRateLimiter 900000 5 none
        (runLimiter (createRateLimiter 900000 5 none) (fun _ => none)
          [("10.0.0.1", 0), ("10.0.0.1", 100), ("10.0.0.2", 150), ("10.0.0.1", 200),
           ("10.0.0.1", 300), ("10.0.0.1", 400)]).2 "10.0.0.1" 500).1 ≠ .next
    ∧ ((createRateLimiter 900000 5 none
        (runLimiter (createRateLimiter 900000 5 none) (fun _ => none)
          [("10.0.0.1", 0), ("10.0.0.1", 100), ("10.0.0.2", 150), ("10.0.0.1", 200),
           ("10.0.0.1", 300), ("10.0.0.1", 400)]).2 "10.0.0.1" 500).2 "10.0.0.1").getD []
      = [0, 100, 200, 300, 400]
    ∧ "10.0.0.2" ≠ "10.0.0.1"
    ∧ (∀ t, (createRateLimiter 900000 5 none
          (createRateLimiter 900000 5 none (fun _ => none) "10.0.0.1" 0).2 "10.0.0.2" t).1
        = (createRateLimiter 900000 5 none (fun _ => none) "10.0.0.2" t).1) :=
  ⟨by decide,
   ((rate_limiter_invariants 900000 5 none).2.1 _ "10.0.0.1" 500 (by decide)).trans
     (by decide),
   by decide,
   ((rate_limiter_invariants 900000 5 none).2.2.1 (fun _ => none) "10.0.0.1" "10.0.0.2" 0
     (by decide)).2⟩

/-! ## Overdue tasks -/

/-- The `isOverdue` virtual in words: a due date is set, it is before `now`, and the status is
not `completed`. -/
theorem Task.isOverdue_iff (t : Task) (now : Time) :
    t.isOverdue now = true
      ↔ (∃ dueDate, t.dueDate = some dueDate ∧ dueDate < now) ∧ t.status ≠ "completed" := by
  unfold Task.isOverdue
  cases hd : t.dueDate with
  | none => simp
  | some d =>
    by_cases hs : t.status = "completed"
    · simp [hs]
    · simp [hs]

/-- The filter of `getOverdue`, without the owner, is the `isOverdue` virtual. -/
theorem getOverdue_filter_eq (t : Task) (now : Time) :
    (t.status != "completed" && t.dueDate.any fun dueDate => decide (dueDate < now))
      = t.isOverdue now := by
  unfold Task.isOverdue
  cases hd : t.dueDate with
  | none => simp
  | some d =>
    by_cases hs : t.status = "completed"
    · simp [hs]
    · simp [hs]

/-- The `$cond` of the `overdue` sum in `getTaskStats` is the `isOverdue` virtual. -/
theorem stats_overdue_cond_eq (t : Task) (now : Time) :
    (t.status != "completed" && aggLtDate t.dueDate now && t.dueDate != none)
      = t.isOverdue now := by
  unfold Task.isOverdue aggLtDate
  cases hd : t.dueDate with
  | none => simp
  | some d =>
    have h2 : ((some d : Option Time) != none) = true := rfl
    by_cases hs : t.status = "completed"
    · simp [hs]
    · simp [hs, h2]

theorem getTaskStats_overdue (db : List Task) (userId : ObjectId) (now : Time) :
    (getTaskStats db userId now).overview.overdue
      = (db.filter fun d => d.user == userId && d.isOverdue now).length := by
  unfold getTaskStats
  by_cases he : (db.filter fun d => d.user == userId) = []
  · have h0 : (db.filter fun d => d.user == userId && d.isOverdue now) = [] := by
      rw [List.filter_eq_nil_iff] at he ⊢
      intro d hd
      have := he d hd
      simp only [Bool.and_eq_true, not_and]
      intro hu
      exact absurd hu this
    simp [he, h0]
  · have hne : (db.filter fun d => d.user == userId).isEmpty = false := by
      cases h : db.filter fun d => d.user == userId with
      | nil => exact absurd h he
      | cons _ _ => rfl
    simp only [hne, Bool.false_eq_true, if_false, Option.getD_some, List.filter_filter]
    congr 1
    apply List.filter_congr
    intro d _
    rw [← stats_overdue_cond_eq d now]
    cases d.user == userId <;> simp

/-- C27.  The three definitions of an overdue task agree at every clock: the `isOverdue`
virtual holds exactly for a task with a due date before `now` and a status other than
`completed`; `getOverdue` returns exactly the tasks of the user for which the virtual holds; and
the `overdue` sum of `getTaskStats` counts exactly those tasks.  A cancelled task past its due
date is overdue under all three. -/
theorem overdue_definitions_agree :
    (∀ (t : Task) (now : Time),
      (t.isOverdue now = true
        ↔ (∃ dueDate, t.dueDate = some dueDate ∧ dueDate < now) ∧ t.status ≠ "completed"))
    ∧ (∀ (db : List Task) (userId : ObjectId) (now : Time) (t : Task),
      (t ∈ Task.getOverdue db userId now ↔ t ∈ db ∧ t.user = userId ∧ t.isOverdue now = true))
    ∧ (∀ (db : List Task) (userId : ObjectId) (now : Time),
      (getTaskStats db userId now).overview.overdue
        = (db.filter fun d => d.user == userId && d.isOverdue now).length
      ∧ (getTaskStats db userId now).overview.overdue = (Task.getOverdue db userId now).length
      ∧ (getOverdueTasks db userId now).2 = (getTaskStats db userId now).overview.overdue)
    ∧ (({ sampleTask with status := "cancelled", dueDate := some 5 } : Task).isOverdue 10 = true
      ∧ Task.getOverdue [{ sampleTask with status := "cancelled", dueDate := some 5 }] 7 10
          = [{ sampleTask with status := "cancelled", dueDate := some 5 }]
      ∧ (getTaskStats [{ sampleTask with status := "cancelled", dueDate := some 5 }] 7
          10).overview.overdue = 1) := by
  have hlen : ∀ (db : List Task) (userId : ObjectId) (now : Time),
      (Task.getOverdue db userId now).length
        = (db.filter fun d => d.user == userId && d.isOverdue now).length := by
    intro db userId now
    unfold Task.getOverdue
    rw [length_sortDocs]
    congr 1
    apply List.filter_congr
    intro d _
    rw [Bool.and_assoc, getOverdue_filter_eq]
  refine ⟨Task.isOverdue_iff, ?_, ?_, ?_⟩
  · intro db userId now t
    unfold Task.getOverdue
    rw [mem_sortDocs, List.mem_filter, Bool.and_assoc, getOverdue_filter_eq]
    simp
  · intro db userId now
    refine ⟨getTaskStats_overdue db userId now, ?_, ?_⟩
    · rw [getTaskStats_overdue, hlen]
    · show (Task.getOverdue db userId now).length = _
      rw [getTaskStats_overdue, hlen]
  · refine ⟨by decide, by decide, by decide⟩

/-! ## A tag added and removed again -/

/-- Removing the tag that `Note.addTag` appended gives the tag list back. -/
theorem filter_ne_append_self (tags : List String) (tag : String) (h : tag ∉ tags) :
    (tags ++ [tag]).filter (fun t => t ≠ tag) = tags := by
  rw [List.filter_append]
  have h1 : tags.filter (fun t => t ≠ tag) = tags := by
    rw [List.filter_eq_self]
    intro t ht
    have : t ≠ tag := fun e => h (e ▸ ht)
    simpa using this
  rw [h1]
  simp

theorem Note.save_tags (db : List Note) (orig cur : Note) (now : Time) :
    (Note.save db orig cur now).1.tags = cur.tags := by
  unfold Note.save Note.preSave
  dsimp only
  split <;> split <;> rfl

/-- The model methods alone do round-trip: `removeTag` after `addTag` of the same string, not
in the list before, gives the tag list back. -/
theorem Note.removeTag_addTag_tags (db db2 : List Note) (n : Note) (tag : String)
    (now later : Time) (h : tag ∉ n.tags) :
    (Note.removeTag db2 (Note.addTag db n tag now).1 tag later).1.tags = n.tags := by
  unfold Note.removeTag
  rw [Note.save_tags]
  unfold Note.addTag
  have hc : n.tags.contains tag = false := by simpa using h
  simp only [hc, Bool.not_false, if_true]
  rw [Note.save_tags]
  exact filter_ne_append_self n.tags tag h

/-- C28 (the added tag is not removed).  The note of user 7 has no tags.  `POST /tags` with the tag `Math`
stores `math` (the handler trims and lower-cases), and `DELETE /tags/Math` then removes the
elements equal to `Math`, of which there is none: the tag list is `["math"]`, not the empty
list the note started with.  Removing `math` does restore it. -/
theorem addTag_removeTag_not_identity :
    sampleNote.tags = []
    ∧ ((addTag [sampleNote] 7 1 (some "Math") 5).1.note.map fun n => n.tags) = some ["math"]
    ∧ ((removeTag (addTag [sampleNote] 7 1 (some "Math") 5).2 7 1 "Math" 6).1.note.map
        fun n => n.tags) = some ["math"]
    ∧ ((removeTag (addTag [sampleNote] 7 1 (some "Math") 5).2 7 1 "Math" 6).2.map
        fun n => n.tags) = [["math"]]
    ∧ ((removeTag (addTag [sampleNote] 7 1 (some "Math") 5).2 7 1 "math" 6).2.map
        fun n => n.tags) = [[]] := by
  refine ⟨?_, ?_, ?_, ?_, ?_⟩ <;> with_unfolding_all decide

/-! ## Completion of a subtask -/

/-- C29 (the string `false` sets `completedAt`).  Task 1 of user 7 has the subtask 10, created by `addSubtask` with
`completed = false` and `completedAt = null`.  `PUT /subtasks/10` with the body
`{ "completed": "false" }` (a string, which the route's `isBoolean` check accepts) is answered
200 and stores `completed = false` (the Mongoose cast of the string) together with
`completedAt = now` (the string is truthy).  The booleans `true` and `false` store consistent
pairs. -/
theorem updateSubtask_string_false_sets_completedAt :
    ((addSubtask [sampleTask] 7 1 (some "Outline") 10 5).2.map fun t => t.subtasks)
      = [[{ id := 10, title := "Outline", completed := false, completedAt := none }]]
    ∧ ((updateSubtask (addSubtask [sampleTask] 7 1 (some "Outline") 10 5).2 7 1 10 none
          (some (.str "false")) 6).2.map fun t => t.subtasks)
      = [[{ id := 10, title := "Outline", completed := false, completedAt := some 6 }]]
    ∧ ((updateSubtask (addSubtask [sampleTask] 7 1 (some "Outline") 10 5).2 7 1 10 none
          (some (.bool true)) 6).2.map fun t => t.subtasks)
      = [[{ id := 10, title := "Outline", completed := true, completedAt := some 6 }]]
    ∧ ((updateSubtask (addSubtask [sampleTask] 7 1 (some "Outline") 10 5).2 7 1 10 none
          (some (.bool false)) 6).2.map fun t => t.subtasks)
      = [[{ id := 10, title := "Outline", completed := false, completedAt := none }]]
    ∧ ((updateSubtask (addSubtask [sampleTask] 7 1 (some "Outline") 10 5).2 7 1 10 none
          none 6).2.map fun t => t.subtasks)
      = [[{ id := 10, title := "Outline", completed := false, completedAt := none }]] := by
  refine ⟨?_, ?_, ?_, ?_, ?_⟩ <;> with_unfolding_all decide

end Dashboard
